import Mathlib

/-! # ggaoed: ACL map, configuration reload and control client

A shallow embedding of parts of `ggaoed.c` (the AoE target daemon) and
`ggaoectl.c` (its control client), with the properties proved about them.

Conventions of the embedding:

* `unsigned` values are natural numbers; where the C arithmetic can wrap the
  result is reduced modulo `2^32` explicitly (`u32`).
* A C array is a `List`; the element read at index `i` is `getD i 0`.  Every
  theorem that reads the array carries the bounds that keep the reads inside it.
* Declarations of `ggaoed.h` / `ctl.h` that the functions use (array capacity,
  message sizes, command numbers) are parameters.
-/

namespace Ggaoed

/-! ## Machine integers -/

/-- Reduction of a natural number to the range of a C `unsigned` (32 bit). -/
def u32 (n : Nat) : Nat := n % 2 ^ 32

/-! ## ACL map (`ggaoed.c`, "ACL management") -/

/-- The `struct ether_addr`: `ETH_ALEN = 6` octets, `o0` being
`ether_addr_octet[0]`. -/
structure ether_addr where
  o0 : Fin 256
  o1 : Fin 256
  o2 : Fin 256
  o3 : Fin 256
  o4 : Fin 256
  o5 : Fin 256
deriving DecidableEq, Repr

/-- The member `u` of a `union padded_addr` after
`memset(&paddr, 0, sizeof(paddr)); paddr.e = *addr;`: the six octets followed by
two zero bytes, read as a little-endian 64-bit integer. -/
def padded_addr (addr : ether_addr) : Nat :=
  addr.o0.val + 2 ^ 8 * addr.o1.val + 2 ^ 16 * addr.o2.val + 2 ^ 24 * addr.o3.val
    + 2 ^ 32 * addr.o4.val + 2 ^ 40 * addr.o5.val

/-- The `struct acl_map`: the `unsigned length` and the array `entries` of
`union padded_addr` (each entry given by its member `u`).  The capacity
`G_N_ELEMENTS(acls->entries)` is the length of the list. -/
structure acl_map where
  length : Nat
  entries : List Nat
deriving DecidableEq, Repr

/-- The zero-filled map allocated by `g_slice_new0(struct acl_map)`, for an
`entries` array of `cap` elements. -/
def acl_map_new0 (cap : Nat) : acl_map :=
  { length := 0, entries := List.replicate cap 0 }

/-- The entries in use: the first `length` elements of `entries`. -/
def acl_map.used (acls : acl_map) : List Nat :=
  acls.entries.take acls.length

/-- The C library `memmove` on an array of 8-byte elements: `n` elements
starting at index `src` are copied to index `dst`, as if through a temporary
buffer. -/
def memmove (a : List Nat) (dst src n : Nat) : List Nat :=
  (List.range a.length).map fun k =>
    if dst ≤ k ∧ k < dst + n then a.getD (src + (k - dst)) 0 else a.getD k 0

/-- The scan of `add_one_acl`:
`for (i = 0; i < acls->length && acls->entries[i].u < paddr.u; i++);`
with `n` the number of indices left below `acls->length`; the value is the
final `i`. -/
def add_one_acl_scan (entries : List Nat) (paddr : Nat) : Nat → Nat → Nat
  | 0, i => i
  | n + 1, i =>
    if entries.getD i 0 < paddr then add_one_acl_scan entries paddr n (i + 1) else i

/-- The function `add_one_acl`: the return value and the map afterwards. -/
def add_one_acl (acls : acl_map) (addr : ether_addr) : Int × acl_map :=
  let paddr := padded_addr addr
  let i := add_one_acl_scan acls.entries paddr acls.length 0
  -- Don't add it twice
  if i < acls.length ∧ acls.entries.getD i 0 = paddr then (0, acls)
  -- Perform the overflow check _after_ the duplicate check
  else if acls.length ≥ acls.entries.length then (-1, acls)
  else
    (0, { length := u32 (acls.length + 1),
          entries := (memmove acls.entries (i + 1) i (acls.length - i)).set i paddr })

/-- The scan of `del_one_acl`:
`for (i = 0; i < acls->length; i++) if (acls->entries[i].u == paddr.u) break;`
with `n` the number of indices left below `acls->length`. -/
def del_one_acl_scan (entries : List Nat) (paddr : Nat) : Nat → Nat → Nat
  | 0, i => i
  | n + 1, i =>
    if entries.getD i 0 = paddr then i else del_one_acl_scan entries paddr n (i + 1)

/-- The function `del_one_acl`: the map afterwards. -/
def del_one_acl (acls : acl_map) (addr : ether_addr) : acl_map :=
  let paddr := padded_addr addr
  let i := del_one_acl_scan acls.entries paddr acls.length 0
  if i ≥ acls.length then acls
  else
    { length := acls.length - 1,
      entries := memmove acls.entries i (i + 1) (acls.length - i - 1) }

/-- The loop of `match_acl`, `while (l < u) { i = (l + u) / 2; ... }`, with the
sum `l + u` taken in `unsigned` arithmetic.  `none` when `fuel` iterations did
not reach a `return`. -/
def match_acl_loop (entries : List Nat) (paddr : Nat) : Nat → Nat → Nat → Option Bool
  | 0, _, _ => none
  | fuel + 1, l, u =>
    if l < u then
      let i := u32 (l + u) / 2
      if entries.getD i 0 < paddr then match_acl_loop entries paddr fuel (i + 1) u
      else if entries.getD i 0 > paddr then match_acl_loop entries paddr fuel l i
      else some true
    else some false

/-- The function `match_acl` ("Match a MAC address against an ACL map"), run
for at most `fuel` iterations of its loop: `some true` for `TRUE`, `some false`
for `FALSE`. -/
def match_acl (fuel : Nat) (acls : acl_map) (mac : ether_addr) : Option Bool :=
  match_acl_loop acls.entries (padded_addr mac) fuel 0 acls.length

/-- An address with first octet `b` and the other octets zero. -/
def mac_of_octet (b : Fin 256) : ether_addr := ⟨b, 0, 0, 0, 0, 0⟩

/-- A map of capacity four holding the padded addresses 3, 5 and 9. -/
def acl_example : acl_map := { length := 3, entries := [3, 5, 9, 0] }

/-- A full map of capacity three holding the padded addresses 3, 5 and 9. -/
def acl_example_full : acl_map := { length := 3, entries := [3, 5, 9] }

/-- One call on an ACL map, for sequences of calls. -/
inductive acl_call where
  | add (addr : ether_addr)
  | del (addr : ether_addr)
deriving DecidableEq, Repr

/-- The map after one call. -/
def acl_call.apply (acls : acl_map) : acl_call → acl_map
  | .add addr => (add_one_acl acls addr).2
  | .del addr => del_one_acl acls addr

/-- The map after a sequence of calls, first call first. -/
def acl_calls (acls : acl_map) (calls : List acl_call) : acl_map :=
  calls.foldl acl_call.apply acls

/-! ## Configuration handling (`ggaoed.c`)

The configuration file is read through glib's `GKeyFile`; the answers of that
library, of the C library and of the file system are inputs of the model.  A
step that reads through a NULL pointer, an uninitialised variable or past the
end of a string has no defined result: the functions concerned return an
`Option`, `none` standing for such a step. -/

/-- A C `double` as far as it is compared with constants: not-a-number, an
infinity, or a finite value, which is a rational number. -/
inductive double where
  | nan
  | neg_inf
  | finite (q : ℚ)
  | pos_inf
deriving DecidableEq

/-- The comparison `a >= c` for a finite constant `c`. -/
def double.ge (a : double) (c : ℚ) : Bool :=
  match a with
  | .nan => false
  | .neg_inf => false
  | .finite q => decide (c ≤ q)
  | .pos_inf => true

/-- The comparison `a < c` for a finite constant `c`. -/
def double.lt (a : double) (c : ℚ) : Bool :=
  match a with
  | .nan => false
  | .neg_inf => true
  | .finite q => decide (q < c)
  | .pos_inf => false

/-- The comparison `a <= c` for a finite constant `c`. -/
def double.le (a : double) (c : ℚ) : Bool :=
  match a with
  | .nan => false
  | .neg_inf => true
  | .finite q => decide (q ≤ c)
  | .pos_inf => false

/-- Result of a typed `g_key_file_get_*` call: the value, an error with code
`G_KEY_FILE_ERROR_KEY_NOT_FOUND`, or an error with another code, together with
the value the call returned then. -/
inductive key_result (α : Type) where
  | value (v : α)
  | key_not_found
  | other_error (returned : α)

/-- A loaded `GKeyFile`, given by the answers of the glib calls the daemon makes
on it.  `get_string`, `get_string_list` and `get_keys` are `none` where glib
returns NULL (and sets the error). -/
structure GKeyFile where
  get_groups : List String
  has_key : String → String → Bool
  get_keys : String → Option (List String)
  get_string : String → String → Option String
  get_string_list : String → String → Option (List String)
  get_boolean : String → String → key_result Bool
  get_integer : String → String → key_result Int
  get_double : String → String → key_result double

/-- The call `g_key_file_has_group`. -/
def GKeyFile.has_group (config : GKeyFile) (name : String) : Bool :=
  config.get_groups.contains name

/-- The macro `GRP_DEFAULTS`. -/
def GRP_DEFAULTS : String := "defaults"

/-- The macro `GRP_ACLS`. -/
def GRP_ACLS : String := "acls"

/-- The `struct acl`: a name and a map, NULL when the ACL is empty. -/
structure acl where
  name : String
  map : Option acl_map
deriving DecidableEq

/-- The `struct default_config` ("Configuration defaults").  Pointers are given
by what they point to, `none` for NULL; a pattern list is the list of its
pattern strings. -/
structure default_config where
  queue_length : Int
  direct_io : Bool
  trace_io : Bool
  pid_file : Option String
  ctl_socket : Option String
  statedir : Option String
  mtu : Int
  ring_size : Int
  send_buf_size : Int
  recv_buf_size : Int
  tx_ring_bug : Bool
  max_delay : double
  merge_delay : double
  interfaces : Option (List String)
  acls : Option (List acl)
deriving DecidableEq

/-- The all-zero `struct default_config` of a freshly started daemon. -/
def default_config_zero : default_config :=
  { queue_length := 0, direct_io := false, trace_io := false, pid_file := none,
    ctl_socket := none, statedir := none, mtu := 0, ring_size := 0, send_buf_size := 0,
    recv_buf_size := 0, tx_ring_bug := false, max_delay := .finite 0,
    merge_delay := .finite 0, interfaces := none, acls := none }

/-- The `struct device_config` filled by `parse_device`.  `shelf` is the value
stored by `htons`; the other numeric members hold the value assigned to them;
`max_delay` and `merge_delay` hold the nanoseconds computed from the seconds. -/
structure device_config where
  direct_io : Bool
  trace_io : Bool
  broadcast : Bool
  read_only : Bool
  type : Int
  capacity : Int
  wwn : List Nat
  dppolicy : Option String
  queue_length : Int
  shelf : Nat
  slot : Int
  max_delay : Int
  merge_delay : Int
  path : Option String
  iface_patterns : Option (List String)
  accept : Option acl_map
  deny : Option acl_map
deriving DecidableEq

/-- The `struct netif_config` filled by `parse_netif`. -/
structure netif_config where
  mtu : Int
  ring_size : Int
  send_buf_size : Int
  recv_buf_size : Int
deriving DecidableEq

/-- One node of the list `mac_list_t`: the six octets of a MAC address. -/
abbrev mac_octets := List Nat

/-- One node of the list `device_macs_t`, its member `macs` being the list of
MAC nodes from the head on. -/
structure device_macs_t where
  shelf : Nat
  slot : Nat
  device_id : Int
  macs : List mac_octets
deriving DecidableEq, Repr

/-- What the configuration code takes from the headers (`ggaoed.h`, `aoe.h`,
`config.h`), from the command line and from the system. -/
structure config_env where
  /-- Macro `MAX_QUEUE_LEN`. -/
  MAX_QUEUE_LEN : Nat
  /-- Macro `DEF_QUEUE_LEN`. -/
  DEF_QUEUE_LEN : Int
  /-- Macro `DEF_RING_SIZE`. -/
  DEF_RING_SIZE : Int
  /-- Macro `SHELF_BCAST`. -/
  SHELF_BCAST : Int
  /-- Macro `SLOT_BCAST`. -/
  SLOT_BCAST : Int
  /-- Macro `DEVICE_TYPES_END`. -/
  DEVICE_TYPES_END : Int
  /-- Macro `PHYS_T`. -/
  PHYS_T : Int
  /-- Macro `VIRTUAL_T`. -/
  VIRTUAL_T : Int
  /-- Macro `WWN_ALEN`. -/
  WWN_ALEN : Nat
  /-- Value of `sizeof(struct aoe_cfg_hdr)`. -/
  sizeof_aoe_cfg_hdr : Int
  /-- Value of `G_N_ELEMENTS(acls->entries)` for a `struct acl_map`. -/
  acl_capacity : Nat
  /-- Macro `PIDFILE_LOCATION`. -/
  PIDFILE_LOCATION : String
  /-- Macro `SOCKET_LOCATION`. -/
  SOCKET_LOCATION : String
  /-- Macro `STATEDIR`. -/
  STATEDIR : String
  /-- The static `debug_flag`, set from the command line. -/
  debug_flag : Bool
  /-- The static `tx_ring_bug`, set from the kernel version. -/
  tx_ring_bug : Bool
  /-- Whether the path is a directory the daemon may write to (`stat`,
  `S_ISDIR`, `access`). -/
  statedir_writable : String → Bool
  /-- The call `blkid_get_devname(dev_cache, "UUID", uuid)`. -/
  blkid_get_devname : Option String → Option String
  /-- The call `ether_aton_r`: the address when the string is a MAC address. -/
  ether_aton_r : String → Option ether_addr
  /-- The call `ether_hostton`: the address when `/etc/ethers` has the name. -/
  ether_hostton : String → Option ether_addr
  /-- The call `memset(&defaults, 0, sizeof(&defaults))`: the structure with its
  first `sizeof(struct default_config *)` bytes set to zero. -/
  memset_sizeof_pointer : default_config → default_config
  /-- The conversion of `tmp * NSEC_PER_SEC` to the type of the delay members. -/
  nsec_of_double : double → Int

/-- The C library `isspace` in the "C" locale. -/
def isspace (c : Char) : Bool :=
  c = ' ' || c = '\t' || c = '\n' || c = '\x0b' || c = '\x0c' || c = '\r'

/-- Reduction of an integer to the range of a C `int` (32 bit, two's
complement).  C leaves the overflow of `int` arithmetic undefined; the model
takes the wrap-around of the usual compilers. -/
def int_wrap (x : Int) : Int := (x + 2 ^ 31) % 2 ^ 32 - 2 ^ 31

/-- Conversion of an `int` to `unsigned`. -/
def unsigned_of_int (x : Int) : Nat := (x % 2 ^ 32).toNat

/-- The function `parse_flag`: the return value and what is left in `*val`. -/
def parse_flag (config : GKeyFile) (section_name flag : String) (defval : Bool) :
    Bool × Bool :=
  match config.get_boolean section_name flag with
  | .value v => (true, v)
  | .other_error v => (false, v)
  | .key_not_found => (true, defval)

/-- The function `parse_int`: the return value and what is left in `*val`. -/
def parse_int (config : GKeyFile) (section_name name : String) (defval : Int) :
    Bool × Int :=
  match config.get_integer section_name name with
  | .value v => (true, v)
  | .other_error v => (false, v)
  | .key_not_found => (true, defval)

/-- The function `parse_type`: the return value and what is left in `*val`,
which was `val` before the call. -/
def parse_type (env : config_env) (config : GKeyFile) (section_name name : String)
    (val : Int) (defval : Int) : Bool × Int :=
  let (ok, parsed_int) := parse_int config section_name name defval
  if ok then
    if parsed_int < env.DEVICE_TYPES_END ∧ parsed_int ≥ 0 then (true, parsed_int % 256)
    else (true, val)
  else (false, val)

/-- The function `parse_double`: the return value and what is left in `*val`. -/
def parse_double (config : GKeyFile) (section_name name : String) (defval : double) :
    Bool × double :=
  match config.get_double section_name name with
  | .value v => (true, v)
  | .other_error v => (false, v)
  | .key_not_found => (true, defval)

/-- The function `queue_length_valid`, whose parameter is `unsigned`. -/
def queue_length_valid (env : config_env) (len : Int) : Bool :=
  decide (unsigned_of_int len ≥ 1 ∧ unsigned_of_int len ≤ env.MAX_QUEUE_LEN)

/-- The function `delay_valid`. -/
def delay_valid (val : double) : Bool :=
  val.ge 0 && val.lt 1

/-- The loop of `build_patternlist` on one element: `while (isspace(*p)) p++;` -/
def skip_isspace : List Char → List Char
  | [] => []
  | c :: p => if isspace c then skip_isspace p else c :: p

/-- The function `build_patternlist`, a compiled pattern being given by the
string it was compiled from: the patterns appended to `list`. -/
def build_patternlist (list : List String) (elements : List String) : List String :=
  list ++ elements.map fun e => String.mk (skip_isspace e.toList)

/-! ### The `device-macs` list -/

/-- The function `skip_spaces`; a pointer into a string is the list of the
characters from it to the end. -/
def skip_spaces : List Char → List Char
  | [] => []
  | c :: p => if c = ' ' then skip_spaces p else c :: p

/-- The loop of `parse_number`, with the values of `*number` and `flag`. -/
def parse_number_loop : List Char → Int → Bool → List Char × Int × Bool
  | [], number, flag => ([], number, flag)
  | c :: p, number, flag =>
    if c.isDigit then
      parse_number_loop p (int_wrap (int_wrap (number * 10) + (c.toNat - '0'.toNat))) true
    else (c :: p, number, flag)

/-- The function `parse_number`: the returned pointer and `*number`. -/
def parse_number (p : List Char) : List Char × Int :=
  let (p1, number, flag) := parse_number_loop p 0 false
  (p1, if flag then number else -1)

/-- The function `parse_dev_name`: `none` for NULL, else the returned pointer,
`*shelf` and `*slot`. -/
def parse_dev_name (p : List Char) : Option (List Char × Int × Int) :=
  match p with
  | 'e' :: p1 =>
    let (p2, shelf) := parse_number p1
    if shelf < 0 then none
    else
      match p2 with
      | '.' :: p3 =>
        let (p4, slot) := parse_number p3
        if slot < 0 then none else some (p4, shelf, slot)
      | _ => none
  | _ => none

/-- Result of `parse_mac`. -/
inductive parse_mac_result where
  /-- The function returned NULL. -/
  | null
  /-- The function stepped over the terminating NUL of the string. -/
  | past_end
  /-- The function returned this pointer, with these octets in `mac`. -/
  | ok (p : List Char) (mac : mac_octets)
deriving DecidableEq, Repr

/-- The loop of `parse_mac`, `for (i = 0; i < ETH_ALEN; i++)`, with `n` the
number of rounds left (`ETH_ALEN - i`) and `mac` the octets stored so far. -/
def parse_mac_loop : Nat → List Char → mac_octets → parse_mac_result
  | 0, p, mac => .ok p mac
  | n + 1, p, mac =>
    let (p1, tmp) := parse_number p
    if tmp < 0 then .null
    else
      let mac1 := mac ++ [(tmp % 256).toNat]
      match p1 with
      | [] => if n ≥ 1 then .null else .past_end
      | c :: p2 => if n ≥ 1 ∧ c ≠ ':' then .null else parse_mac_loop n p2 mac1

/-- The function `parse_mac`. -/
def parse_mac (p : List Char) : parse_mac_result :=
  parse_mac_loop 6 p []

/-- The function `parse_dev_id`. -/
def parse_dev_id (p : List Char) : List Char × Int :=
  parse_number p

/-- The loop `while(strlen(p))` of `build_devices_macs`, for at most `fuel`
rounds; `mac_list` is `none` while the variable is uninitialised.  The value is
`none` when `parse_mac` stepped over the end of the string or the rounds ran
out, else `some none` when `parse_mac` returned NULL, else the list built. -/
def build_mac_list : Nat → List Char → Option (List mac_octets) → Nat →
    Option (Option (Option (List mac_octets)))
  | 0, _, _, _ => none
  | fuel + 1, p, mac_list, pos =>
    match p with
    | [] => some (some mac_list)
    | _ :: _ =>
      match parse_mac p with
      | .past_end => none
      | .null => some none
      | .ok p1 mac =>
        match (if pos = 0 then some [mac] else mac_list.map fun l => mac :: l) with
        | none => none
        | some l => build_mac_list fuel (skip_spaces p1) (some l) (pos + 1)

/-- The loop over the elements of `build_devices_macs`; `first` tells whether
`i == 0`, `mac_list` is the variable of that name (`none` while uninitialised)
and `devices_macs` the global list.  The value is `none` when a step has no
defined result, else the return value and the global list afterwards. -/
def build_devices_macs_loop : List String → Bool → Option (List mac_octets) →
    List device_macs_t → Option (Int × List device_macs_t)
  | [], _, _, devices_macs => some (1, devices_macs)
  | element :: elements, first, mac_list, devices_macs =>
    match parse_dev_name (skip_spaces element.toList) with
    | none => some (-1, devices_macs)
    | some (p, shelf, slot) =>
      match p with
      | ':' :: p1 =>
        let (p2, device_id) := parse_dev_id p1
        let p3 := skip_spaces p2
        match build_mac_list (p3.length + 1) p3 mac_list 0 with
        | none => none
        | some none => some (-1, devices_macs)
        | some (some none) => none
        | some (some (some l)) =>
          let node : device_macs_t :=
            { shelf := unsigned_of_int shelf, slot := unsigned_of_int slot,
              device_id := device_id, macs := l }
          build_devices_macs_loop elements false (some l)
            (if first then [node] else node :: devices_macs)
      | _ => some (-1, devices_macs)

/-- The function `build_devices_macs`, on the global list `devices_macs`. -/
def build_devices_macs (elements : List String) (devices_macs : List device_macs_t) :
    Option (Int × List device_macs_t) :=
  build_devices_macs_loop elements true none devices_macs

/-! ### Defaults, ACLs, devices and interfaces -/

/-- The function `parse_defaults`, on the globals `defaults` and
`devices_macs`: `none` when a step has no defined result, else the return value
and the two globals afterwards. -/
def parse_defaults (env : config_env) (config : GKeyFile) (defaults : default_config)
    (devices_macs : List device_macs_t) :
    Option (Bool × default_config × List device_macs_t) :=
  let after_macs : Option (List device_macs_t) :=
    match config.get_string_list GRP_DEFAULTS "device-macs" with
    | some macs_and_devices =>
      (build_devices_macs macs_and_devices devices_macs).map fun r => r.2
    | none => some devices_macs
  match after_macs with
  | none => none
  | some dm =>
    if !config.has_group GRP_DEFAULTS then some (true, defaults, dm) else
    let (r1, queue_length) := parse_int config GRP_DEFAULTS "queue-length" env.DEF_QUEUE_LEN
    let d1 := { defaults with queue_length := queue_length }
    if r1 && !queue_length_valid env queue_length then some (false, d1, dm) else
    let (r2, direct_io) := parse_flag config GRP_DEFAULTS "direct-io" true
    let (r3, trace_io) := parse_flag config GRP_DEFAULTS "trace-io" false
    let ret3 := r1 && r2 && r3
    -- The command line overrides the configuration
    let d3 := { d1 with direct_io := direct_io,
                        trace_io := if env.debug_flag then true else trace_io }
    let pid_file := (config.get_string GRP_DEFAULTS "pid-file").getD env.PIDFILE_LOCATION
    let ctl_socket :=
      (config.get_string GRP_DEFAULTS "control-socket").getD env.SOCKET_LOCATION
    let statedir := (config.get_string GRP_DEFAULTS "state-directory").getD env.STATEDIR
    let d4 := { d3 with pid_file := some pid_file, ctl_socket := some ctl_socket,
                        statedir := some statedir }
    if !env.statedir_writable statedir then some (false, d4, dm) else
    let (r5, mtu) := parse_int config GRP_DEFAULTS "mtu" 0
    let ret5 := ret3 && r5
    let d5 := { d4 with mtu := mtu }
    if ret5 && mtu ≠ 0 && mtu < 1024 + env.sizeof_aoe_cfg_hdr then some (false, d5, dm) else
    let (r6, ring_size) := parse_int config GRP_DEFAULTS "ring-buffer-size" env.DEF_RING_SIZE
    let ret6 := ret5 && r6
    let d6 := { d5 with ring_size := ring_size }
    if ret6 && ring_size < 0 then some (false, d6, dm) else
    let (r7, send_buf_size) := parse_int config GRP_DEFAULTS "send-buffer-size" 0
    let ret7 := ret6 && r7
    let d7 := { d6 with send_buf_size := send_buf_size }
    if ret7 && send_buf_size < 0 then some (false, d7, dm) else
    let (r8, recv_buf_size) := parse_int config GRP_DEFAULTS "receive-buffer-size" 0
    let ret8 := ret7 && r8
    let d8 := { d7 with recv_buf_size := recv_buf_size }
    if ret8 && recv_buf_size < 0 then some (false, d8, dm) else
    let (r9, tx_ring_bug) := parse_flag config GRP_DEFAULTS "tx-ring-bug" env.tx_ring_bug
    let ret9 := ret8 && r9
    let (r10, max_delay) := parse_double config GRP_DEFAULTS "max-delay" (.finite 0.001)
    let ret10 := ret9 && r10
    let d10 := { d8 with tx_ring_bug := tx_ring_bug, max_delay := max_delay }
    if ret10 && !delay_valid max_delay then some (false, d10, dm) else
    let (r11, merge_delay) := parse_double config GRP_DEFAULTS "merge-delay" (.finite 0)
    let ret11 := ret10 && r11
    let d11 := { d10 with merge_delay := merge_delay }
    if ret11 && !delay_valid merge_delay then some (false, d11, dm) else
    -- Compile the network interface pattern list
    let d12 :=
      match config.get_string_list GRP_DEFAULTS "interfaces" with
      | some patterns =>
        let list := build_patternlist [] patterns
        { d11 with interfaces := if list.length = 0 then none else some list }
      | none => d11
    some (ret11, d12, dm)

/-- The member `e` of a `union padded_addr` whose member `u` is given: the six
low bytes. -/
def padded_addr_e (u : Nat) : ether_addr :=
  { o0 := Fin.ofNat u, o1 := Fin.ofNat (u / 2 ^ 8), o2 := Fin.ofNat (u / 2 ^ 16),
    o3 := Fin.ofNat (u / 2 ^ 24), o4 := Fin.ofNat (u / 2 ^ 32),
    o5 := Fin.ofNat (u / 2 ^ 40) }

/-- The function `lookup_acl` on the array `defaults.acls`: `none` when the
array pointer is NULL, else the ACL found or NULL. -/
def lookup_acl (acls : Option (List acl)) (name : String) : Option (Option acl) :=
  acls.map fun l => l.find? fun a => a.name = name

/-- The loop of `concat_acl` over the entries `entries[i]`, `i` from the first
index on, `n` being the number of indices left below `src->map->length`. -/
def concat_acl_loop (entries : List Nat) : Nat → Nat → acl_map → Int × acl_map
  | 0, _, dst => (0, dst)
  | n + 1, i, dst =>
    let r := add_one_acl dst (padded_addr_e (entries.getD i 0))
    if r.1 ≠ 0 then (-1, r.2) else concat_acl_loop entries n (i + 1) r.2

/-- The function `concat_acl`: the return value and the map `dst` afterwards. -/
def concat_acl (dst : acl_map) (src : acl) : Int × acl_map :=
  match src.map with
  | none => (0, dst)
  | some map => concat_acl_loop map.entries map.length 0 dst

/-- The loop of `resolve_acls` over the values, on the map `acls` being built;
`known` is the array `defaults.acls`. -/
def resolve_acls_loop (env : config_env) (known : Option (List acl)) :
    List String → acl_map → Option acl_map
  | [], acls => some acls
  | value :: values, acls =>
    -- Try to parse the string as an ethernet MAC address first
    match env.ether_aton_r value with
    | some addr =>
      let r := add_one_acl acls addr
      if r.1 ≠ 0 then some r.2 else resolve_acls_loop env known values r.2
    | none =>
      -- Not a MAC address, maybe an already defined ACL
      match lookup_acl known value with
      | none => none
      | some (some ref) =>
        let r := concat_acl acls ref
        if r.1 ≠ 0 then some r.2 else resolve_acls_loop env known values r.2
      | some none =>
        -- Still no success, try to look it up in /etc/ethers
        match env.ether_hostton value with
        | some addr =>
          let r := add_one_acl acls addr
          if r.1 ≠ 0 then some r.2 else resolve_acls_loop env known values r.2
        | none => resolve_acls_loop env known values acls

/-- The function `resolve_acls`: `none` when a step has no defined result, else
what is stored in `*acls_out` (`none` for NULL). -/
def resolve_acls (env : config_env) (known : Option (List acl)) (values : List String) :
    Option (Option acl_map) :=
  (resolve_acls_loop env known values (acl_map_new0 env.acl_capacity)).map fun acls =>
    if acls.length ≠ 0 then some acls else none

/-- The loop of `parse_acls` over the keys, on the array `defaults.acls`. -/
def parse_acls_loop (env : config_env) (config : GKeyFile) :
    List String → List acl → Option (Bool × List acl)
  | [], acls => some (true, acls)
  | key :: keys, acls =>
    match config.get_string_list GRP_ACLS key with
    | none => some (false, acls)
    | some values =>
      match resolve_acls env (some acls) values with
      | none => none
      | some map => parse_acls_loop env config keys (acls ++ [{ name := key, map := map }])

/-- The function `parse_acls`, on the global `defaults`: the return value and
`defaults` afterwards. -/
def parse_acls (env : config_env) (config : GKeyFile) (defaults : default_config) :
    Option (Bool × default_config) :=
  match config.get_keys GRP_ACLS with
  | none => some (true, { defaults with acls := some [] })
  | some keys =>
    (parse_acls_loop env config keys []).map fun r =>
      (r.1, { defaults with acls := some r.2 })

/-- The loop `while(*s)` of `parse_wwn`, with the values of `i` and `dot` and
the array `wwn`: the return value and the array afterwards. -/
def parse_wwn_loop (env : config_env) : List Char → Nat → Bool → List Nat → Bool × List Nat
  | [], i, _, wwn => (decide ((i : Int) = (env.WWN_ALEN : Int) - 1), wwn)
  | c :: s, i, dot, wwn =>
    -- parse dot
    if c = '.' ∧ (i : Int) < (env.WWN_ALEN : Int) - 1 ∧ dot = false then
      parse_wwn_loop env s (i + 1) true wwn
    -- parse number
    else if c.isDigit ∧ i < env.WWN_ALEN then
      parse_wwn_loop env s i false
        (wwn.set i ((wwn.getD i 0 * 10 % 256 + (c.toNat - '0'.toNat)) % 256))
    else (false, wwn)

/-- The function `parse_wwn`: the return value and the array `wwn` afterwards. -/
def parse_wwn (env : config_env) (config : GKeyFile) (name : String) : Bool × List Nat :=
  let wwn := List.replicate env.WWN_ALEN 0
  match config.get_string name "wwn" with
  | none => (false, wwn)
  | some s =>
    if s.toList.length = 0 then (false, wwn)
    else parse_wwn_loop env s.toList 0 false wwn

/-- The C library `htons` on a little-endian host, applied to an `int`. -/
def htons (x : Int) : Nat :=
  let v := (x % 2 ^ 16).toNat
  v % 256 * 256 + v / 256

/-- The structure after `memset(devcfg, 0, sizeof(*devcfg))`. -/
def device_config_zero (env : config_env) : device_config :=
  { direct_io := false, trace_io := false, broadcast := false, read_only := false,
    type := 0, capacity := 0, wwn := List.replicate env.WWN_ALEN 0, dppolicy := none,
    queue_length := 0, shelf := 0, slot := 0, max_delay := 0, merge_delay := 0,
    path := none, iface_patterns := none, accept := none, deny := none }

/-- The part of `parse_device` from the comment "The command line overrides
the configuration" to the end, entered with the value `ret` and the structure
`devcfg` as they are there. -/
def parse_device_common (env : config_env) (config : GKeyFile) (defaults : default_config)
    (name : String) (ret : Bool) (devcfg : device_config) : Option (Bool × device_config) :=
  let c0 := if env.debug_flag then { devcfg with trace_io := true } else devcfg
  let (r1, queue_length) := parse_int config name "queue-length" defaults.queue_length
  let ret1 := ret && r1
  if ret1 && !queue_length_valid env queue_length then some (false, c0) else
  let c1 := { c0 with queue_length := queue_length }
  let (r2, shelf) := parse_int config name "shelf" (-1)
  let ret2 := ret1 && r2
  if ret2 && (shelf < 0 || shelf ≥ env.SHELF_BCAST) then some (false, c1) else
  let c2 := { c1 with shelf := htons shelf }
  let (r3, slot) := parse_int config name "slot" (-1)
  let ret3 := ret2 && r3
  if ret3 && (slot < 0 || slot ≥ env.SLOT_BCAST) then some (false, c2) else
  let c3 := { c2 with slot := slot }
  let (r4, max_delay) := parse_double config name "max-delay" defaults.max_delay
  let ret4 := ret3 && r4
  if ret4 && (max_delay.le 0 || max_delay.ge 1) then some (false, c3) else
  let c4 := { c3 with max_delay := env.nsec_of_double max_delay }
  let (r5, merge_delay) := parse_double config name "merge-delay" defaults.merge_delay
  let ret5 := ret4 && r5
  if ret5 && (merge_delay.lt 0 || merge_delay.ge 1) then some (false, c4) else
  let c5 := { c4 with merge_delay := env.nsec_of_double merge_delay }
  let path : Option (Option String) :=
    if config.has_key name "uuid" then
      if config.has_key name "path" then none
      else
        match env.blkid_get_devname (config.get_string name "uuid") with
        | none => none
        | some devname => some (some devname)
    else
      match config.get_string name "path" with
      | none => none
      | some p => some (some p)
  match path with
  | none => some (false, c5)
  | some p =>
    let c6 := { c5 with path := p }
    -- Compile the network interface pattern list
    let c7 :=
      match config.get_string_list name "interfaces" with
      | some vlist =>
        let list := build_patternlist [] vlist
        { c6 with iface_patterns := if list.length = 0 then none else some list }
      | none => c6
    -- Compile the access lists
    let accept : Option (Option acl_map) :=
      match config.get_string_list name "accept" with
      | some vlist => resolve_acls env defaults.acls vlist
      | none => some c7.accept
    match accept with
    | none => none
    | some a =>
      let c8 := { c7 with accept := a }
      let deny : Option (Option acl_map) :=
        match config.get_string_list name "deny" with
        | some vlist => resolve_acls env defaults.acls vlist
        | none => some c8.deny
      match deny with
      | none => none
      | some d => some (ret5, { c8 with deny := d })

/-- The function `parse_device`, reading the global `defaults`: `none` when a
step has no defined result, else the return value and `*devcfg`. -/
def parse_device (env : config_env) (config : GKeyFile) (defaults : default_config)
    (name : String) : Option (Bool × device_config) :=
  let (r1, direct_io) := parse_flag config name "direct-io" defaults.direct_io
  let (r2, trace_io) := parse_flag config name "trace-io" defaults.trace_io
  let (r3, broadcast) := parse_flag config name "broadcast" false
  let (r4, read_only) := parse_flag config name "read-only" false
  -- read device type
  let (r5, type) := parse_type env config name "type" 0 env.PHYS_T
  let ret5 := r1 && r2 && r3 && r4 && r5
  let c5 := { device_config_zero env with
    direct_io := direct_io, trace_io := trace_io, broadcast := broadcast,
    read_only := read_only, type := type }
  if type = env.VIRTUAL_T then
    -- parse virtual capacity (10Mb by default)
    let (r6, capacity) := parse_int config name "capacity" 10
    let ret6 := ret5 && r6
    if ret6 && (capacity < 0 || capacity ≥ 100000) then some (false, c5) else
    let c6 := { c5 with capacity := capacity }
    let (ok, wwn) := parse_wwn env config name
    if !ok then some (false, c6) else
    let c7 := { c6 with wwn := wwn }
    -- parse data protection policy
    match config.get_string name "dppolicy" with
    | none => some (false, c7)
    | some dppolicy =>
      parse_device_common env config defaults name ret6 { c7 with dppolicy := some dppolicy }
  else parse_device_common env config defaults name ret5 c5

/-- The function `parse_netif`, reading the global `defaults`: the return value
and `*netcfg`. -/
def parse_netif (env : config_env) (config : GKeyFile) (defaults : default_config)
    (name : String) : Bool × netif_config :=
  let n0 : netif_config := { mtu := 0, ring_size := 0, send_buf_size := 0, recv_buf_size := 0 }
  let (r1, mtu) := parse_int config name "mtu" defaults.mtu
  let n1 := { n0 with mtu := mtu }
  if mtu ≠ 0 && mtu < 1024 + env.sizeof_aoe_cfg_hdr then (false, n1) else
  let (r2, ring_size) := parse_int config name "ring-buffer-size" defaults.ring_size
  let ret2 := r1 && r2
  let n2 := { n1 with ring_size := ring_size }
  if ret2 && ring_size < 0 then (false, n2) else
  let (r3, send_buf_size) := parse_int config name "send-buffer-size" defaults.send_buf_size
  let ret3 := ret2 && r3
  let n3 := { n2 with send_buf_size := send_buf_size }
  if ret3 && send_buf_size < 0 then (false, n3) else
  let (r4, recv_buf_size) :=
    parse_int config name "receive-buffer-size" defaults.recv_buf_size
  let ret4 := ret3 && r4
  let n4 := { n3 with recv_buf_size := recv_buf_size }
  if ret4 && recv_buf_size < 0 then (false, n4) else
  (ret4, n4)

/-! ### Validation and reload -/

/-- The loop of `validate_config` over the groups, with the value of `ret`;
`parse_device` and `parse_netif` fill a local structure, of which only the
return value is used. -/
def validate_config_groups (env : config_env) (config : GKeyFile)
    (defaults : default_config) : List String → Bool → Option Bool
  | [], ret => some ret
  | group :: groups, ret =>
    -- Skip special groups
    if group = GRP_DEFAULTS ∨ group = GRP_ACLS then
      validate_config_groups env config defaults groups ret
    else if config.has_key group "shelf" then
      match parse_device env config defaults group with
      | none => none
      | some r => validate_config_groups env config defaults groups (ret && r.1)
    else
      validate_config_groups env config defaults groups
        (ret && (parse_netif env config defaults group).1)

/-- The function `validate_config`, on the globals `defaults` and
`devices_macs`: `none` when a step has no defined result, else the return value
and the two globals afterwards. -/
def validate_config (env : config_env) (config : GKeyFile) (defaults : default_config)
    (devices_macs : List device_macs_t) :
    Option (Bool × default_config × List device_macs_t) :=
  -- Save the old configuration in case the new one is bogus
  let oldcfg := defaults
  match parse_defaults env config (env.memset_sizeof_pointer defaults) devices_macs with
  | none => none
  | some (r1, d1, dm) =>
    match parse_acls env config d1 with
    | none => none
    | some (r2, d2) =>
      match validate_config_groups env config d2 config.get_groups (r1 && r2) with
      | none => none
      | some ret => if ret then some (true, d2, dm) else some (false, oldcfg, dm)

/-- A call of a function of the daemon that is recorded: the calls that
`do_load_config` makes, those of `main` on the subsystems, and those of
`event_run` (`epoll_wait`, a callback with its context and event mask,
`run_devices`, `run_ifaces`). -/
inductive daemon_call where
  | validate_config
  | setup_ifaces
  | setup_devices
  | mem_init
  | event_init
  | netmon_open
  | ctl_init
  | epoll_wait
  | callback (ctx events : Nat)
  | run_devices
  | run_ifaces
  | ctl_done
  | netmon_close
  | done_devices
  | done_ifaces
  | mem_done
  | close_efd
deriving DecidableEq, Repr

/-- The globals of the daemon that hold the configuration (`devices_macs`,
`global_config`, `defaults`), and the calls made so far. -/
structure daemon_state where
  devices_macs : List device_macs_t
  global_config : Option GKeyFile
  defaults : default_config
  calls : List daemon_call

/-- The function `do_load_config`; `loaded` is the result of
`g_key_file_load_from_file` on the configuration file, `none` when it failed.
The value is `none` when a step has no defined result, else the state
afterwards. -/
def do_load_config (env : config_env) (loaded : Option GKeyFile) (reload : Bool)
    (st : daemon_state) : Option daemon_state :=
  match loaded with
  | none => some st
  | some new_config =>
    match validate_config env new_config st.defaults st.devices_macs with
    | none => none
    | some (ret, defaults, devices_macs) =>
      let st1 : daemon_state :=
        { st with defaults := defaults, devices_macs := devices_macs,
                  calls := st.calls ++ [.validate_config] }
      if ret then
        let st2 := { st1 with global_config := some new_config }
        if reload then some { st2 with calls := st2.calls ++ [.setup_ifaces, .setup_devices] }
        else some st2
      else some st1

/-! ## The control client (`ggaoectl.c`)

A run of the client is determined by its command line and by what the system
calls answer.  The model keeps the datagrams handed to the socket and the way
the run ends; what is printed is left out. -/

/-- A byte. -/
abbrev byte := Fin 256

/-- A C string: the bytes before the terminating NUL. -/
abbrev c_string := List byte

/-- The C string of a string literal. -/
def c_str (s : String) : c_string :=
  s.toList.map fun c => Fin.ofNat c.toNat

/-- The four bytes of a `uint32_t` in the memory of a little-endian host. -/
def uint32_bytes (cmd : Nat) : List byte :=
  [Fin.ofNat cmd, Fin.ofNat (cmd / 2 ^ 8), Fin.ofNat (cmd / 2 ^ 16), Fin.ofNat (cmd / 2 ^ 24)]

/-- The first loop of `send_command`,
`for (i = len = 0; argv && argv[i]; i++) len += strlen(argv[i]) + 1;`
on the strings from `argv[i]` on: the final `len`.  (The lengths of the
arguments of a process add up to far less than `INT_MAX`.) -/
def send_command_len : List c_string → Nat → Nat
  | [], len => len
  | arg :: argv, len => send_command_len argv (len + (arg.length + 1))

/-- The second loop of `send_command`, copying each string with its NUL to
`buf + len`; `buf` holds the `len` bytes written so far. -/
def send_command_buf : List c_string → List byte → List byte
  | [], buf => buf
  | arg :: argv, buf => send_command_buf argv (buf ++ (arg ++ [0]))

/-- The datagram that `send_command` hands to `sendmsg`: the bytes of `iov[0]`,
followed by those of `iov[1]` when `len` is not zero.  `argv` is `none` for a
NULL pointer. -/
def send_command (cmd : Nat) (argv : Option (List c_string)) : List byte :=
  let args := argv.getD []
  let len := send_command_len args 0
  let buf := send_command_buf args []
  if len ≠ 0 then uint32_bytes cmd ++ buf.take len else uint32_bytes cmd

/-- The strings of a buffer in which each string is followed by a NUL byte;
`cur` holds the bytes of the string being read.  Bytes after the last NUL
belong to no string. -/
def split_at_nul : List byte → List byte → List c_string
  | [], _ => []
  | b :: bs, cur => if b = 0 then cur :: split_at_nul bs [] else split_at_nul bs (cur ++ [b])

/-- The numbers and sizes that `ctl.h` declares. -/
structure ctl_consts where
  CTL_CMD_HELLO : Nat
  CTL_CMD_GET_STATS : Nat
  CTL_CMD_GET_CONFIG : Nat
  CTL_CMD_GET_MACMASK : Nat
  CTL_CMD_GET_RESERVE : Nat
  CTL_CMD_CLEAR_STATS : Nat
  CTL_CMD_CLEAR_CONFIG : Nat
  CTL_CMD_CLEAR_MACMASK : Nat
  CTL_CMD_CLEAR_RESERVE : Nat
  CTL_CMD_RELOAD : Nat
  CTL_MSG_HELLO : Nat
  CTL_MSG_UPTIME : Nat
  CTL_MSG_DEVSTAT : Nat
  CTL_MSG_NETSTAT : Nat
  CTL_MSG_CONFIG : Nat
  CTL_MSG_MACLIST : Nat
  CTL_MSG_OK : Nat
  CTL_PROTO_VERSION : Nat
  /-- Value of `sizeof(struct msg_hello)`. -/
  sizeof_msg_hello : Nat
  /-- Value of `sizeof(struct msg_uptime)`. -/
  sizeof_msg_uptime : Nat
  /-- Value of `sizeof(struct msg_config)`. -/
  sizeof_msg_config : Nat
  /-- Value of `sizeof(struct msg_maclist)`. -/
  sizeof_msg_maclist : Nat

/-- What one `recv` (or `read`) on the control socket gives. -/
inductive recv_result where
  /-- The call returned a negative value; `do_quit` is the value of the flag of
  that name when `receive_msg` tests it. -/
  | error (do_quit : Bool)
  /-- The call returned a datagram of `len` bytes, whose first 32-bit word is
  `type` and whose second is `version` (as far as the datagram has them). -/
  | packet (len type version : Nat)
deriving DecidableEq, Repr

/-- How a run, or a part of it, ends. -/
inductive ctl_end where
  /-- The function returned to its caller. -/
  | returned
  /-- The process ended with this exit code. -/
  | exited (code : Int)
  /-- The process waits in `recv` for a datagram that does not come. -/
  | blocked
deriving DecidableEq, Repr

/-- The socket as the client sees it: the datagrams sent so far, first one
first, and what the coming calls of `recv` give. -/
structure ctl_io where
  sent : List (List byte)
  inbox : List recv_result
deriving DecidableEq, Repr

/-- Outcome of the option loop at the start of `main`. -/
inductive getopt_end where
  /-- Option `-h`: `usage(argv[0], 0)`. -/
  | help
  /-- Option `-V`. -/
  | version
  /-- An option that is not handled: `usage(argv[0], 1)`. -/
  | invalid
  /-- The options are read; these are the arguments from `argv[optind]` on. -/
  | done (argv : List c_string)
deriving DecidableEq, Repr

/-- What the system answers to the client, apart from the datagrams. -/
structure ctl_env where
  getopt : getopt_end
  /-- Whether `g_key_file_load_from_file` succeeds. -/
  load_ok : Bool
  /-- Whether `socket` succeeds. -/
  socket_ok : Bool
  /-- Whether `bind` succeeds. -/
  bind_ok : Bool
  /-- Whether `connect` succeeds. -/
  connect_ok : Bool
  /-- Whether the send (`sendmsg` or `write`) succeeds that follows the given
  number of datagrams sent. -/
  send_ok : Nat → Bool
  /-- Whether `strtod` takes the whole string as a number. -/
  strtod_whole : c_string → Bool
  /-- The value of `do_quit` when the loop of `do_monitor` tests it for the
  given time (counted from zero). -/
  do_quit_at : Nat → Bool

/-- The effect of `send_command` on the socket: the datagram is sent, or
`sendmsg` fails and the process exits with code 1. -/
def send_command_io (env : ctl_env) (cmd : Nat) (argv : Option (List c_string))
    (io : ctl_io) : ctl_end × ctl_io :=
  if env.send_ok io.sent.length then
    (.returned, { io with sent := io.sent ++ [send_command cmd argv] })
  else (.exited 1, io)

/-- The function `receive_msg`: how it ends, the datagram when it returns, and
the socket afterwards. -/
def receive_msg (io : ctl_io) : ctl_end × Nat × Nat × Nat × ctl_io :=
  match io.inbox with
  | [] => (.blocked, 0, 0, 0, io)
  | .error do_quit :: inbox =>
    (.exited (if do_quit then 0 else 1), 0, 0, 0, { io with inbox := inbox })
  | .packet len type version :: inbox =>
    (.returned, len, type, version, { io with inbox := inbox })

/-- The loop `do { ... } while (1)` of `do_dump_stats` and of `do_monitor`, on
the coming datagrams: how it ends, whether it ended at `CTL_MSG_OK`, and the
datagrams left. -/
def stats_loop (k : ctl_consts) : List recv_result → ctl_end × Bool × List recv_result
  | [] => (.blocked, false, [])
  | .error do_quit :: inbox => (.exited (if do_quit then 0 else 1), false, inbox)
  | .packet len type _ :: inbox =>
    if len < 4 then (.returned, false, inbox)
    else if type = k.CTL_MSG_OK then (.returned, true, inbox)
    else if type = k.CTL_MSG_DEVSTAT then stats_loop k inbox
    else if type = k.CTL_MSG_NETSTAT then stats_loop k inbox
    else (.returned, false, inbox)

/-- The function `do_dump_stats`. -/
def do_dump_stats (k : ctl_consts) (env : ctl_env) (argv : List c_string) (io : ctl_io) :
    ctl_end × ctl_io :=
  match send_command_io env k.CTL_CMD_GET_STATS (some argv) io with
  | (.returned, io1) =>
    match receive_msg io1 with
    | (.returned, len, type, _, io2) =>
      if len ≠ k.sizeof_msg_uptime ∨ type ≠ k.CTL_MSG_UPTIME then (.returned, io2)
      else
        let r := stats_loop k io2.inbox
        (r.1, { io2 with inbox := r.2.2 })
    | (e, _, _, _, io2) => (e, io2)
  | r => r

/-- The loop `while (!do_quit)` of `do_monitor`, for at most `fuel` rounds,
`round` being the number of rounds made. -/
def do_monitor_loop (k : ctl_consts) (env : ctl_env) (argv : List c_string) :
    Nat → Nat → ctl_io → ctl_end × ctl_io
  | 0, _, io => (.blocked, io)
  | fuel + 1, round, io =>
    if env.do_quit_at round then (.returned, io)
    else
      match send_command_io env k.CTL_CMD_GET_STATS (some argv) io with
      | (.returned, io1) =>
        match receive_msg io1 with
        | (.returned, len, type, _, io2) =>
          if len ≠ k.sizeof_msg_uptime ∨ type ≠ k.CTL_MSG_UPTIME then (.returned, io2)
          else
            match stats_loop k io2.inbox with
            | (.returned, true, inbox) =>
              do_monitor_loop k env argv fuel (round + 1) { io2 with inbox := inbox }
            | (e, _, inbox) => (e, { io2 with inbox := inbox })
        | (e, _, _, _, io2) => (e, io2)
      | r => r

/-- The function `do_monitor`.  Each round of its loop takes a datagram from
the socket, so the loop makes at most one round more than there are datagrams
to come. -/
def do_monitor (k : ctl_consts) (env : ctl_env) (argv : List c_string) (io : ctl_io) :
    ctl_end × ctl_io :=
  -- If the first argument is a number, then treat it as the update interval
  let argv1 :=
    match argv with
    | [] => argv
    | arg :: rest => if env.strtod_whole arg then rest else argv
  do_monitor_loop k env argv1 (io.inbox.length + 1) 0 io

/-- The function `do_reload`, which uses `write` and `read`; `read` gives at
most the four bytes asked for. -/
def do_reload (k : ctl_consts) (env : ctl_env) (io : ctl_io) : ctl_end × ctl_io :=
  if env.send_ok io.sent.length then
    let io1 := { io with sent := io.sent ++ [uint32_bytes k.CTL_CMD_RELOAD] }
    match io1.inbox with
    | [] => (.blocked, io1)
    | .error _ :: inbox => (.exited 1, { io1 with inbox := inbox })
    | .packet len _ _ :: inbox =>
      if min len 4 ≠ 4 then (.exited 1, { io1 with inbox := inbox })
      else (.returned, { io1 with inbox := inbox })
  else (.exited 1, io)

/-- The function `do_clear`; `argc` is the length of `argv`. -/
def do_clear (k : ctl_consts) (env : ctl_env) (cmd : Nat) (argv : List c_string)
    (io : ctl_io) : ctl_end × ctl_io :=
  if cmd ≠ k.CTL_CMD_CLEAR_STATS ∧ argv.length = 0 then (.exited 1, io)
  else
    match send_command_io env cmd (some argv) io with
    | (.returned, io1) =>
      match receive_msg io1 with
      | (.returned, len, _, _, io2) => if len < 4 then (.exited 1, io2) else (.returned, io2)
      | (e, _, _, _, io2) => (e, io2)
    | r => r

/-- The loop of `do_get_config` (with `msg_type` `CTL_MSG_CONFIG` and `size`
`sizeof(struct msg_config)`) and of `do_get_maclist` (with `CTL_MSG_MACLIST`
and `sizeof(struct msg_maclist)`); `dump_config` and `dump_maclist` exit with
code 1 on a datagram shorter than `size + 1`. -/
def show_loop (k : ctl_consts) (msg_type size : Nat) :
    List recv_result → ctl_end × List recv_result
  | [] => (.blocked, [])
  | .error do_quit :: inbox => (.exited (if do_quit then 0 else 1), inbox)
  | .packet len type _ :: inbox =>
    if len < 4 then (.returned, inbox)
    else if type = k.CTL_MSG_OK then (.returned, inbox)
    else if type = msg_type then
      if len < size + 1 then (.exited 1, inbox) else show_loop k msg_type size inbox
    else (.returned, inbox)

/-- The function `do_get_config`. -/
def do_get_config (k : ctl_consts) (env : ctl_env) (argv : List c_string) (io : ctl_io) :
    ctl_end × ctl_io :=
  match send_command_io env k.CTL_CMD_GET_CONFIG (some argv) io with
  | (.returned, io1) =>
    let r := show_loop k k.CTL_MSG_CONFIG k.sizeof_msg_config io1.inbox
    (r.1, { io1 with inbox := r.2 })
  | r => r

/-- The function `do_get_maclist`. -/
def do_get_maclist (k : ctl_consts) (env : ctl_env) (cmd : Nat) (argv : List c_string)
    (io : ctl_io) : ctl_end × ctl_io :=
  match send_command_io env cmd (some argv) io with
  | (.returned, io1) =>
    let r := show_loop k k.CTL_MSG_MACLIST k.sizeof_msg_maclist io1.inbox
    (r.1, { io1 with inbox := r.2 })
  | r => r

/-- The command dispatch of `main`, `if (!strcmp(argv[0], "monitor")) ...`, up
to the `return 0` at its end. -/
def main_dispatch (k : ctl_consts) (env : ctl_env) (command : c_string)
    (argv : List c_string) (io : ctl_io) : ctl_end × ctl_io :=
  let r : ctl_end × ctl_io :=
    if command = c_str "monitor" then do_monitor k env argv io
    else if command = c_str "stats" then do_dump_stats k env argv io
    else if command = c_str "reload" then do_reload k env io
    else if command = c_str "show-config" then do_get_config k env argv io
    else if command = c_str "show-macmask" then
      do_get_maclist k env k.CTL_CMD_GET_MACMASK argv io
    else if command = c_str "show-reserve" then
      do_get_maclist k env k.CTL_CMD_GET_RESERVE argv io
    else if command = c_str "clear-stats" then do_clear k env k.CTL_CMD_CLEAR_STATS argv io
    else if command = c_str "clear-config" then do_clear k env k.CTL_CMD_CLEAR_CONFIG argv io
    else if command = c_str "clear-macmask" then do_clear k env k.CTL_CMD_CLEAR_MACMASK argv io
    else if command = c_str "clear-reserve" then do_clear k env k.CTL_CMD_CLEAR_RESERVE argv io
    else (.exited 1, io)
  match r with
  | (.returned, io1) => (.exited 0, io1)
  | r1 => r1

/-- The function `main` from `send_command(CTL_CMD_HELLO, NULL)` on, that is
once the socket is connected; `command` is `argv[0]` and `argv` the arguments
after it. -/
def main_connected (k : ctl_consts) (env : ctl_env) (command : c_string)
    (argv : List c_string) (io : ctl_io) : ctl_end × ctl_io :=
  match send_command_io env k.CTL_CMD_HELLO none io with
  | (.returned, io1) =>
    match receive_msg io1 with
    | (.returned, len, type, version, io2) =>
      if len ≠ k.sizeof_msg_hello ∨ type ≠ k.CTL_MSG_HELLO ∨ version ≠ k.CTL_PROTO_VERSION then
        (.exited 1, io2)
      else main_dispatch k env command argv io2
    | (e, _, _, _, io2) => (e, io2)
  | r => r

/-- The function `main` of the client, started with nothing sent and `inbox`
as the datagrams to come. -/
def main (k : ctl_consts) (env : ctl_env) (inbox : List recv_result) : ctl_end × ctl_io :=
  let io : ctl_io := { sent := [], inbox := inbox }
  match env.getopt with
  | .help => (.exited 0, io)
  | .version => (.exited 0, io)
  | .invalid => (.exited 1, io)
  | .done [] => (.exited 1, io)
  | .done (command :: argv) =>
    if !env.load_ok then (.exited 1, io)
    else if !env.socket_ok then (.exited 1, io)
    else if !env.bind_ok then (.exited 1, io)
    else if !env.connect_ok then (.exited 1, io)
    else main_connected k env command argv io

/-- Whether a result of `recv` is the reply that `main` accepts as the answer
to `HELLO`: a datagram of the size of a `struct msg_hello`, of type
`CTL_MSG_HELLO` and of version `CTL_PROTO_VERSION`. -/
def hello_accepted (k : ctl_consts) : recv_result → Bool
  | .error _ => false
  | .packet len type version =>
    decide (len = k.sizeof_msg_hello ∧ type = k.CTL_MSG_HELLO ∧ version = k.CTL_PROTO_VERSION)

/-! ## Example inputs -/

/-- An environment of the configuration code: the constants take plausible
values, every state directory is writable, no UUID and no name in `/etc/ethers`
is known, and no string is taken as a MAC address. -/
def config_env_example : config_env :=
  { MAX_QUEUE_LEN := 4096, DEF_QUEUE_LEN := 64, DEF_RING_SIZE := 4096,
    SHELF_BCAST := 65535, SLOT_BCAST := 255, DEVICE_TYPES_END := 2, PHYS_T := 0,
    VIRTUAL_T := 1, WWN_ALEN := 8, sizeof_aoe_cfg_hdr := 32, acl_capacity := 255,
    PIDFILE_LOCATION := "/var/run/ggaoed.pid", SOCKET_LOCATION := "/var/run/ggaoed.sock",
    STATEDIR := "/var/lib/ggaoed", debug_flag := false, tx_ring_bug := false,
    statedir_writable := fun _ => true, blkid_get_devname := fun _ => none,
    ether_aton_r := fun _ => none, ether_hostton := fun _ => none,
    memset_sizeof_pointer := fun d => { d with queue_length := 0, direct_io := false },
    nsec_of_double := fun _ => 0 }

/-- The configuration file
```
[defaults]
device-macs = e1.2:3 1:2:3:4:5:6 ,
queue-length = 0
```
as glib hands it out in the calls the daemon makes on it (the daemon reads no
key of it as a string, a boolean or a double): it is well-formed as a key file,
and its queue length is not valid. -/
def reload_config_example : GKeyFile :=
  { get_groups := ["defaults"],
    has_key := fun g k => g = "defaults" ∧ (k = "device-macs" ∨ k = "queue-length"),
    get_keys := fun g => if g = "defaults" then some ["device-macs", "queue-length"] else none,
    get_string := fun _ _ => none,
    get_string_list := fun g k =>
      if g = "defaults" ∧ k = "device-macs" then some ["e1.2:3 1:2:3:4:5:6 "] else none,
    get_boolean := fun _ _ => .key_not_found,
    get_integer := fun g k =>
      if g = "defaults" ∧ k = "queue-length" then .value 0 else .key_not_found,
    get_double := fun _ _ => .key_not_found }

/-- A key file without groups. -/
def empty_config_example : GKeyFile :=
  { get_groups := [], has_key := fun _ _ => false, get_keys := fun _ => none,
    get_string := fun _ _ => none, get_string_list := fun _ _ => none,
    get_boolean := fun _ _ => .key_not_found, get_integer := fun _ _ => .key_not_found,
    get_double := fun _ _ => .key_not_found }

/-- The daemon in operation: the device `e7.0` is bound to the MAC address
`0:17:34:51:68:85`, the configuration in force is a key file without groups,
and the defaults are all zero but for the queue length 64 and an ACL array
without elements. -/
def daemon_state_example : daemon_state :=
  { devices_macs := [{ shelf := 7, slot := 0, device_id := 1, macs := [[0, 17, 34, 51, 68, 85]] }],
    global_config := some empty_config_example,
    defaults := { default_config_zero with queue_length := 64, acls := some [] },
    calls := [] }

/-- Numbers and sizes for `ctl.h`, chosen for the examples: the commands and
the message types are numbered from zero, the protocol version is 1. -/
def ctl_consts_example : ctl_consts :=
  { CTL_CMD_HELLO := 0, CTL_CMD_GET_STATS := 1, CTL_CMD_GET_CONFIG := 2,
    CTL_CMD_GET_MACMASK := 3, CTL_CMD_GET_RESERVE := 4, CTL_CMD_CLEAR_STATS := 5,
    CTL_CMD_CLEAR_CONFIG := 6, CTL_CMD_CLEAR_MACMASK := 7, CTL_CMD_CLEAR_RESERVE := 8,
    CTL_CMD_RELOAD := 9, CTL_MSG_HELLO := 0, CTL_MSG_UPTIME := 1, CTL_MSG_DEVSTAT := 2,
    CTL_MSG_NETSTAT := 3, CTL_MSG_CONFIG := 4, CTL_MSG_MACLIST := 5, CTL_MSG_OK := 6,
    CTL_PROTO_VERSION := 1, sizeof_msg_hello := 8, sizeof_msg_uptime := 24,
    sizeof_msg_config := 1032, sizeof_msg_maclist := 2052 }

/-- A run of `ggaoectl stats` in which every system call before the exchange of
datagrams succeeds, as does every send, and in which `do_quit` is not set when
the loop of `do_monitor` tests it. -/
def ctl_env_example : ctl_env :=
  { getopt := .done [c_str "stats"], load_ok := true, socket_ok := true, bind_ok := true,
    connect_ok := true, send_ok := fun _ => true, strtod_whole := fun _ => false,
    do_quit_at := fun _ => false }

/-- The run of `ggaoectl` with the given command and names after it, in which
every system call before the exchange of datagrams succeeds, as does every
send, and in which `do_quit` is not set when the loop of `do_monitor` tests
it. -/
def ctl_env_of (command : String) (names : List String) : ctl_env :=
  { ctl_env_example with getopt := .done (c_str command :: names.map c_str) }

/-- The rational number 1/2, given by its numerator and its denominator. -/
def one_half : ℚ := { num := 1, den := 2, den_nz := by decide, reduced := by decide }

/-- The configuration file
```
[defaults]
max-delay = d
[disk0]
shelf = 1
slot = 2
path = /dev/sdb
```
as glib hands it out in the calls the daemon makes on it, `d` being the number
written for `max-delay`. -/
def device_file_example (d : double) : GKeyFile :=
  { get_groups := ["defaults", "disk0"],
    has_key := fun g k =>
      (g = "defaults" ∧ k = "max-delay") ∨
        (g = "disk0" ∧ (k = "shelf" ∨ k = "slot" ∨ k = "path")),
    get_keys := fun g =>
      if g = "defaults" then some ["max-delay"]
      else if g = "disk0" then some ["shelf", "slot", "path"] else none,
    get_string := fun g k => if g = "disk0" ∧ k = "path" then some "/dev/sdb" else none,
    get_string_list := fun _ _ => none,
    get_boolean := fun _ _ => .key_not_found,
    get_integer := fun g k =>
      if g = "disk0" ∧ k = "shelf" then .value 1
      else if g = "disk0" ∧ k = "slot" then .value 2 else .key_not_found,
    get_double := fun g k =>
      if g = "defaults" ∧ k = "max-delay" then .value d else .key_not_found }

/-- The configuration file of `device_file_example one_half` with the line
`max-delay = d` added to the group `disk0`. -/
def device_file_own_delay_example (d : double) : GKeyFile :=
  { device_file_example (.finite one_half) with
    has_key := fun g k =>
      (g = "defaults" ∧ k = "max-delay") ∨
        (g = "disk0" ∧ (k = "shelf" ∨ k = "slot" ∨ k = "path" ∨ k = "max-delay")),
    get_keys := fun g =>
      if g = "defaults" then some ["max-delay"]
      else if g = "disk0" then some ["shelf", "slot", "path", "max-delay"] else none,
    get_double := fun g k =>
      if g = "defaults" ∧ k = "max-delay" then .value (.finite one_half)
      else if g = "disk0" ∧ k = "max-delay" then .value d else .key_not_found }

/-- The defaults that `parse_defaults` and `parse_acls` leave for the file
`device_file_example d` in the environment `config_env_example`, starting from
the all-zero structure. -/
def device_defaults_example (d : double) : default_config :=
  { default_config_zero with
    queue_length := 64, direct_io := true, pid_file := some "/var/run/ggaoed.pid",
    ctl_socket := some "/var/run/ggaoed.sock", statedir := some "/var/lib/ggaoed",
    ring_size := 4096, max_delay := d, acls := some [] }

/-- The structure that `parse_device` fills for the group `disk0` of
`device_file_example`: the shelf 1 as stored by `htons`, the slot 2. -/
def device_config_example : device_config :=
  { device_config_zero config_env_example with
    direct_io := true, queue_length := 64, shelf := 256, slot := 2, path := some "/dev/sdb" }

/-- The value of a decimal number, given by its digits: the words of the
specification (dotted numeric), not a function of the source. -/
def decimal_value (ds : List Char) : Nat :=
  ds.foldl (fun v c => v * 10 + (c.toNat - '0'.toNat)) 0

/-- The groups of a string between its dots: words of the specification. -/
def split_dots : List Char → List (List Char)
  | [] => [[]]
  | c :: s =>
    if c = '.' then [] :: split_dots s
    else
      match split_dots s with
      | g :: gs => (c :: g) :: gs
      | [] => [[c]]

/-- A string is a dotted numeric WWN of `n` octets when its groups between the
dots are exactly `n`, each of them a non-empty decimal number of value at most
255: words of the specification. -/
def wwn_well_formed (n : Nat) (s : List Char) : Bool :=
  decide ((split_dots s).length = n) &&
    (split_dots s).all (fun g => !g.isEmpty && g.all Char.isDigit && decide (decimal_value g ≤ 255))

/-- A configuration file with the group `disk0`, in which the key `wwn` has the
value `s`, as glib hands it out to `parse_wwn`. -/
def wwn_file_example (s : String) : GKeyFile :=
  { get_groups := ["disk0"],
    has_key := fun g k => g = "disk0" ∧ k = "wwn",
    get_keys := fun g => if g = "disk0" then some ["wwn"] else none,
    get_string := fun g k => if g = "disk0" ∧ k = "wwn" then some s else none,
    get_string_list := fun _ _ => none,
    get_boolean := fun _ _ => .key_not_found,
    get_integer := fun _ _ => .key_not_found,
    get_double := fun _ _ => .key_not_found }

/-- The groups written one after the other with a single dot between two of
them: the inverse of `split_dots`. -/
def join_dots : List (List Char) → List Char
  | [] => []
  | [g] => g
  | g :: g2 :: gs => g ++ '.' :: join_dots (g2 :: gs)
/-! ### Counter deltas of the monitor -/

/-- The counters of `struct device_stats` that `print_dev_record` reads with
`DIFF`, as values of their unsigned types. The structure is declared in `ctl.h`;
the fields `io_slots` and `io_runs` are not read there, and the three times are
subtracted by `timespec_sub`. -/
structure device_stats where
  read_cnt : Nat
  read_bytes : Nat
  write_cnt : Nat
  write_bytes : Nat
  other_cnt : Nat
  queue_length : Nat
  queue_stall : Nat
  queue_over : Nat
  ata_err : Nat
  proto_err : Nat
deriving DecidableEq, Repr

/-- The counters of `struct netif_stats` that `print_net_record` reads with
`DIFF`, as values of their unsigned types. -/
structure netif_stats where
  rx_cnt : Nat
  rx_bytes : Nat
  tx_cnt : Nat
  tx_bytes : Nat
  dropped : Nat
  rx_runs : Nat
  tx_runs : Nat
deriving DecidableEq, Repr

/-- The counters after `g_new0(struct device_stats, 1)`. -/
def device_stats_zero : device_stats :=
  { read_cnt := 0, read_bytes := 0, write_cnt := 0, write_bytes := 0, other_cnt := 0,
    queue_length := 0, queue_stall := 0, queue_over := 0, ata_err := 0, proto_err := 0 }

/-- The counters after `g_new0(struct netif_stats, 1)`. -/
def netif_stats_zero : netif_stats :=
  { rx_cnt := 0, rx_bytes := 0, tx_cnt := 0, tx_bytes := 0, dropped := 0, rx_runs := 0,
    tx_runs := 0 }

/-- The macro `DIFF(field)`, `diff.field = new->field - old->field`, on a field
of an unsigned type of `w` bits: the subtraction of C on that type. The fields
printed with `PRINT64` are of 64 bits, those printed with `PRINT32` of 32. -/
def DIFF (w : Nat) (new old : Nat) : Nat :=
  (((new : Int) - (old : Int)) % 2 ^ w).toNat

/-- A `GTree` with the comparison `str_compare`, as what `g_tree_lookup` finds
under each name. -/
abbrev GTree (α : Type) := String → Option α

/-- The glib function `g_tree_insert`. -/
def g_tree_insert {α : Type} (tree : GTree α) (key : String) (value : α) : GTree α :=
  fun k => if k = key then some value else tree k

/-- The function `print_dev_record` on the tree `old_dev`, up to the printing:
the structure `diff` (its counters) and `old_dev` afterwards. The line printed
is computed from `diff`, the times and `elapsed`. -/
def print_dev_record (old_dev : GTree device_stats) (name : String) (new : device_stats) :
    device_stats × GTree device_stats :=
  let (old, old_dev1) :=
    match old_dev name with
    | some old => (old, old_dev)
    | none => (device_stats_zero, g_tree_insert old_dev name device_stats_zero)
  ({ read_cnt := DIFF 64 new.read_cnt old.read_cnt,
     read_bytes := DIFF 64 new.read_bytes old.read_bytes,
     write_cnt := DIFF 64 new.write_cnt old.write_cnt,
     write_bytes := DIFF 64 new.write_bytes old.write_bytes,
     other_cnt := DIFF 32 new.other_cnt old.other_cnt,
     queue_length := DIFF 64 new.queue_length old.queue_length,
     queue_stall := DIFF 32 new.queue_stall old.queue_stall,
     queue_over := DIFF 32 new.queue_over old.queue_over,
     ata_err := DIFF 32 new.ata_err old.ata_err,
     proto_err := DIFF 32 new.proto_err old.proto_err }, old_dev1)

/-- The function `print_net_record` on the tree `old_net`, up to the printing:
the structure `diff` (its counters) and `old_net` afterwards. -/
def print_net_record (old_net : GTree netif_stats) (name : String) (new : netif_stats) :
    netif_stats × GTree netif_stats :=
  let (old, old_net1) :=
    match old_net name with
    | some old => (old, old_net)
    | none => (netif_stats_zero, g_tree_insert old_net name netif_stats_zero)
  ({ rx_cnt := DIFF 64 new.rx_cnt old.rx_cnt,
     rx_bytes := DIFF 64 new.rx_bytes old.rx_bytes,
     tx_cnt := DIFF 64 new.tx_cnt old.tx_cnt,
     tx_bytes := DIFF 64 new.tx_bytes old.tx_bytes,
     dropped := DIFF 32 new.dropped old.dropped,
     rx_runs := DIFF 64 new.rx_runs old.rx_runs,
     tx_runs := DIFF 64 new.tx_runs old.tx_runs }, old_net1)

/-- The counter fields of a device that the monitor shows. -/
inductive dev_field where
  | read_cnt | read_bytes | write_cnt | write_bytes | other_cnt
  | queue_length | queue_stall | queue_over | ata_err | proto_err
deriving DecidableEq, Repr

/-- The counter fields of an interface that the monitor shows. -/
inductive net_field where
  | rx_cnt | rx_bytes | tx_cnt | tx_bytes | dropped | rx_runs | tx_runs
deriving DecidableEq, Repr

/-- The value of a counter field of a device. -/
def dev_field.get : dev_field → device_stats → Nat
  | .read_cnt, s => s.read_cnt
  | .read_bytes, s => s.read_bytes
  | .write_cnt, s => s.write_cnt
  | .write_bytes, s => s.write_bytes
  | .other_cnt, s => s.other_cnt
  | .queue_length, s => s.queue_length
  | .queue_stall, s => s.queue_stall
  | .queue_over, s => s.queue_over
  | .ata_err, s => s.ata_err
  | .proto_err, s => s.proto_err

/-- The width in bits of a counter field of a device: 64 for the fields that
`dump_devstats` prints with `PRINT64`, 32 for those it prints with `PRINT32`. -/
def dev_field.width : dev_field → Nat
  | .read_cnt | .read_bytes | .write_cnt | .write_bytes | .queue_length => 64
  | .other_cnt | .queue_stall | .queue_over | .ata_err | .proto_err => 32

/-- The value of a counter field of an interface. -/
def net_field.get : net_field → netif_stats → Nat
  | .rx_cnt, s => s.rx_cnt
  | .rx_bytes, s => s.rx_bytes
  | .tx_cnt, s => s.tx_cnt
  | .tx_bytes, s => s.tx_bytes
  | .dropped, s => s.dropped
  | .rx_runs, s => s.rx_runs
  | .tx_runs, s => s.tx_runs

/-- The width in bits of a counter field of an interface: 64 for the fields that
`dump_netstats` prints with `PRINT64`, 32 for `dropped`, printed with
`PRINT32`. -/
def net_field.width : net_field → Nat
  | .dropped => 32
  | _ => 64

/-- A sample of a device in which `read_cnt` is `r`, `other_cnt` is `o`, and the
other counters are `n`. -/
def device_stats_example (r o n : Nat) : device_stats :=
  { read_cnt := r, read_bytes := n, write_cnt := n, write_bytes := n, other_cnt := o,
    queue_length := n, queue_stall := n, queue_over := n, ata_err := n, proto_err := n }

/-- A sample of an interface in which `rx_cnt` is `r`, `dropped` is `d`, and the
other counters are `n`. -/
def netif_stats_example (r d n : Nat) : netif_stats :=
  { rx_cnt := r, rx_bytes := n, tx_cnt := n, tx_bytes := n, dropped := d, rx_runs := n,
    tx_runs := n }

/-- The tree that holds `value` under `key` and nothing else. -/
def g_tree_example {α : Type} (key : String) (value : α) : GTree α :=
  g_tree_insert (fun _ => none) key value
/-! ### The event loop and `main` of the daemon

The subsystems (`mem_init`, `netmon_open`, `setup_ifaces`, ...) and the
callbacks are not in `ggaoed.c`: a call of one of them is recorded, and what it
leaves in the globals that the loop tests is an answer of the environment. -/

/-- The signals for which `main` installs `signal_handler`. -/
inductive signal where
  | SIGINT
  | SIGTERM
  | SIGQUIT
  | SIGHUP
deriving DecidableEq, Repr

/-- The globals that the event loop tests: the two flags, and whether
`active_devs.head` and `active_ifaces.head` are not `NULL`. -/
structure loop_globals where
  exit_flag : Bool
  reload_flag : Bool
  active_devs : Bool
  active_ifaces : Bool
deriving DecidableEq, Repr

/-- The function `signal_handler`. -/
def signal_handler (sig : signal) (g : loop_globals) : loop_globals :=
  if sig = .SIGHUP then { g with reload_flag := true }
  else { g with exit_flag := true }

/-- An element of the array that `epoll_wait` fills: the event mask, and
`data.ptr`, the context. -/
structure epoll_event where
  events : Nat
  ctx : Nat
deriving DecidableEq, Repr

/-- What a call of `epoll_wait` answers: the events it stored (their number is
the return value), or -1 with `errno == EINTR` after the handler has run for
`sig` (no handler has run when `sig` is `none`), or -1 with another error. -/
inductive epoll_wait_result where
  | ready (events : List epoll_event)
  | interrupted (sig : Option signal)
  | failed
deriving DecidableEq, Repr

/-- The answers of the system and of the subsystems to a run of the daemon. -/
structure daemon_env where
  /-- The constants and answers that the configuration handling uses. -/
  config : config_env
  /-- The result of `g_key_file_load_from_file` in the n-th call of
  `do_load_config`, `none` when it failed. -/
  load : Nat → Option GKeyFile
  /-- Either `nofork_flag` is set, or `daemon(0, 0)` returned 0. -/
  daemon_ok : Bool
  /-- The call of `open` in `write_pid_file` succeeded. -/
  pid_open_ok : Bool
  /-- The call of `lockf` in `write_pid_file` returned 0. -/
  pid_lockf_ok : Bool
  /-- The call of `epoll_create` succeeded. -/
  epoll_create_ok : Bool
  /-- What a call of a subsystem or of a callback leaves in the globals, given
  the calls made so far (the call itself is the last of them) and the globals
  before it; a signal handled during the call is part of it. -/
  effect : List daemon_call → loop_globals → loop_globals

/-- The state of a run of the daemon: the globals of the event loop, those of
the configuration with the calls made so far, and the number of times the
configuration file has been read. -/
structure main_state where
  globals : loop_globals
  daemon : daemon_state
  loads : Nat

/-- How a run of the daemon ends: `main` returns, or `exit` is called. -/
inductive daemon_end where
  | returned (code : Int)
  | exited (code : Int)
deriving DecidableEq, Repr

/-- The result of a run on given answers of `epoll_wait`: a step has no defined
result, or the answers end while the daemon is still in its loop, or the run
is finished. -/
inductive run_result (α : Type) where
  | undefined
  | waiting
  | finished (a : α)
deriving DecidableEq, Repr

/-- The value under a function of a finished run. -/
def run_result.map {α β : Type} (f : α → β) : run_result α → run_result β
  | .undefined => .undefined
  | .waiting => .waiting
  | .finished a => .finished (f a)

/-- A call of a function that is not in `ggaoed.c`: it is recorded, and the
globals are what the environment answers. -/
def call_external (env : daemon_env) (c : daemon_call) (st : main_state) : main_state :=
  { st with
    globals := env.effect (st.daemon.calls ++ [c]) st.globals,
    daemon := { st.daemon with calls := st.daemon.calls ++ [c] } }

/-- The function `event_init`. -/
def event_init (env : daemon_env) (st : main_state) : main_state :=
  let st1 := { st with daemon := { st.daemon with calls := st.daemon.calls ++ [.event_init] } }
  if env.epoll_create_ok then st1
  else { st1 with globals := { st1.globals with exit_flag := true } }

/-- The body of the loop of `event_run` after `epoll_wait` has stored `events`:
the `for` loop over the events, then the two tests of the active lists. -/
def event_run_tick (env : daemon_env) (events : List epoll_event) (st : main_state) :
    main_state :=
  let st1 := events.foldl (fun s e => call_external env (.callback e.ctx e.events) s) st
  let st2 := if st1.globals.active_devs then call_external env .run_devices st1 else st1
  if st2.globals.active_ifaces then call_external env .run_ifaces st2 else st2

/-- The function `event_run` on the answers of `epoll_wait` that are to come:
the answers left and the state when it returns. A signal that arrives while
`epoll_wait` blocks has its handler run before `epoll_wait` returns. -/
def event_run (env : daemon_env) :
    List epoll_wait_result → main_state → run_result (List epoll_wait_result × main_state)
  | [], st =>
    if st.globals.exit_flag = false ∧ st.globals.reload_flag = false then .waiting
    else .finished ([], st)
  | r :: rest, st =>
    if st.globals.exit_flag = false ∧ st.globals.reload_flag = false then
      let st1 := { st with daemon := { st.daemon with calls := st.daemon.calls ++ [.epoll_wait] } }
      match r with
      | .interrupted sig =>
        match sig with
        | some s => .finished (rest, { st1 with globals := signal_handler s st1.globals })
        | none => .finished (rest, st1)
      | .failed => .finished (rest, { st1 with globals := { st1.globals with exit_flag := true } })
      | .ready events => event_run env rest (event_run_tick env events st1)
    else .finished (r :: rest, st)

/-- The globals after the calls `cs` that `do_load_config` has made, `calls`
being the calls before them: `validate_config` is in `ggaoed.c` and leaves the
globals of the loop alone, the others answer as the environment says. -/
def load_effects (env : daemon_env) :
    List daemon_call → List daemon_call → loop_globals → loop_globals
  | _, [], g => g
  | calls, c :: cs, g =>
    load_effects env (calls ++ [c]) cs
      (if c = .validate_config then g else env.effect (calls ++ [c]) g)

/-- A call of `do_load_config` in `main`: `none` when a step has no defined
result. -/
def main_load_config (env : daemon_env) (reload : Bool) (st : main_state) : Option main_state :=
  match do_load_config env.config (env.load st.loads) reload st.daemon with
  | none => none
  | some d =>
    some { globals := load_effects env st.daemon.calls (d.calls.drop st.daemon.calls.length)
             st.globals,
           daemon := d, loads := st.loads + 1 }

/-- The loop `while (!exit_flag)` of `main`, for at most `fuel` rounds (the
answers end, and the result is `waiting`, before `2 * inputs.length + 2`
rounds are over). -/
def main_loop (env : daemon_env) :
    Nat → List epoll_wait_result → main_state → run_result main_state
  | 0, _, _ => .waiting
  | fuel + 1, inputs, st =>
    if st.globals.exit_flag then .finished st
    else
      match event_run env inputs st with
      | .undefined => .undefined
      | .waiting => .waiting
      | .finished (rest, st1) =>
        if st1.globals.reload_flag then
          match main_load_config env true st1 with
          | none => .undefined
          | some st2 =>
            main_loop env fuel rest { st2 with globals := { st2.globals with reload_flag := false } }
        else main_loop env fuel rest st1

/-- The function `write_pid_file`: `none` when it calls `exit(1)`. With the
descriptor -1 of a failed `open`, `lockf` fails. -/
def write_pid_file (env : daemon_env) (st : main_state) : Option main_state :=
  match st.daemon.defaults.pid_file with
  | none => some st
  | some _ =>
    let st1 :=
      if env.pid_open_ok then st
      else { st with globals := { st.globals with exit_flag := true } }
    if env.pid_open_ok && env.pid_lockf_ok then some st1 else none

/-- The state when `main` starts: the globals are zero. -/
def main_state_zero : main_state :=
  { globals := { exit_flag := false, reload_flag := false, active_devs := false,
                 active_ifaces := false },
    daemon := { devices_macs := [], global_config := none, defaults := default_config_zero,
                calls := [] },
    loads := 0 }

/-- The initialisation of the subsystems in `main`. -/
def main_init (env : daemon_env) (st : main_state) : main_state :=
  let st1 := call_external env .mem_init st
  let st2 := event_init env st1
  let st3 := call_external env .netmon_open st2
  let st4 := call_external env .setup_ifaces st3
  let st5 := call_external env .setup_devices st4
  call_external env .ctl_init st5

/-- The calls of `main` on the subsystems after its loop. -/
def main_done (env : daemon_env) (st : main_state) : main_state :=
  let st1 := call_external env .ctl_done st
  let st2 := call_external env .netmon_close st1
  let st3 := call_external env .done_devices st2
  let st4 := call_external env .done_ifaces st3
  let st5 := call_external env .mem_done st4
  call_external env .close_efd st5

/-- The function `main` of `ggaoed.c` from its first call of `do_load_config`
on (the options have been read, the kernel has `eventfd`), on the answers of
`epoll_wait` that are to come: how it ends, and the state then. What it
releases after the subsystems (the blkid cache, the defaults, the key file, the
pid file) is not recorded. -/
def ggaoed_main (env : daemon_env) (inputs : List epoll_wait_result) :
    run_result (daemon_end × main_state) :=
  match main_load_config env false main_state_zero with
  | none => .undefined
  | some st1 =>
    if st1.daemon.global_config.isNone then .finished (.exited 1, st1)
    else if !env.daemon_ok then .finished (.exited 1, st1)
    else
      match write_pid_file env st1 with
      | none => .finished (.exited 1, st1)
      | some st2 =>
        match main_loop env (2 * inputs.length + 2) inputs (main_init env st2) with
        | .undefined => .undefined
        | .waiting => .waiting
        | .finished st3 => .finished (.returned 0, main_done env st3)

/-- Answers for the examples: the configuration file is that of
`device_file_example` with the delay 1/2 each time it is read, every system
call succeeds, a callback with the context 1 puts a device on the active list,
one with the context 2 an interface, `run_devices` and `run_ifaces` empty
their lists, and no other call touches the globals. -/
def daemon_env_example : daemon_env :=
  { config := config_env_example,
    load := fun _ => some (device_file_example (.finite one_half)),
    daemon_ok := true, pid_open_ok := true, pid_lockf_ok := true, epoll_create_ok := true,
    effect := fun calls g =>
      match calls.getLast? with
      | some (.callback 1 _) => { g with active_devs := true }
      | some (.callback 2 _) => { g with active_ifaces := true }
      | some .run_devices => { g with active_devs := false }
      | some .run_ifaces => { g with active_ifaces := false }
      | _ => g }

/-- The calls that the loop of `main` makes: those of `event_run`, and those of
`do_load_config` on a reload. -/
def loop_call : daemon_call → Bool
  | .epoll_wait | .callback _ _ | .run_devices | .run_ifaces => true
  | .validate_config | .setup_ifaces | .setup_devices => true
  | _ => false

/-- The order in which the specification says the subsystems are torn down, the
reverse of that of their initialisation: control plane, devices, interfaces,
netlink monitor, event loop descriptor, memory pool. -/
def teardown_reverse : List daemon_call :=
  [.ctl_done, .done_devices, .done_ifaces, .netmon_close, .close_efd, .mem_done]

/-! ### Sizes for the log -/

/-- The function `human_format` on an `unsigned long long`: the return value
and the string stored in `*unit`. -/
def human_format (size : Nat) : Nat × String :=
  let size1 := size >>> 10
  let unit1 := "KiB"
  let (size2, unit2) := if size1 ≥ 10240 then (size1 >>> 10, "MiB") else (size1, unit1)
  let (size3, unit3) := if size2 ≥ 10240 then (size2 >>> 10, "GiB") else (size2, unit2)
  let (size4, unit4) := if size3 ≥ 10240 then (size3 >>> 10, "TiB") else (size3, unit3)
  (size4, unit4)

/-- The k-th of the units KiB, MiB, GiB, TiB, counted from 1. -/
def binary_unit (k : Nat) : String :=
  ["KiB", "MiB", "GiB", "TiB"].getD (k - 1) ""

/-! ### Key files that differ in one key -/

/-- The key file `config` with the answer of `g_key_file_get_integer` for one
key of one group replaced by `r`. -/
def GKeyFile.with_integer (config : GKeyFile) (group key : String) (r : key_result Int) :
    GKeyFile :=
  { config with
    get_integer := fun g k => if g = group ∧ k = key then r else config.get_integer g k }

/-- The configuration file of `device_file_example one_half` with the line
`type = t` added to the group `disk0`. -/
def device_file_type_example (t : Int) : GKeyFile :=
  (device_file_example (.finite one_half)).with_integer "disk0" "type" (.value t)

/-- The configuration file
```
[disk0]
shelf = 1
slot = 2
path = /dev/sdb
```
which has no group `defaults`, as glib hands it out in the calls the daemon
makes on it. -/
def device_file_no_defaults_example : GKeyFile :=
  { get_groups := ["disk0"],
    has_key := fun g k => g = "disk0" ∧ (k = "shelf" ∨ k = "slot" ∨ k = "path"),
    get_keys := fun g => if g = "disk0" then some ["shelf", "slot", "path"] else none,
    get_string := fun g k => if g = "disk0" ∧ k = "path" then some "/dev/sdb" else none,
    get_string_list := fun _ _ => none,
    get_boolean := fun _ _ => .key_not_found,
    get_integer := fun g k =>
      if g = "disk0" ∧ k = "shelf" then .value 1
      else if g = "disk0" ∧ k = "slot" then .value 2 else .key_not_found,
    get_double := fun _ _ => .key_not_found }

/-! ### The addresses of a value list -/

/-- The addresses that one element of a value list stands for, in the words of
the specification: the address itself when the element is a MAC literal, else
the members of the ACL of that name defined before, in the order of its map,
else the address that `/etc/ethers` has for the name, else none. -/
def acl_element_addrs (env : config_env) (known : List acl) (value : String) :
    List ether_addr :=
  match env.ether_aton_r value with
  | some addr => [addr]
  | none =>
    match known.find? fun a => a.name = value with
    | some ref =>
      match ref.map with
      | none => []
      | some map => (List.range map.length).map fun i => padded_addr_e (map.entries.getD i 0)
    | none =>
      match env.ether_hostton value with
      | some addr => [addr]
      | none => []

/-- The addresses of the elements of a value list, one element after the
other. -/
def acl_value_addrs (env : config_env) (known : List acl) (values : List String) :
    List ether_addr :=
  (values.map (acl_element_addrs env known)).flatten

/-- The calls of `add_one_acl` for the addresses of a list, one after the
other, up to the first that does not return 0: the value -1 when there is one,
else 0, and the map afterwards. -/
def add_acl_addrs : List ether_addr → acl_map → Int × acl_map
  | [], acls => (0, acls)
  | addr :: addrs, acls =>
    let r := add_one_acl acls addr
    if r.1 ≠ 0 then (-1, r.2) else add_acl_addrs addrs r.2

/-- Answers for the examples on `resolve_acls`: the array of a map has two
elements, and `ether_aton_r` knows the strings `1:0:0:0:0:0` and `4:0:0:0:0:0`
only. -/
def acl_env_example : config_env :=
  { config_env_example with
    acl_capacity := 2,
    ether_aton_r := fun s =>
      if s = "1:0:0:0:0:0" then some (mac_of_octet 1)
      else if s = "4:0:0:0:0:0" then some (mac_of_octet 4) else none }

/-- The ACL `a`, defined before, whose members are the addresses
`2:0:0:0:0:0` and `3:0:0:0:0:0`. -/
def acl_known_example : List acl :=
  [{ name := "a", map := some { length := 2, entries := [2, 3] } }]

/-! # Theorems -/

/-! ## Lemmas on arrays -/

theorem getD_take_lt (a : List Nat) (n k : Nat) (h : k < n) :
    (a.take n).getD k 0 = a.getD k 0 := by
  simp [List.getD_eq_getElem?_getD, List.getElem?_take, h]

theorem memmove_length (a : List Nat) (dst src n : Nat) :
    (memmove a dst src n).length = a.length := by
  simp [memmove]

theorem memmove_getD (a : List Nat) (dst src n k : Nat) (hk : k < a.length) :
    (memmove a dst src n).getD k 0 =
      if dst ≤ k ∧ k < dst + n then a.getD (src + (k - dst)) 0 else a.getD k 0 := by
  simp [memmove, List.getD_eq_getElem?_getD, hk]

theorem getD_eq_of_getElem? (a : List Nat) (k x : Nat) (h : a[k]? = some x) :
    a.getD k 0 = x := by
  simp [List.getD_eq_getElem?_getD, h]

theorem getElem?_of_lt (a : List Nat) (k : Nat) (h : k < a.length) :
    a[k]? = some (a.getD k 0) := by
  simp [List.getD_eq_getElem?_getD, List.getElem?_eq_getElem h]

theorem mem_take_iff_getD (a : List Nat) (n x : Nat) (h : n ≤ a.length) :
    x ∈ a.take n ↔ ∃ k, k < n ∧ a.getD k 0 = x := by
  rw [List.mem_iff_getElem?]
  constructor
  · rintro ⟨k, hk⟩
    rw [List.getElem?_take] at hk
    split at hk
    · exact ⟨k, by assumption, getD_eq_of_getElem? a k x hk⟩
    · simp at hk
  · rintro ⟨k, hk, rfl⟩
    exact ⟨k, by rw [List.getElem?_take, if_pos hk]; exact getElem?_of_lt a k (by omega)⟩

theorem sorted_take_iff_getD (a : List Nat) (n : Nat) (h : n ≤ a.length) :
    List.Sorted (· < ·) (a.take n) ↔ ∀ i j, i < j → j < n → a.getD i 0 < a.getD j 0 := by
  unfold List.Sorted
  rw [List.pairwise_iff_getElem]
  have key : ∀ k (hk : k < (a.take n).length), (a.take n)[k] = a.getD k 0 := by
    intro k hk
    have hk' : k < n := by simpa [List.length_take, h] using hk
    have h1 : (a.take n)[k]? = some (a.getD k 0) := by
      rw [List.getElem?_take, if_pos hk']; exact getElem?_of_lt a k (by omega)
    rw [List.getElem?_eq_getElem hk] at h1
    exact Option.some.inj h1
  constructor
  · intro hs i j hij hj
    have hi' : i < (a.take n).length := by simp [List.length_take]; omega
    have hj' : j < (a.take n).length := by simp [List.length_take]; omega
    have := hs i j hi' hj' hij
    rwa [key i hi', key j hj'] at this
  · intro hs i j hi hj hij
    have hj' : j < n := by simpa [List.length_take, h] using hj
    rw [key i hi, key j hj]
    exact hs i j hij hj'

/-! ## The scans -/

theorem add_one_acl_scan_spec (e : List Nat) (p : Nat) (n i : Nat) :
    i ≤ add_one_acl_scan e p n i ∧ add_one_acl_scan e p n i ≤ i + n ∧
    (∀ k, i ≤ k → k < add_one_acl_scan e p n i → e.getD k 0 < p) ∧
    (add_one_acl_scan e p n i < i + n → ¬ e.getD (add_one_acl_scan e p n i) 0 < p) := by
  induction n generalizing i with
  | zero =>
    show i ≤ i ∧ i ≤ i + 0 ∧ (∀ k, i ≤ k → k < i → e.getD k 0 < p) ∧ (i < i + 0 → ¬ e.getD i 0 < p)
    exact ⟨le_refl _, le_refl _, fun k h1 h2 => by omega, fun h => by omega⟩
  | succ n ih =>
    unfold add_one_acl_scan
    by_cases h : e.getD i 0 < p
    · rw [if_pos h]
      obtain ⟨h1, h2, h3, h4⟩ := ih (i + 1)
      refine ⟨by omega, by omega, ?_, fun hlt => h4 (by omega)⟩
      intro k hik hk
      by_cases hki : k = i
      · subst hki; exact h
      · exact h3 k (by omega) hk
    · rw [if_neg h]
      exact ⟨le_refl _, by omega, fun k h1 h2 => by omega, fun _ => h⟩

theorem del_one_acl_scan_spec (e : List Nat) (p : Nat) (n i : Nat) :
    i ≤ del_one_acl_scan e p n i ∧ del_one_acl_scan e p n i ≤ i + n ∧
    (∀ k, i ≤ k → k < del_one_acl_scan e p n i → e.getD k 0 ≠ p) ∧
    (del_one_acl_scan e p n i < i + n → e.getD (del_one_acl_scan e p n i) 0 = p) := by
  induction n generalizing i with
  | zero =>
    show i ≤ i ∧ i ≤ i + 0 ∧ (∀ k, i ≤ k → k < i → e.getD k 0 ≠ p) ∧ (i < i + 0 → e.getD i 0 = p)
    exact ⟨le_refl _, le_refl _, fun k h1 h2 => by omega, fun h => by omega⟩
  | succ n ih =>
    unfold del_one_acl_scan
    by_cases h : e.getD i 0 = p
    · rw [if_pos h]
      exact ⟨le_refl _, by omega, fun k h1 h2 => by omega, fun _ => h⟩
    · rw [if_neg h]
      obtain ⟨h1, h2, h3, h4⟩ := ih (i + 1)
      refine ⟨by omega, by omega, ?_, fun hlt => h4 (by omega)⟩
      intro k hik hk
      by_cases hki : k = i
      · subst hki; exact h
      · exact h3 k (by omega) hk

/-! ## The binary search -/

theorem match_acl_loop_spec (e : List Nat) (p n : Nat) (hn : n < 2 ^ 31)
    (hs : ∀ i j, i < j → j < n → e.getD i 0 < e.getD j 0) :
    ∀ fuel l u, u ≤ n → u - l < fuel →
      ∃ b, match_acl_loop e p fuel l u = some b ∧
        (b = true ↔ ∃ k, l ≤ k ∧ k < u ∧ e.getD k 0 = p) := by
  intro fuel
  induction fuel with
  | zero => intro l u _ h; omega
  | succ fuel ih =>
    intro l u hu hf
    unfold match_acl_loop
    by_cases hlu : l < u
    · rw [if_pos hlu]
      have hmid : u32 (l + u) / 2 = (l + u) / 2 := by
        unfold u32; rw [Nat.mod_eq_of_lt (by omega)]
      simp only [hmid]
      have hl : l ≤ (l + u) / 2 := by omega
      have hr : (l + u) / 2 < u := by omega
      by_cases h1 : e.getD ((l + u) / 2) 0 < p
      · rw [if_pos h1]
        obtain ⟨b, hb, hiff⟩ := ih ((l + u) / 2 + 1) u hu (by omega)
        refine ⟨b, hb, hiff.trans ⟨?_, ?_⟩⟩
        · rintro ⟨k, hk1, hk2, hk3⟩; exact ⟨k, by omega, hk2, hk3⟩
        · rintro ⟨k, hk1, hk2, hk3⟩
          refine ⟨k, ?_, hk2, hk3⟩
          by_contra hc
          have hle : k ≤ (l + u) / 2 := by omega
          rcases Nat.lt_or_eq_of_le hle with hlt | heq
          · have := hs k ((l + u) / 2) hlt (by omega); omega
          · rw [heq] at hk3; omega
      · rw [if_neg h1]
        by_cases h2 : e.getD ((l + u) / 2) 0 > p
        · rw [if_pos h2]
          obtain ⟨b, hb, hiff⟩ := ih l ((l + u) / 2) (by omega) (by omega)
          refine ⟨b, hb, hiff.trans ⟨?_, ?_⟩⟩
          · rintro ⟨k, hk1, hk2, hk3⟩; exact ⟨k, hk1, by omega, hk3⟩
          · rintro ⟨k, hk1, hk2, hk3⟩
            refine ⟨k, hk1, ?_, hk3⟩
            by_contra hc
            have hle : (l + u) / 2 ≤ k := by omega
            rcases Nat.lt_or_eq_of_le hle with hlt | heq
            · have := hs ((l + u) / 2) k hlt (by omega); omega
            · rw [← heq] at hk3; omega
        · rw [if_neg h2]
          exact ⟨true, rfl, fun _ => ⟨(l + u) / 2, hl, hr, by omega⟩, fun _ => rfl⟩
    · rw [if_neg hlu]
      refine ⟨false, rfl, ⟨fun h => by simp at h, ?_⟩⟩
      rintro ⟨k, hk1, hk2, _⟩
      omega

theorem match_acl_spec (acls : acl_map) (mac : ether_addr) (fuel : Nat)
    (hs : List.Sorted (· < ·) acls.used) (hcap : acls.length ≤ acls.entries.length)
    (h31 : acls.length < 2 ^ 31) (hfuel : acls.length < fuel) :
    match_acl fuel acls mac = some (decide (padded_addr mac ∈ acls.used)) := by
  unfold match_acl
  obtain ⟨b, hb, hiff⟩ := match_acl_loop_spec acls.entries (padded_addr mac) acls.length h31
    ((sorted_take_iff_getD _ _ hcap).1 hs) fuel 0 acls.length (le_refl _) (by omega)
  rw [hb]
  congr 1
  have hmem : padded_addr mac ∈ acls.used ↔
      ∃ k, 0 ≤ k ∧ k < acls.length ∧ acls.entries.getD k 0 = padded_addr mac := by
    unfold acl_map.used
    rw [mem_take_iff_getD _ _ _ hcap]
    constructor
    · rintro ⟨k, hk, h⟩; exact ⟨k, Nat.zero_le _, hk, h⟩
    · rintro ⟨k, _, hk, h⟩; exact ⟨k, hk, h⟩
  cases b with
  | true => simp [hmem.2 (hiff.1 rfl)]
  | false =>
    have : ¬ padded_addr mac ∈ acls.used := fun h => by
      have := hiff.2 (hmem.1 h); cases this
    simp [this]

/-! ## The array after an insertion and after a removal -/

theorem memmove_getElem? (a : List Nat) (dst src n k : Nat) :
    (memmove a dst src n)[k]? =
      if k < a.length then
        some (if dst ≤ k ∧ k < dst + n then a.getD (src + (k - dst)) 0 else a.getD k 0)
      else none := by
  by_cases hk : k < a.length
  · rw [if_pos hk, ← memmove_getD a dst src n k hk]
    exact getElem?_of_lt _ _ (by rw [memmove_length]; exact hk)
  · rw [if_neg hk]
    exact List.getElem?_eq_none (by rw [memmove_length]; omega)

theorem insert_used (e : List Nat) (p i L : Nat) (hi : i ≤ L) (hL : L < e.length) :
    ((memmove e (i + 1) i (L - i)).set i p).take (L + 1)
      = (e.take L).take i ++ p :: (e.take L).drop i := by
  have hlen : ((e.take L).take i).length = i := by
    rw [List.length_take, List.length_take]; omega
  apply List.ext_getElem?
  intro k
  rw [List.getElem?_take, List.getElem?_set, memmove_getElem?, memmove_length]
  by_cases hk1 : k < i
  · rw [List.getElem?_append_left (by rw [hlen]; exact hk1)]
    rw [List.getElem?_take, List.getElem?_take]
    rw [if_pos (by omega), if_neg (by omega), if_pos (by omega), if_neg (by omega),
      if_pos hk1, if_pos (by omega)]
    exact (getElem?_of_lt e k (by omega)).symm
  · rw [List.getElem?_append_right (by rw [hlen]; omega), hlen]
    by_cases hk2 : k = i
    · subst hk2
      rw [if_pos (by omega), if_pos rfl, if_pos (by omega), Nat.sub_self,
        List.getElem?_cons_zero]
    · obtain ⟨d, rfl⟩ : ∃ d, k = i + 1 + d := ⟨k - (i + 1), by omega⟩
      have : i + 1 + d - i = d + 1 := by omega
      rw [this, List.getElem?_cons_succ, List.getElem?_drop, List.getElem?_take]
      by_cases hk3 : i + 1 + d < L + 1
      · rw [if_pos hk3, if_neg (by omega), if_pos (by omega), if_pos (by omega),
          if_pos (by omega)]
        have : i + (i + 1 + d - (i + 1)) = i + d := by omega
        rw [this]
        exact (getElem?_of_lt e (i + d) (by omega)).symm
      · rw [if_neg hk3, if_neg (by omega)]

theorem remove_used (e : List Nat) (i L : Nat) (hi : i < L) (hL : L ≤ e.length) :
    (memmove e i (i + 1) (L - i - 1)).take (L - 1) = (e.take L).eraseIdx i := by
  apply List.ext_getElem?
  intro k
  rw [List.getElem?_take, memmove_getElem?, List.getElem?_eraseIdx, List.getElem?_take,
    List.getElem?_take]
  by_cases hk1 : k < i
  · rw [if_pos (by omega), if_pos (by omega), if_neg (by omega), if_pos hk1, if_pos (by omega)]
    exact (getElem?_of_lt e k (by omega)).symm
  · rw [if_neg hk1]
    by_cases hk2 : k < L - 1
    · rw [if_pos hk2, if_pos (by omega), if_pos (by omega), if_pos (by omega)]
      have : i + 1 + (k - i) = k + 1 := by omega
      rw [this]
      exact (getElem?_of_lt e (k + 1) (by omega)).symm
    · rw [if_neg hk2, if_neg (by omega)]

theorem mem_drop_take_getD (a : List Nat) (n i y : Nat)
    (hy : y ∈ (a.take n).drop i) : ∃ k, i ≤ k ∧ k < n ∧ a.getD k 0 = y := by
  rw [List.mem_iff_getElem?] at hy
  obtain ⟨k, hk⟩ := hy
  rw [List.getElem?_drop, List.getElem?_take] at hk
  split at hk
  · exact ⟨i + k, by omega, by assumption, getD_eq_of_getElem? a _ y hk⟩
  · simp at hk

theorem sorted_le_take_getD (a : List Nat) (n : Nat) (h : n ≤ a.length)
    (hs : List.Sorted (· ≤ ·) (a.take n)) :
    ∀ i j, i ≤ j → j < n → a.getD i 0 ≤ a.getD j 0 := by
  intro i j hij hj
  rcases Nat.lt_or_eq_of_le hij with hlt | heq
  · have key : ∀ k (hk : k < (a.take n).length), (a.take n)[k] = a.getD k 0 := by
      intro k hk
      have hk' : k < n := by simpa [List.length_take, h] using hk
      have h1 : (a.take n)[k]? = some (a.getD k 0) := by
        rw [List.getElem?_take, if_pos hk']; exact getElem?_of_lt a k (by omega)
      rw [List.getElem?_eq_getElem hk] at h1
      exact Option.some.inj h1
    have hi' : i < (a.take n).length := by rw [List.length_take]; omega
    have hj' : j < (a.take n).length := by rw [List.length_take]; omega
    have := (List.pairwise_iff_getElem.1 hs) i j hi' hj' hlt
    rwa [key i hi', key j hj'] at this
  · subst heq; exact le_refl _

/-- What the scan of `add_one_acl` finds in a map whose used entries are in
ascending order. -/
theorem add_one_acl_scan_used (acls : acl_map) (p : Nat)
    (hcap : acls.length ≤ acls.entries.length) :
    add_one_acl_scan acls.entries p acls.length 0 ≤ acls.length ∧
    (∀ x ∈ acls.used.take (add_one_acl_scan acls.entries p acls.length 0), x < p) ∧
    (List.Sorted (· ≤ ·) acls.used →
      ∀ y ∈ acls.used.drop (add_one_acl_scan acls.entries p acls.length 0), p ≤ y) ∧
    (add_one_acl_scan acls.entries p acls.length 0 < acls.length ∧
      acls.entries.getD (add_one_acl_scan acls.entries p acls.length 0) 0 = p → p ∈ acls.used) ∧
    (List.Sorted (· ≤ ·) acls.used → p ∈ acls.used →
      add_one_acl_scan acls.entries p acls.length 0 < acls.length ∧
      acls.entries.getD (add_one_acl_scan acls.entries p acls.length 0) 0 = p) := by
  obtain ⟨_, h2, h3, h4⟩ := add_one_acl_scan_spec acls.entries p acls.length 0
  generalize add_one_acl_scan acls.entries p acls.length 0 = i at *
  have hi : i ≤ acls.length := by omega
  refine ⟨hi, ?_, ?_, ?_, ?_⟩
  · intro x hx
    unfold acl_map.used at hx
    rw [List.take_take, Nat.min_eq_left hi, mem_take_iff_getD _ _ _ (by omega)] at hx
    obtain ⟨k, hk, rfl⟩ := hx
    exact h3 k (Nat.zero_le _) hk
  · intro hs y hy
    obtain ⟨k, hk1, hk2, rfl⟩ := mem_drop_take_getD _ _ _ _ hy
    have h5 := h4 (by omega)
    have := sorted_le_take_getD _ _ hcap hs i k hk1 hk2
    omega
  · rintro ⟨h5, h6⟩
    unfold acl_map.used
    rw [mem_take_iff_getD _ _ _ hcap]
    exact ⟨i, h5, h6⟩
  · intro hs hp
    unfold acl_map.used at hp
    rw [mem_take_iff_getD _ _ _ hcap] at hp
    obtain ⟨k, hk, hkp⟩ := hp
    have hik : i ≤ k := by
      by_contra hc
      have := h3 k (Nat.zero_le _) (by omega)
      omega
    have h5 := h4 (by omega)
    have := sorted_le_take_getD _ _ hcap hs i k hik hk
    exact ⟨by omega, by omega⟩

/-! ## `add_one_acl` -/

theorem add_one_acl_dup (acls : acl_map) (addr : ether_addr)
    (hs : List.Sorted (· ≤ ·) acls.used) (hcap : acls.length ≤ acls.entries.length)
    (hp : padded_addr addr ∈ acls.used) : add_one_acl acls addr = (0, acls) := by
  obtain ⟨_, _, _, _, h5⟩ := add_one_acl_scan_used acls (padded_addr addr) hcap
  unfold add_one_acl
  simp only []
  rw [if_pos (h5 hs hp)]

theorem add_one_acl_full (acls : acl_map) (addr : ether_addr)
    (hcap : acls.length = acls.entries.length)
    (hp : padded_addr addr ∉ acls.used) : add_one_acl acls addr = (-1, acls) := by
  obtain ⟨_, _, _, h4, _⟩ := add_one_acl_scan_used acls (padded_addr addr) (le_of_eq hcap)
  unfold add_one_acl
  simp only []
  rw [if_neg (fun h => hp (h4 h)), if_pos (by omega)]

theorem add_one_acl_new (acls : acl_map) (addr : ether_addr)
    (hcap : acls.length < acls.entries.length)
    (hp : padded_addr addr ∉ acls.used) :
    (add_one_acl acls addr).1 = 0 ∧
    (add_one_acl acls addr).2.length = u32 (acls.length + 1) ∧
    (add_one_acl acls addr).2.entries.length = acls.entries.length ∧
    (add_one_acl acls addr).2.entries.take (acls.length + 1) =
      acls.used.take (add_one_acl_scan acls.entries (padded_addr addr) acls.length 0) ++
        padded_addr addr ::
          acls.used.drop (add_one_acl_scan acls.entries (padded_addr addr) acls.length 0) := by
  obtain ⟨h1, _, _, h4, _⟩ := add_one_acl_scan_used acls (padded_addr addr) (le_of_lt hcap)
  unfold add_one_acl
  simp only []
  rw [if_neg (fun h => hp (h4 h)), if_neg (by omega)]
  refine ⟨rfl, rfl, ?_, ?_⟩
  · simp [memmove_length]
  · exact insert_used acls.entries _ _ acls.length h1 hcap

theorem sorted_insert_at (r : Nat → Nat → Prop) (v : List Nat) (p i : Nat)
    (hs : List.Sorted r v) (h1 : ∀ x ∈ v.take i, r x p) (h2 : ∀ y ∈ v.drop i, r p y) :
    List.Sorted r (v.take i ++ p :: v.drop i) := by
  unfold List.Sorted at *
  have hv : List.Pairwise r (v.take i ++ v.drop i) := by rw [List.take_append_drop]; exact hs
  rw [List.pairwise_append] at hv ⊢
  obtain ⟨ha, hb, hc⟩ := hv
  refine ⟨ha, List.pairwise_cons.2 ⟨h2, hb⟩, ?_⟩
  intro a ha' b hb'
  rcases List.mem_cons.1 hb' with rfl | hb''
  · exact h1 a ha'
  · exact hc a ha' b hb''

/-- After the insertion of a new address the used entries are those of before
with the address put in at its place in the order. -/
theorem add_one_acl_new_used (acls : acl_map) (addr : ether_addr)
    (hs : List.Sorted (· < ·) acls.used) (hcap : acls.length < acls.entries.length)
    (h32 : acls.entries.length < 2 ^ 32) (hp : padded_addr addr ∉ acls.used) :
    (add_one_acl acls addr).2.length = acls.length + 1 ∧
    (add_one_acl acls addr).2.used = List.orderedInsert (· ≤ ·) (padded_addr addr) acls.used ∧
    List.Sorted (· < ·) (add_one_acl acls addr).2.used := by
  obtain ⟨_, h2, h3, _, _⟩ := add_one_acl_scan_used acls (padded_addr addr) (le_of_lt hcap)
  obtain ⟨_, hl, _, hu⟩ := add_one_acl_new acls addr hcap hp
  have hlen : (add_one_acl acls addr).2.length = acls.length + 1 := by
    rw [hl]; unfold u32; exact Nat.mod_eq_of_lt (by omega)
  have hused : (add_one_acl acls addr).2.used =
      acls.used.take (add_one_acl_scan acls.entries (padded_addr addr) acls.length 0) ++
        padded_addr addr ::
          acls.used.drop (add_one_acl_scan acls.entries (padded_addr addr) acls.length 0) := by
    rw [← hu]; unfold acl_map.used; rw [hlen]
  have h3' : ∀ y ∈ acls.used.drop
      (add_one_acl_scan acls.entries (padded_addr addr) acls.length 0), padded_addr addr < y := by
    intro y hy
    have hle := h3 hs.le_of_lt y hy
    have hne : y ≠ padded_addr addr := fun h => hp (h ▸ List.mem_of_mem_drop hy)
    omega
  have hsorted : List.Sorted (· < ·) (add_one_acl acls addr).2.used := by
    rw [hused]; exact sorted_insert_at _ _ _ _ hs h2 h3'
  refine ⟨hlen, ?_, hsorted⟩
  apply List.eq_of_perm_of_sorted (r := (· ≤ ·)) _ hsorted.le_of_lt
    (List.Sorted.orderedInsert _ _ hs.le_of_lt)
  rw [hused]
  refine List.Perm.trans ?_ (List.perm_orderedInsert _ _ _).symm
  refine List.Perm.trans List.perm_middle ?_
  rw [List.take_append_drop]

theorem padded_addr_injective (a b : ether_addr) (h : padded_addr a = padded_addr b) :
    a = b := by
  obtain ⟨a0, a1, a2, a3, a4, a5⟩ := a
  obtain ⟨b0, b1, b2, b3, b4, b5⟩ := b
  simp only [padded_addr] at h
  have h0 := a0.isLt; have h1 := a1.isLt; have h2 := a2.isLt
  have h3 := a3.isLt; have h4 := a4.isLt; have h5 := a5.isLt
  have g0 := b0.isLt; have g1 := b1.isLt; have g2 := b2.isLt
  have g3 := b3.isLt; have g4 := b4.isLt; have g5 := b5.isLt
  have e0 : a0 = b0 := Fin.ext (by omega)
  have e1 : a1 = b1 := Fin.ext (by omega)
  have e2 : a2 = b2 := Fin.ext (by omega)
  have e3 : a3 = b3 := Fin.ext (by omega)
  have e4 : a4 = b4 := Fin.ext (by omega)
  have e5 : a5 = b5 := Fin.ext (by omega)
  subst e0 e1 e2 e3 e4 e5
  rfl

/-! ## `del_one_acl` -/

theorem erase_eq_eraseIdx_first (v : List Nat) (p : Nat) :
    ∀ i, (∀ k, k < i → v.getD k 0 ≠ p) → i < v.length → v.getD i 0 = p →
      v.erase p = v.eraseIdx i := by
  induction v with
  | nil => intro i _ h _; simp at h
  | cons x v ih =>
    intro i h1 h2 h3
    cases i with
    | zero =>
      have hx : x = p := by simpa using h3
      subst hx
      simp
    | succ j =>
      have hx : x ≠ p := by simpa using h1 0 (Nat.succ_pos _)
      rw [List.erase_cons_tail (by simpa using hx), List.eraseIdx_cons_succ]
      congr 1
      apply ih j
      · intro k hk
        have := h1 (k + 1) (by omega)
        simpa using this
      · simpa using h2
      · simpa using h3

theorem del_one_acl_absent (acls : acl_map) (addr : ether_addr)
    (hcap : acls.length ≤ acls.entries.length) (hp : padded_addr addr ∉ acls.used) :
    del_one_acl acls addr = acls := by
  obtain ⟨_, h2, _, h4⟩ := del_one_acl_scan_spec acls.entries (padded_addr addr) acls.length 0
  unfold del_one_acl
  simp only []
  rw [if_pos]
  by_contra hc
  apply hp
  unfold acl_map.used
  rw [mem_take_iff_getD _ _ _ hcap]
  exact ⟨_, by omega, h4 (by omega)⟩

theorem del_one_acl_present (acls : acl_map) (addr : ether_addr)
    (hcap : acls.length ≤ acls.entries.length) (hp : padded_addr addr ∈ acls.used) :
    (del_one_acl acls addr).length = acls.length - 1 ∧
    (del_one_acl acls addr).entries.length = acls.entries.length ∧
    (del_one_acl acls addr).used = acls.used.erase (padded_addr addr) := by
  obtain ⟨_, h2, h3, h4⟩ := del_one_acl_scan_spec acls.entries (padded_addr addr) acls.length 0
  have hi : del_one_acl_scan acls.entries (padded_addr addr) acls.length 0 < acls.length := by
    unfold acl_map.used at hp
    rw [mem_take_iff_getD _ _ _ hcap] at hp
    obtain ⟨k, hk, hkp⟩ := hp
    by_contra hc
    exact h3 k (Nat.zero_le _) (by omega) hkp
  unfold del_one_acl
  simp only []
  rw [if_neg (by omega)]
  refine ⟨rfl, by simp [memmove_length], ?_⟩
  unfold acl_map.used
  simp only []
  rw [remove_used _ _ _ hi hcap]
  symm
  apply erase_eq_eraseIdx_first
  · intro k hk
    rw [getD_take_lt _ _ _ (by omega)]
    exact h3 k (Nat.zero_le _) hk
  · rw [List.length_take]; omega
  · rw [getD_take_lt _ _ _ hi]
    exact h4 (by omega)

/-! ## Invariant -/

theorem add_one_acl_keeps_sorted (acls : acl_map) (addr : ether_addr)
    (hs : List.Sorted (· < ·) acls.used) (hcap : acls.length ≤ acls.entries.length) :
    List.Sorted (· < ·) (add_one_acl acls addr).2.used ∧
    (add_one_acl acls addr).2.length ≤ (add_one_acl acls addr).2.entries.length ∧
    (add_one_acl acls addr).2.entries.length = acls.entries.length := by
  by_cases hp : padded_addr addr ∈ acls.used
  · rw [add_one_acl_dup acls addr hs.le_of_lt hcap hp]; exact ⟨hs, hcap, rfl⟩
  · by_cases hfull : acls.length < acls.entries.length
    · obtain ⟨_, h2, h3, _, _⟩ := add_one_acl_scan_used acls (padded_addr addr) hcap
      obtain ⟨_, hl, he, hu⟩ := add_one_acl_new acls addr hfull hp
      have hle : (add_one_acl acls addr).2.length ≤ acls.length + 1 := by
        rw [hl]; unfold u32; exact Nat.mod_le _ _
      refine ⟨?_, by omega, he⟩
      have h3' : ∀ y ∈ acls.used.drop
          (add_one_acl_scan acls.entries (padded_addr addr) acls.length 0),
          padded_addr addr < y := by
        intro y hy
        have hle := h3 hs.le_of_lt y hy
        have hne : y ≠ padded_addr addr := fun h => hp (h ▸ List.mem_of_mem_drop hy)
        omega
      have hbig : List.Sorted (· < ·)
          ((add_one_acl acls addr).2.entries.take (acls.length + 1)) := by
        rw [hu]; exact sorted_insert_at _ _ _ _ hs h2 h3'
      have : (add_one_acl acls addr).2.used =
          ((add_one_acl acls addr).2.entries.take (acls.length + 1)).take
            (add_one_acl acls addr).2.length := by
        unfold acl_map.used
        rw [List.take_take, Nat.min_eq_left hle]
      rw [this]
      exact List.Pairwise.sublist (List.take_sublist _ _) hbig
    · rw [add_one_acl_full acls addr (by omega) hp]; exact ⟨hs, hcap, rfl⟩

theorem del_one_acl_keeps_sorted (acls : acl_map) (addr : ether_addr)
    (hs : List.Sorted (· < ·) acls.used) (hcap : acls.length ≤ acls.entries.length) :
    List.Sorted (· < ·) (del_one_acl acls addr).used ∧
    (del_one_acl acls addr).length ≤ (del_one_acl acls addr).entries.length ∧
    (del_one_acl acls addr).entries.length = acls.entries.length := by
  by_cases hp : padded_addr addr ∈ acls.used
  · obtain ⟨hl, he, hu⟩ := del_one_acl_present acls addr hcap hp
    refine ⟨?_, by omega, he⟩
    rw [hu]
    exact List.Pairwise.sublist (List.erase_sublist _ _) hs
  · rw [del_one_acl_absent acls addr hcap hp]; exact ⟨hs, hcap, rfl⟩

theorem acl_calls_keep_sorted (calls : List acl_call) :
    ∀ acls : acl_map, List.Sorted (· < ·) acls.used → acls.length ≤ acls.entries.length →
      List.Sorted (· < ·) (acl_calls acls calls).used ∧
      (acl_calls acls calls).length ≤ (acl_calls acls calls).entries.length ∧
      (acl_calls acls calls).entries.length = acls.entries.length := by
  induction calls with
  | nil => intro acls hs hcap; exact ⟨hs, hcap, rfl⟩
  | cons c calls ih =>
    intro acls hs hcap
    have step : List.Sorted (· < ·) (c.apply acls).used ∧
        (c.apply acls).length ≤ (c.apply acls).entries.length ∧
        (c.apply acls).entries.length = acls.entries.length := by
      cases c with
      | add addr => exact add_one_acl_keeps_sorted acls addr hs hcap
      | del addr => exact del_one_acl_keeps_sorted acls addr hs hcap
    obtain ⟨h1, h2, h3⟩ := ih (c.apply acls) step.1 step.2.1
    exact ⟨h1, h2, h3.trans step.2.2⟩

/-! ## The claims on the ACL map -/

/-- C1: on a map whose used entries are strictly ascending (and lie inside the
array, whose index range fits the `unsigned` midpoint computation), `match_acl`
returns, and it returns `TRUE` exactly when the zero-padded address is one of
the used entries; on a map of length zero it returns `FALSE`. -/
theorem match_acl_correct (acls : acl_map) (mac : ether_addr) (fuel : Nat)
    (hs : List.Sorted (· < ·) acls.used) (hcap : acls.length ≤ acls.entries.length)
    (h31 : acls.length < 2 ^ 31) (hfuel : acls.length < fuel) :
    (∃ b, match_acl fuel acls mac = some b) ∧
    (match_acl fuel acls mac = some true ↔ padded_addr mac ∈ acls.used) ∧
    (acls.length = 0 → match_acl fuel acls mac = some false) := by
  have h := match_acl_spec acls mac fuel hs hcap h31 hfuel
  refine ⟨⟨_, h⟩, ?_, ?_⟩
  · rw [h]; simp
  · intro h0
    rw [h]
    simp [acl_map.used, h0]

/-- An instance of C1: the map holding 3, 5 and 9 and the address of padded value 5. -/
theorem match_acl_correct_witness :
    List.Sorted (· < ·) acl_example.used ∧
    acl_example.length ≤ acl_example.entries.length ∧ acl_example.length < 2 ^ 31 ∧
    acl_example.length < 4 ∧
    ((∃ b, match_acl 4 acl_example (mac_of_octet 5) = some b) ∧
    (match_acl 4 acl_example (mac_of_octet 5) = some true ↔
      padded_addr (mac_of_octet 5) ∈ acl_example.used) ∧
    (acl_example.length = 0 → match_acl 4 acl_example (mac_of_octet 5) = some false)) :=
  ⟨by decide, by decide, by decide, by decide,
    match_acl_correct acl_example (mac_of_octet 5) 4 (by decide) (by decide) (by decide)
      (by decide)⟩

/-- C2: starting from the zero-filled map, after every sequence of calls of
`add_one_acl` and `del_one_acl` the used entries are strictly ascending, the
length does not exceed the capacity of the array, and the capacity is the one
the map started with. -/
theorem acl_calls_invariant (cap : Nat) (calls : List acl_call) :
    List.Sorted (· < ·) (acl_calls (acl_map_new0 cap) calls).used ∧
    (acl_calls (acl_map_new0 cap) calls).length
      ≤ (acl_calls (acl_map_new0 cap) calls).entries.length ∧
    (acl_calls (acl_map_new0 cap) calls).entries.length = cap := by
  obtain ⟨h1, h2, h3⟩ := acl_calls_keep_sorted calls (acl_map_new0 cap)
    (by simp [acl_map_new0, acl_map.used]) (by simp [acl_map_new0])
  exact ⟨h1, h2, by rw [h3]; simp [acl_map_new0]⟩

/-- C3: on a strictly ascending map with room left, adding an address that is
not in it returns 0, raises the length by one and puts the address at its place
in the order (the used entries become the ordered insertion into the old ones);
afterwards `match_acl` is `TRUE` for the address and answers as before for every
other address. -/
theorem add_one_acl_inserts (acls : acl_map) (addr : ether_addr) (fuel : Nat)
    (hs : List.Sorted (· < ·) acls.used) (hcap : acls.length < acls.entries.length)
    (h31 : acls.entries.length < 2 ^ 31) (hp : padded_addr addr ∉ acls.used)
    (hfuel : acls.length + 1 < fuel) :
    (add_one_acl acls addr).1 = 0 ∧
    (add_one_acl acls addr).2.length = acls.length + 1 ∧
    (add_one_acl acls addr).2.used
      = List.orderedInsert (· ≤ ·) (padded_addr addr) acls.used ∧
    match_acl fuel (add_one_acl acls addr).2 addr = some true ∧
    ∀ other, other ≠ addr →
      match_acl fuel (add_one_acl acls addr).2 other = match_acl fuel acls other := by
  obtain ⟨hl, hu, hs'⟩ := add_one_acl_new_used acls addr hs hcap (by omega) hp
  obtain ⟨hr, _, he, _⟩ := add_one_acl_new acls addr hcap hp
  have hm : ∀ mac, match_acl fuel (add_one_acl acls addr).2 mac
      = some (decide (padded_addr mac ∈ (add_one_acl acls addr).2.used)) := fun mac =>
    match_acl_spec _ mac fuel hs' (by omega) (by omega) (by omega)
  refine ⟨hr, hl, hu, ?_, ?_⟩
  · rw [hm, hu]; simp
  · intro other hne
    have hne' : padded_addr other ≠ padded_addr addr :=
      fun h => hne (padded_addr_injective _ _ h)
    rw [hm, hu, match_acl_spec acls other fuel hs (by omega) (by omega) (by omega)]
    simp [hne']

/-- An instance of C3: the address of padded value 4 added to the map holding 3, 5 and 9. -/
theorem add_one_acl_inserts_witness :
    List.Sorted (· < ·) acl_example.used ∧
    acl_example.length < acl_example.entries.length ∧
    acl_example.entries.length < 2 ^ 31 ∧
    padded_addr (mac_of_octet 4) ∉ acl_example.used ∧ acl_example.length + 1 < 5 ∧
    ((add_one_acl acl_example (mac_of_octet 4)).1 = 0 ∧
    (add_one_acl acl_example (mac_of_octet 4)).2.length = acl_example.length + 1 ∧
    (add_one_acl acl_example (mac_of_octet 4)).2.used
      = List.orderedInsert (· ≤ ·) (padded_addr (mac_of_octet 4)) acl_example.used ∧
    match_acl 5 (add_one_acl acl_example (mac_of_octet 4)).2 (mac_of_octet 4) = some true ∧
    ∀ other, other ≠ mac_of_octet 4 →
      match_acl 5 (add_one_acl acl_example (mac_of_octet 4)).2 other
        = match_acl 5 acl_example other) :=
  ⟨by decide, by decide, by decide, by decide, by decide,
    add_one_acl_inserts acl_example (mac_of_octet 4) 5 (by decide) (by decide) (by decide)
      (by decide) (by decide)⟩

/-- C4: on a strictly ascending map, `del_one_acl` of an address that is in it
lowers the length by one and removes exactly that entry, the others keeping
their order, after which `match_acl` is `FALSE` for the address and answers as
before for every other address; `del_one_acl` of an address that is not in the
map leaves the map as it is. -/
theorem del_one_acl_removes (acls : acl_map) (addr : ether_addr) (fuel : Nat)
    (hs : List.Sorted (· < ·) acls.used) (hcap : acls.length ≤ acls.entries.length)
    (h31 : acls.length < 2 ^ 31) (hfuel : acls.length < fuel) :
    (padded_addr addr ∈ acls.used →
      (del_one_acl acls addr).length = acls.length - 1 ∧
      (del_one_acl acls addr).used = acls.used.erase (padded_addr addr) ∧
      match_acl fuel (del_one_acl acls addr) addr = some false ∧
      ∀ other, other ≠ addr →
        match_acl fuel (del_one_acl acls addr) other = match_acl fuel acls other) ∧
    (padded_addr addr ∉ acls.used → del_one_acl acls addr = acls) := by
  refine ⟨fun hp => ?_, del_one_acl_absent acls addr hcap⟩
  obtain ⟨hl, he, hu⟩ := del_one_acl_present acls addr hcap hp
  obtain ⟨hs', _, _⟩ := del_one_acl_keeps_sorted acls addr hs hcap
  have hm : ∀ mac, match_acl fuel (del_one_acl acls addr) mac
      = some (decide (padded_addr mac ∈ (del_one_acl acls addr).used)) := fun mac =>
    match_acl_spec _ mac fuel hs' (by omega) (by omega) (by omega)
  have hnd : acls.used.Nodup := hs.nodup
  refine ⟨hl, hu, ?_, ?_⟩
  · rw [hm, hu]
    simp [hnd.mem_erase_iff]
  · intro other hne
    have hne' : padded_addr other ≠ padded_addr addr :=
      fun h => hne (padded_addr_injective _ _ h)
    rw [hm, hu, match_acl_spec acls other fuel hs hcap h31 hfuel]
    simp [hnd.mem_erase_iff, hne']

/-- An instance of C4: the address of padded value 5 removed from the map holding 3, 5
and 9. -/
theorem del_one_acl_removes_witness :
    List.Sorted (· < ·) acl_example.used ∧
    acl_example.length ≤ acl_example.entries.length ∧ acl_example.length < 2 ^ 31 ∧
    acl_example.length < 4 ∧ padded_addr (mac_of_octet 5) ∈ acl_example.used ∧
    (del_one_acl acl_example (mac_of_octet 5)).length = acl_example.length - 1 ∧
    (del_one_acl acl_example (mac_of_octet 5)).used
      = acl_example.used.erase (padded_addr (mac_of_octet 5)) ∧
    match_acl 4 (del_one_acl acl_example (mac_of_octet 5)) (mac_of_octet 5) = some false ∧
    ∀ other, other ≠ mac_of_octet 5 →
      match_acl 4 (del_one_acl acl_example (mac_of_octet 5)) other
        = match_acl 4 acl_example other :=
  ⟨by decide, by decide, by decide, by decide, by decide,
    (del_one_acl_removes acl_example (mac_of_octet 5) 4 (by decide) (by decide) (by decide)
      (by decide)).1 (by decide)⟩

/-- C5: on a full map (length equal to the capacity of the array), adding an
address that is not among the used entries returns -1 and leaves the entries and
the length as they are. -/
theorem add_one_acl_full_rejects (acls : acl_map) (addr : ether_addr)
    (hfull : acls.length = acls.entries.length)
    (hp : padded_addr addr ∉ acls.used) :
    (add_one_acl acls addr).1 = -1 ∧ (add_one_acl acls addr).2 = acls := by
  rw [add_one_acl_full acls addr hfull hp]
  exact ⟨rfl, rfl⟩

/-- An instance of C5: the address of padded value 4 added to the full map holding 3, 5
and 9. -/
theorem add_one_acl_full_rejects_witness :
    acl_example_full.length = acl_example_full.entries.length ∧
    padded_addr (mac_of_octet 4) ∉ acl_example_full.used ∧
    (add_one_acl acl_example_full (mac_of_octet 4)).1 = -1 ∧
    (add_one_acl acl_example_full (mac_of_octet 4)).2 = acl_example_full :=
  ⟨by decide, by decide,
    add_one_acl_full_rejects acl_example_full (mac_of_octet 4) (by decide) (by decide)⟩

/-- C6: on a map in ascending order, adding an address that is already among
the used entries returns 0 and leaves the map as it is, whether or not the map
is full; and a second `add_one_acl` of the same address right after the first
returns the same value and leaves the map of the first as it is. -/
theorem add_one_acl_duplicate_noop (acls : acl_map) (addr : ether_addr)
    (hs : List.Sorted (· ≤ ·) acls.used) (hcap : acls.length ≤ acls.entries.length)
    (h32 : acls.entries.length < 2 ^ 32) :
    (padded_addr addr ∈ acls.used → add_one_acl acls addr = (0, acls)) ∧
    add_one_acl (add_one_acl acls addr).2 addr = add_one_acl acls addr := by
  refine ⟨add_one_acl_dup acls addr hs hcap, ?_⟩
  by_cases hp : padded_addr addr ∈ acls.used
  · rw [add_one_acl_dup acls addr hs hcap hp]
    exact add_one_acl_dup acls addr hs hcap hp
  · by_cases hfull : acls.length < acls.entries.length
    · obtain ⟨_, h2, h3, _, _⟩ := add_one_acl_scan_used acls (padded_addr addr) hcap
      obtain ⟨hr, hl, he, hu⟩ := add_one_acl_new acls addr hfull hp
      have hlen : (add_one_acl acls addr).2.length = acls.length + 1 := by
        rw [hl]; unfold u32; exact Nat.mod_eq_of_lt (by omega)
      have hused : (add_one_acl acls addr).2.used =
          acls.used.take (add_one_acl_scan acls.entries (padded_addr addr) acls.length 0) ++
            padded_addr addr ::
              acls.used.drop
                (add_one_acl_scan acls.entries (padded_addr addr) acls.length 0) := by
        rw [← hu]; unfold acl_map.used; rw [hlen]
      have hs' : List.Sorted (· ≤ ·) (add_one_acl acls addr).2.used := by
        rw [hused]
        exact sorted_insert_at _ _ _ _ hs (fun x hx => le_of_lt (h2 x hx)) (h3 hs)
      have hp' : padded_addr addr ∈ (add_one_acl acls addr).2.used := by
        rw [hused]; simp
      rw [add_one_acl_dup _ addr hs' (by omega) hp']
      exact Prod.ext hr.symm rfl
    · rw [add_one_acl_full acls addr (by omega) hp]
      exact add_one_acl_full acls addr (by omega) hp

/-- An instance of C6: the address of padded value 9 added to the full map holding 3, 5
and 9. -/
theorem add_one_acl_duplicate_noop_witness :
    List.Sorted (· ≤ ·) acl_example_full.used ∧
    acl_example_full.length ≤ acl_example_full.entries.length ∧
    acl_example_full.entries.length < 2 ^ 32 ∧
    padded_addr (mac_of_octet 9) ∈ acl_example_full.used ∧
    add_one_acl acl_example_full (mac_of_octet 9) = (0, acl_example_full) ∧
    add_one_acl (add_one_acl acl_example_full (mac_of_octet 9)).2 (mac_of_octet 9)
      = add_one_acl acl_example_full (mac_of_octet 9) :=
  ⟨by decide, by decide, by decide, by decide,
    (add_one_acl_duplicate_noop acl_example_full (mac_of_octet 9) (by decide) (by decide)
      (by decide)).1 (by decide),
    (add_one_acl_duplicate_noop acl_example_full (mac_of_octet 9) (by decide) (by decide)
      (by decide)).2⟩

/-! ## Reload of the configuration -/

theorem validate_config_refused (env : config_env) (config : GKeyFile)
    (defaults d : default_config) (devices_macs dm : List device_macs_t)
    (h : validate_config env config defaults devices_macs = some (false, d, dm)) :
    d = defaults := by
  unfold validate_config at h
  simp only [] at h
  split at h
  · cases h
  · split at h
    · cases h
    · split at h
      · cases h
      · split at h
        · cases h
        · simp only [Option.some.injEq, Prod.mk.injEq, true_and] at h
          exact h.1.symm

/-- What a reload does when `validate_config` refuses the file: `global_config`
and `defaults` stay, no call of `setup_ifaces` or `setup_devices` is made, and
`devices_macs` becomes the list that `validate_config` leaves. -/
theorem do_load_config_refused (env : config_env) (config : GKeyFile) (st : daemon_state)
    (d : default_config) (dm : List device_macs_t)
    (h : validate_config env config st.defaults st.devices_macs = some (false, d, dm)) :
    do_load_config env (some config) true st =
      some { st with devices_macs := dm, calls := st.calls ++ [.validate_config] } := by
  have hd := validate_config_refused env config st.defaults d st.devices_macs dm h
  subst hd
  unfold do_load_config
  simp only [h]
  rfl

/-- C7 (the code departs from it): a reload of the file `reload_config_example`,
which `validate_config` refuses for its queue length, keeps `defaults` and
makes no call of `setup_ifaces` or `setup_devices`, but the binding list
`devices_macs`, which held the binding of `e7.0`, holds the binding of `e1.2`
read from the refused file afterwards. -/
theorem do_load_config_refused_devices_macs :
    (validate_config config_env_example reload_config_example daemon_state_example.defaults
        daemon_state_example.devices_macs).map (fun r => r.1) = some false ∧
    daemon_state_example.devices_macs =
      [{ shelf := 7, slot := 0, device_id := 1, macs := [[0, 17, 34, 51, 68, 85]] }] ∧
    (do_load_config config_env_example (some reload_config_example) true
        daemon_state_example).map (fun st => st.devices_macs) =
      some [{ shelf := 1, slot := 2, device_id := 3, macs := [[1, 2, 3, 4, 5, 6]] }] ∧
    (do_load_config config_env_example (some reload_config_example) true
        daemon_state_example).map (fun st => (st.defaults, st.calls)) =
      some (daemon_state_example.defaults, [daemon_call.validate_config]) := by
  refine ⟨?_, ?_, ?_, ?_⟩ <;> decide

/-- C8: when loading the configuration file fails, `do_load_config` returns
with the state as it was: `global_config`, `defaults` and `devices_macs` are
unchanged and no call of `validate_config`, `setup_ifaces` or `setup_devices`
is made. -/
theorem do_load_config_load_failure (env : config_env) (st : daemon_state) :
    do_load_config env none true st = some st := rfl

/-! ## The datagram of `send_command` -/

theorem send_command_len_eq (argv : List c_string) (len : Nat) :
    send_command_len argv len = len + (argv.map fun a => a.length + 1).sum := by
  induction argv generalizing len with
  | nil => simp [send_command_len]
  | cons a argv ih => simp [send_command_len, ih]; omega

theorem send_command_buf_eq (argv : List c_string) (buf : List byte) :
    send_command_buf argv buf = buf ++ (argv.map fun a => a ++ [0]).flatten := by
  induction argv generalizing buf with
  | nil => simp [send_command_buf]
  | cons a argv ih => simp [send_command_buf, ih]

theorem length_args_flatten (argv : List c_string) :
    ((argv.map fun a => a ++ [(0 : byte)]).flatten).length
      = (argv.map fun a => a.length + 1).sum := by
  induction argv with
  | nil => rfl
  | cons a argv ih =>
    simp only [List.map_cons, List.flatten_cons, List.length_append, List.sum_cons, ih,
      List.length_singleton]

theorem send_command_eq (cmd : Nat) (argv : List c_string) :
    send_command cmd (some argv) = uint32_bytes cmd ++ (argv.map fun a => a ++ [0]).flatten := by
  unfold send_command
  simp only [Option.getD_some, send_command_len_eq, send_command_buf_eq, Nat.zero_add,
    List.nil_append]
  by_cases h : (argv.map fun a => a.length + 1).sum = 0
  · have : (argv.map fun a => a ++ [(0 : byte)]).flatten = [] := by
      apply List.eq_nil_of_length_eq_zero
      rw [length_args_flatten]; exact h
    simp [h, this]
  · rw [if_pos h, List.take_of_length_le (by rw [length_args_flatten])]

theorem split_at_nul_string (a : c_string) (h : (0 : byte) ∉ a) (rest cur : List byte) :
    split_at_nul (a ++ 0 :: rest) cur = (cur ++ a) :: split_at_nul rest [] := by
  induction a generalizing cur with
  | nil => simp [split_at_nul]
  | cons b a ih =>
    have hb : b ≠ 0 := fun hb => h (by simp [hb])
    have ha : (0 : byte) ∉ a := fun ha => h (by simp [ha])
    simp [split_at_nul, hb, ih ha]

theorem split_at_nul_args (argv : List c_string) (h : ∀ a ∈ argv, (0 : byte) ∉ a) :
    split_at_nul (argv.map fun a => a ++ [0]).flatten [] = argv := by
  induction argv with
  | nil => simp [split_at_nul]
  | cons a argv ih =>
    simp only [List.map_cons, List.flatten_cons, List.append_assoc, List.singleton_append]
    rw [split_at_nul_string a (h a (by simp)), ih (fun b hb => h b (by simp [hb]))]
    simp

/-- C9: for every command word and every argument vector of C strings, the
datagram of `send_command` is the four bytes of the command word followed by
the arguments in order, each followed by one NUL byte; its length is four plus
the sum of the `strlen(arg) + 1`; without arguments (a NULL or an empty vector)
it is the command word alone; and cutting the bytes after the command word at
the NUL bytes gives the argument vector back. -/
theorem send_command_datagram (cmd : Nat) (argv : List c_string)
    (hstr : ∀ a ∈ argv, (0 : byte) ∉ a) :
    send_command cmd (some argv) = uint32_bytes cmd ++ (argv.map fun a => a ++ [0]).flatten ∧
    (send_command cmd (some argv)).length = 4 + (argv.map fun a => a.length + 1).sum ∧
    send_command cmd none = uint32_bytes cmd ∧
    send_command cmd (some []) = uint32_bytes cmd ∧
    split_at_nul ((send_command cmd (some argv)).drop 4) [] = argv := by
  refine ⟨send_command_eq cmd argv, ?_, rfl, rfl, ?_⟩
  · rw [send_command_eq, List.length_append, length_args_flatten]; rfl
  · rw [send_command_eq]
    have : (uint32_bytes cmd ++ (argv.map fun a => a ++ [(0 : byte)]).flatten).drop 4
        = (argv.map fun a => a ++ [(0 : byte)]).flatten := by
      simp [uint32_bytes]
    rw [this]
    exact split_at_nul_args argv hstr

/-- An instance of C9: the command word 2 with the arguments `e1.0` and `eth0`. -/
theorem send_command_datagram_witness :
    (∀ a ∈ [c_str "e1.0", c_str "eth0"], (0 : byte) ∉ a) ∧
    send_command 2 (some [c_str "e1.0", c_str "eth0"])
      = uint32_bytes 2 ++ ([c_str "e1.0", c_str "eth0"].map fun a => a ++ [0]).flatten ∧
    (send_command 2 (some [c_str "e1.0", c_str "eth0"])).length
      = 4 + ([c_str "e1.0", c_str "eth0"].map fun a => a.length + 1).sum ∧
    send_command 2 none = uint32_bytes 2 ∧
    send_command 2 (some []) = uint32_bytes 2 ∧
    split_at_nul ((send_command 2 (some [c_str "e1.0", c_str "eth0"])).drop 4) []
      = [c_str "e1.0", c_str "eth0"] :=
  ⟨by decide, send_command_datagram 2 [c_str "e1.0", c_str "eth0"] (by decide)⟩

/-! ## The handshake of the client -/

theorem send_command_io_cases (env : ctl_env) (cmd : Nat) (argv : Option (List c_string))
    (io : ctl_io) :
    (env.send_ok io.sent.length = true ∧ send_command_io env cmd argv io =
      (.returned, { sent := io.sent ++ [send_command cmd argv], inbox := io.inbox })) ∨
    (env.send_ok io.sent.length = false ∧ send_command_io env cmd argv io = (.exited 1, io)) := by
  unfold send_command_io
  by_cases h : env.send_ok io.sent.length = true
  · left; exact ⟨h, by rw [if_pos h]⟩
  · right; exact ⟨by simpa using h, by rw [if_neg h]⟩

theorem receive_msg_sent (io : ctl_io) : (receive_msg io).2.2.2.2.sent = io.sent := by
  unfold receive_msg
  split <;> rfl

theorem parse_number_loop_length (p : List Char) (number : Int) (flag : Bool) :
    (parse_number_loop p number flag).1.length ≤ p.length := by
  induction p generalizing number flag with
  | nil => simp [parse_number_loop]
  | cons c p ih =>
    unfold parse_number_loop
    split
    · exact Nat.le_succ_of_le (ih _ _)
    · exact le_refl _

theorem parse_number_length (p : List Char) : (parse_number p).1.length ≤ p.length := by
  unfold parse_number
  exact parse_number_loop_length p 0 false

theorem parse_mac_loop_length (n : Nat) :
    ∀ (p : List Char) (mac : mac_octets) (p1 : List Char) (mac1 : mac_octets),
      parse_mac_loop n p mac = .ok p1 mac1 → p1.length + n ≤ p.length := by
  induction n with
  | zero =>
    intro p mac p1 mac1 h
    simp only [parse_mac_loop, parse_mac_result.ok.injEq] at h
    rw [← h.1]; exact le_refl _
  | succ n ih =>
    intro p mac p1 mac1 h
    unfold parse_mac_loop at h
    have hlen := parse_number_length p
    generalize parse_number p = r at h hlen
    obtain ⟨q, tmp⟩ := r
    simp only [] at h hlen
    split at h
    · cases h
    · cases q with
      | nil =>
        simp only [] at h
        split at h <;> cases h
      | cons c q2 =>
        simp only [] at h
        split at h
        · cases h
        · have := ih _ _ _ _ h
          simp only [List.length_cons] at hlen
          omega

theorem skip_spaces_length (p : List Char) : (skip_spaces p).length ≤ p.length := by
  induction p with
  | nil => simp [skip_spaces]
  | cons c p ih =>
    unfold skip_spaces
    split
    · exact Nat.le_succ_of_le ih
    · exact le_refl _

/-- The loop `while(strlen(p))` of `build_devices_macs` ends within
`strlen(p) + 1` rounds: with any larger bound on the rounds the result is the
same. -/
theorem build_mac_list_fuel (fuel : Nat) :
    ∀ (fuel2 : Nat) (p : List Char) (mac_list : Option (List mac_octets)) (pos : Nat),
      p.length < fuel → p.length < fuel2 →
      build_mac_list fuel p mac_list pos = build_mac_list fuel2 p mac_list pos := by
  induction fuel with
  | zero => intro _ p _ _ h; omega
  | succ fuel ih =>
    intro fuel2 p mac_list pos h1 h2
    cases fuel2 with
    | zero => omega
    | succ fuel2 =>
      cases p with
      | nil => simp [build_mac_list]
      | cons c p =>
        unfold build_mac_list
        simp only []
        have hlen := parse_mac_loop_length 6 (c :: p) []
        unfold parse_mac
        generalize parse_mac_loop 6 (c :: p) [] = r at hlen
        cases r with
        | null => rfl
        | past_end => rfl
        | ok p1 mac =>
          simp only []
          have h3 := hlen p1 mac rfl
          have h4 := skip_spaces_length p1
          split
          · rfl
          · exact ih fuel2 _ _ _ (by omega) (by omega)

theorem stats_loop_length (k : ctl_consts) (inbox : List recv_result) :
    (stats_loop k inbox).2.2.length ≤ inbox.length := by
  induction inbox with
  | nil => simp [stats_loop]
  | cons r inbox ih =>
    cases r with
    | error q => simp [stats_loop]
    | packet len type version =>
      unfold stats_loop
      split_ifs <;> first | exact Nat.le_succ _ | exact Nat.le_succ_of_le ih

theorem receive_msg_returned (io : ctl_io) (len type version : Nat) (io2 : ctl_io)
    (h : receive_msg io = (.returned, len, type, version, io2)) :
    io2.sent = io.sent ∧ io2.inbox.length + 1 = io.inbox.length := by
  unfold receive_msg at h
  split at h
  · cases h
  · simp only [Prod.mk.injEq] at h
    exact absurd h.1 (by simp)
  · rename_i heq
    simp only [Prod.mk.injEq, true_and] at h
    obtain ⟨_, _, _, h4⟩ := h
    rw [← h4, heq]
    exact ⟨rfl, rfl⟩

/-- The loop of `do_monitor` ends within one round more than there are
datagrams to come: with any larger bound on the rounds the result is the same. -/
theorem do_monitor_loop_fuel (k : ctl_consts) (env : ctl_env) (argv : List c_string)
    (fuel : Nat) :
    ∀ (fuel2 round : Nat) (io : ctl_io), io.inbox.length < fuel → io.inbox.length < fuel2 →
      do_monitor_loop k env argv fuel round io = do_monitor_loop k env argv fuel2 round io := by
  induction fuel with
  | zero => intro _ _ io h; omega
  | succ fuel ih =>
    intro fuel2 round io h1 h2
    cases fuel2 with
    | zero => omega
    | succ fuel2 =>
      unfold do_monitor_loop
      split
      · rfl
      · rcases send_command_io_cases env k.CTL_CMD_GET_STATS (some argv) io with ⟨_, h⟩ | ⟨_, h⟩
        · rw [h]
          simp only []
          split
          · rename_i len type version io2 heq
            have hr := receive_msg_returned _ _ _ _ _ heq
            simp only [] at hr
            split
            · rfl
            · have hl := stats_loop_length k io2.inbox
              split
              · rename_i inbox hst
                rw [hst] at hl
                simp only [] at hl
                exact ih fuel2 _ _ (by simp only []; omega) (by simp only []; omega)
              · rfl
          · rfl
        · rw [h]

/-! ## Exit code and clear commands of the client -/

/-- C11 (the code departs from it): with the numbers of `ctl_consts_example`,
in the runs of `stats`, `monitor`, `show-config`, `show-macmask` and
`show-reserve` in which the handshake succeeds and the reply to the request is
a datagram of a type that is not expected (99), and in the run of `stats` in
which it is a datagram of three bytes, the exit code is 0. -/
theorem main_unexpected_reply_exits_zero :
    main ctl_consts_example (ctl_env_of "stats" []) [.packet 8 0 1, .packet 4 99 0]
      = (.exited 0, { sent := [send_command 0 none, send_command 1 (some [])], inbox := [] }) ∧
    main ctl_consts_example (ctl_env_of "stats" []) [.packet 8 0 1, .packet 3 0 0]
      = (.exited 0, { sent := [send_command 0 none, send_command 1 (some [])], inbox := [] }) ∧
    main ctl_consts_example (ctl_env_of "stats" [])
        [.packet 8 0 1, .packet 24 1 0, .packet 4 99 0]
      = (.exited 0, { sent := [send_command 0 none, send_command 1 (some [])], inbox := [] }) ∧
    main ctl_consts_example (ctl_env_of "monitor" []) [.packet 8 0 1, .packet 4 99 0]
      = (.exited 0, { sent := [send_command 0 none, send_command 1 (some [])], inbox := [] }) ∧
    main ctl_consts_example (ctl_env_of "show-config" []) [.packet 8 0 1, .packet 4 99 0]
      = (.exited 0, { sent := [send_command 0 none, send_command 2 (some [])], inbox := [] }) ∧
    main ctl_consts_example (ctl_env_of "show-macmask" []) [.packet 8 0 1, .packet 4 99 0]
      = (.exited 0, { sent := [send_command 0 none, send_command 3 (some [])], inbox := [] }) ∧
    main ctl_consts_example (ctl_env_of "show-reserve" []) [.packet 8 0 1, .packet 4 99 0]
      = (.exited 0, { sent := [send_command 0 none, send_command 4 (some [])], inbox := [] }) := by
  refine ⟨?_, ?_, ?_, ?_, ?_, ?_, ?_⟩ <;> decide

theorem main_after_hello (k : ctl_consts) (env : ctl_env) (command : c_string)
    (argv : List c_string) (r : recv_result) (rest : List recv_result)
    (hopt : env.getopt = .done (command :: argv)) (hload : env.load_ok = true)
    (hsocket : env.socket_ok = true) (hbind : env.bind_ok = true)
    (hconnect : env.connect_ok = true) (hsend : env.send_ok 0 = true)
    (hr : hello_accepted k r = true) :
    main k env (r :: rest) = main_dispatch k env command argv
      { sent := [send_command k.CTL_CMD_HELLO none], inbox := rest } := by
  unfold main
  simp only [hopt, hload, hsocket, hbind, hconnect]
  cases r with
  | error q => simp [hello_accepted] at hr
  | packet len type version =>
    have hr' : len = k.sizeof_msg_hello ∧ type = k.CTL_MSG_HELLO ∧
        version = k.CTL_PROTO_VERSION := by
      simpa [hello_accepted] using hr
    obtain ⟨h1, h2, h3⟩ := hr'
    subst h1 h2 h3
    simp [main_connected, send_command_io, receive_msg, hsend]

theorem main_dispatch_clear_config (k : ctl_consts) (env : ctl_env) (argv : List c_string)
    (io : ctl_io) :
    main_dispatch k env (c_str "clear-config") argv io =
      match do_clear k env k.CTL_CMD_CLEAR_CONFIG argv io with
      | (.returned, io1) => (.exited 0, io1)
      | r1 => r1 := by
  unfold main_dispatch
  rw [if_neg (by decide), if_neg (by decide), if_neg (by decide), if_neg (by decide),
    if_neg (by decide), if_neg (by decide), if_neg (by decide), if_pos rfl]

theorem main_dispatch_clear_macmask (k : ctl_consts) (env : ctl_env) (argv : List c_string)
    (io : ctl_io) :
    main_dispatch k env (c_str "clear-macmask") argv io =
      match do_clear k env k.CTL_CMD_CLEAR_MACMASK argv io with
      | (.returned, io1) => (.exited 0, io1)
      | r1 => r1 := by
  unfold main_dispatch
  rw [if_neg (by decide), if_neg (by decide), if_neg (by decide), if_neg (by decide),
    if_neg (by decide), if_neg (by decide), if_neg (by decide), if_neg (by decide),
    if_pos rfl]

theorem main_dispatch_clear_reserve (k : ctl_consts) (env : ctl_env) (argv : List c_string)
    (io : ctl_io) :
    main_dispatch k env (c_str "clear-reserve") argv io =
      match do_clear k env k.CTL_CMD_CLEAR_RESERVE argv io with
      | (.returned, io1) => (.exited 0, io1)
      | r1 => r1 := by
  unfold main_dispatch
  rw [if_neg (by decide), if_neg (by decide), if_neg (by decide), if_neg (by decide),
    if_neg (by decide), if_neg (by decide), if_neg (by decide), if_neg (by decide),
    if_neg (by decide), if_pos rfl]

theorem main_dispatch_clear_stats (k : ctl_consts) (env : ctl_env) (argv : List c_string)
    (io : ctl_io) :
    main_dispatch k env (c_str "clear-stats") argv io =
      match do_clear k env k.CTL_CMD_CLEAR_STATS argv io with
      | (.returned, io1) => (.exited 0, io1)
      | r1 => r1 := by
  unfold main_dispatch
  rw [if_neg (by decide), if_neg (by decide), if_neg (by decide), if_neg (by decide),
    if_neg (by decide), if_neg (by decide), if_pos rfl]

theorem do_clear_no_name (k : ctl_consts) (env : ctl_env) (cmd : Nat) (io : ctl_io)
    (hcmd : cmd ≠ k.CTL_CMD_CLEAR_STATS) : do_clear k env cmd [] io = (.exited 1, io) := by
  unfold do_clear
  rw [if_pos ⟨hcmd, rfl⟩]

theorem do_clear_stats_no_name_sent (k : ctl_consts) (env : ctl_env) (io : ctl_io)
    (hsend : env.send_ok io.sent.length = true) :
    (do_clear k env k.CTL_CMD_CLEAR_STATS [] io).2.sent
      = io.sent ++ [send_command k.CTL_CMD_CLEAR_STATS (some [])] := by
  unfold do_clear
  rw [if_neg (fun h => h.1 rfl)]
  rcases send_command_io_cases env k.CTL_CMD_CLEAR_STATS (some []) io with ⟨_, h⟩ | ⟨h0, _⟩
  · rw [h]
    simp only []
    have hs := receive_msg_sent
      { sent := io.sent ++ [send_command k.CTL_CMD_CLEAR_STATS (some [])], inbox := io.inbox }
    split
    · rename_i heq
      rw [heq] at hs
      simp only [] at hs
      split <;> exact hs
    · rename_i heq
      rw [heq] at hs
      exact hs
  · rw [hsend] at h0; cases h0

/-- C12 (the claim as stated fails): with the numbers of `ctl_consts_example`,
the run of `clear-stats` without a name sends, after `HELLO`, the request
`CTL_CMD_CLEAR_STATS` without arguments, and with the reply `CTL_MSG_OK` the
exit code is 0. -/
theorem main_clear_stats_no_name_sends :
    ctl_consts_example.CTL_CMD_CLEAR_STATS = 5 ∧
    (ctl_env_of "clear-stats" []).getopt = .done [c_str "clear-stats"] ∧
    main ctl_consts_example (ctl_env_of "clear-stats" []) [.packet 8 0 1, .packet 4 6 0]
      = (.exited 0, { sent := [send_command 0 none, send_command 5 (some [])], inbox := [] }) := by
  refine ⟨?_, ?_, ?_⟩ <;> decide

/-- The whole of `do_clear` for `clear-stats` without a name: the request is
sent, and the reply decides how the function ends. -/
theorem do_clear_stats_no_name (k : ctl_consts) (env : ctl_env) (io : ctl_io) :
    do_clear k env k.CTL_CMD_CLEAR_STATS [] io
      = if env.send_ok io.sent.length = true then
          match io.inbox with
          | [] =>
            (.blocked,
              { sent := io.sent ++ [send_command k.CTL_CMD_CLEAR_STATS (some [])], inbox := [] })
          | .error q :: inbox =>
            (.exited (if q then 0 else 1),
              { sent := io.sent ++ [send_command k.CTL_CMD_CLEAR_STATS (some [])],
                inbox := inbox })
          | .packet len _ _ :: inbox =>
            (if len < 4 then .exited 1 else .returned,
              { sent := io.sent ++ [send_command k.CTL_CMD_CLEAR_STATS (some [])],
                inbox := inbox })
        else (.exited 1, io) := by
  unfold do_clear
  rw [if_neg (fun h => h.1 rfl)]
  rcases send_command_io_cases env k.CTL_CMD_CLEAR_STATS (some []) io with ⟨h0, h⟩ | ⟨h0, h⟩
  · rw [h, if_pos h0]
    simp only [receive_msg]
    rcases hin : io.inbox with _ | ⟨r, inbox⟩
    · rfl
    · cases r with
      | error q => rfl
      | packet len type version =>
        simp only []
        split <;> rfl
  · rw [h, if_neg (by rw [h0]; exact Bool.false_ne_true)]

/-- C12 (amended): in a run in which the handshake succeeds, each of
`clear-config`, `clear-macmask` and `clear-reserve` invoked without a name sends
no request after `HELLO` and exits with code 1 (the command numbers of `ctl.h`
being different from one another), whereas `clear-stats` invoked without a
name sends the request `CTL_CMD_CLEAR_STATS` without arguments and then ends as
the reply decides: exit code 0 for a reply of at least 4 bytes, exit code 1 for
a shorter reply, exit code 0 or 1 when `recv` fails with `do_quit` set or not,
and it stays in `recv` when no reply comes; when the request cannot be sent,
the exit code is 1 and `HELLO` is the only request sent. -/
theorem main_clear_no_name (k : ctl_consts) (env : ctl_env) (command : c_string)
    (r : recv_result) (rest : List recv_result)
    (hopt : env.getopt = .done [command]) (hload : env.load_ok = true)
    (hsocket : env.socket_ok = true) (hbind : env.bind_ok = true)
    (hconnect : env.connect_ok = true) (hsend : env.send_ok 0 = true)
    (hr : hello_accepted k r = true)
    (hconfig : k.CTL_CMD_CLEAR_CONFIG ≠ k.CTL_CMD_CLEAR_STATS)
    (hmacmask : k.CTL_CMD_CLEAR_MACMASK ≠ k.CTL_CMD_CLEAR_STATS)
    (hreserve : k.CTL_CMD_CLEAR_RESERVE ≠ k.CTL_CMD_CLEAR_STATS) :
    (command = c_str "clear-config" ∨ command = c_str "clear-macmask" ∨
        command = c_str "clear-reserve" →
      main k env (r :: rest)
        = (.exited 1, { sent := [send_command k.CTL_CMD_HELLO none], inbox := rest })) ∧
    (command = c_str "clear-stats" →
      main k env (r :: rest)
        = if env.send_ok 1 = true then
            match rest with
            | [] =>
              (.blocked,
                { sent := [send_command k.CTL_CMD_HELLO none,
                    send_command k.CTL_CMD_CLEAR_STATS (some [])], inbox := [] })
            | .error q :: rest2 =>
              (.exited (if q then 0 else 1),
                { sent := [send_command k.CTL_CMD_HELLO none,
                    send_command k.CTL_CMD_CLEAR_STATS (some [])], inbox := rest2 })
            | .packet len _ _ :: rest2 =>
              (.exited (if len < 4 then 1 else 0),
                { sent := [send_command k.CTL_CMD_HELLO none,
                    send_command k.CTL_CMD_CLEAR_STATS (some [])], inbox := rest2 })
          else (.exited 1, { sent := [send_command k.CTL_CMD_HELLO none], inbox := rest })) := by
  rw [main_after_hello k env command [] r rest hopt hload hsocket hbind hconnect hsend hr]
  constructor
  · rintro (h | h | h)
    · subst h
      rw [main_dispatch_clear_config, do_clear_no_name k env _ _ hconfig]
    · subst h
      rw [main_dispatch_clear_macmask, do_clear_no_name k env _ _ hmacmask]
    · subst h
      rw [main_dispatch_clear_reserve, do_clear_no_name k env _ _ hreserve]
  · intro h
    subst h
    rw [main_dispatch_clear_stats, do_clear_stats_no_name]
    simp only [List.length_singleton, List.singleton_append]
    by_cases hs : env.send_ok 1 = true
    · rw [if_pos hs, if_pos hs]
      cases rest with
      | nil => rfl
      | cons r2 rest2 =>
        cases r2 with
        | error q => rfl
        | packet len type version =>
          simp only []
          by_cases hl : len < 4
          · simp only [if_pos hl]
          · simp only [if_neg hl]
    · rw [if_neg hs, if_neg hs]

/-- An instance of C12 as amended: the run of `clear-config` without a name, and
the runs of `clear-stats` without a name in which the reply has 4 bytes and 3
bytes. -/
theorem main_clear_no_name_witness :
    (ctl_env_of "clear-config" []).getopt = .done [c_str "clear-config"] ∧
    hello_accepted ctl_consts_example (.packet 8 0 1) = true ∧
    ctl_consts_example.CTL_CMD_CLEAR_CONFIG ≠ ctl_consts_example.CTL_CMD_CLEAR_STATS ∧
    ctl_consts_example.CTL_CMD_CLEAR_MACMASK ≠ ctl_consts_example.CTL_CMD_CLEAR_STATS ∧
    ctl_consts_example.CTL_CMD_CLEAR_RESERVE ≠ ctl_consts_example.CTL_CMD_CLEAR_STATS ∧
    main ctl_consts_example (ctl_env_of "clear-config" []) [.packet 8 0 1]
      = (.exited 1,
          { sent := [send_command ctl_consts_example.CTL_CMD_HELLO none], inbox := [] }) ∧
    main ctl_consts_example (ctl_env_of "clear-stats" []) [.packet 8 0 1, .packet 4 6 0]
      = (.exited 0,
          { sent := [send_command ctl_consts_example.CTL_CMD_HELLO none,
              send_command ctl_consts_example.CTL_CMD_CLEAR_STATS (some [])], inbox := [] }) ∧
    main ctl_consts_example (ctl_env_of "clear-stats" []) [.packet 8 0 1, .packet 3 6 0]
      = (.exited 1,
          { sent := [send_command ctl_consts_example.CTL_CMD_HELLO none,
              send_command ctl_consts_example.CTL_CMD_CLEAR_STATS (some [])], inbox := [] }) :=
  ⟨by decide, by decide, by decide, by decide, by decide,
    (main_clear_no_name ctl_consts_example (ctl_env_of "clear-config" []) (c_str "clear-config")
      (.packet 8 0 1) [] (by decide) (by decide) (by decide) (by decide) (by decide)
      (by decide) (by decide) (by decide) (by decide) (by decide)).1 (Or.inl rfl),
    ((main_clear_no_name ctl_consts_example (ctl_env_of "clear-stats" []) (c_str "clear-stats")
      (.packet 8 0 1) [.packet 4 6 0] (by decide) (by decide) (by decide) (by decide)
      (by decide) (by decide) (by decide) (by decide) (by decide) (by decide)).2 rfl).trans
      (by decide),
    ((main_clear_no_name ctl_consts_example (ctl_env_of "clear-stats" []) (c_str "clear-stats")
      (.packet 8 0 1) [.packet 3 6 0] (by decide) (by decide) (by decide) (by decide)
      (by decide) (by decide) (by decide) (by decide) (by decide) (by decide)).2 rfl).trans
      (by decide)⟩

/-! ## Device groups -/

theorem parse_device_common_true (env : config_env) (config : GKeyFile)
    (defaults : default_config) (name : String) (ret : Bool) (c0 devcfg : device_config)
    (h : parse_device_common env config defaults name ret c0 = some (true, devcfg)) :
    ((parse_int config name "queue-length" defaults.queue_length).1 = true ∧
      queue_length_valid env (parse_int config name "queue-length" defaults.queue_length).2
        = true ∧
      devcfg.queue_length = (parse_int config name "queue-length" defaults.queue_length).2) ∧
    ((parse_int config name "shelf" (-1)).1 = true ∧ 0 ≤ (parse_int config name "shelf" (-1)).2 ∧
      (parse_int config name "shelf" (-1)).2 < env.SHELF_BCAST ∧
      devcfg.shelf = htons (parse_int config name "shelf" (-1)).2) ∧
    ((parse_int config name "slot" (-1)).1 = true ∧ 0 ≤ (parse_int config name "slot" (-1)).2 ∧
      (parse_int config name "slot" (-1)).2 < env.SLOT_BCAST ∧
      devcfg.slot = (parse_int config name "slot" (-1)).2) := by
  unfold parse_device_common at h
  rcases hq : parse_int config name "queue-length" defaults.queue_length with ⟨r1, q⟩
  rcases hs : parse_int config name "shelf" (-1) with ⟨r2, s⟩
  rcases ht : parse_int config name "slot" (-1) with ⟨r3, t⟩
  rcases hm : parse_double config name "max-delay" defaults.max_delay with ⟨r4, m⟩
  rcases hg : parse_double config name "merge-delay" defaults.merge_delay with ⟨r5, g⟩
  simp only [hq, hs, ht, hm, hg] at h
  split at h
  · simp at h
  rename_i hc1
  split at h
  · simp at h
  rename_i hc2
  split at h
  · simp at h
  rename_i hc3
  split at h
  · simp at h
  split at h
  · simp at h
  split at h
  · simp at h
  split at h
  · simp at h
  split at h
  · simp at h
  simp only [Option.some.injEq, Prod.mk.injEq] at h
  obtain ⟨hret, hdev⟩ := h
  simp only [Bool.and_eq_true] at hret
  obtain ⟨⟨⟨⟨⟨hr, h1⟩, h2⟩, h3⟩, h4⟩, h5⟩ := hret
  subst hr h1 h2 h3 h4 h5
  simp only [Bool.and_true, Bool.true_and, Bool.not_eq_true', Bool.or_eq_true, not_or,
    Bool.not_eq_true, decide_eq_true_eq, decide_eq_false_iff_not, Bool.and_self] at hc1 hc2 hc3
  subst hdev
  cases config.get_string_list name "interfaces" <;>
    exact ⟨⟨rfl, by simpa using hc1, rfl⟩, ⟨rfl, by omega, by omega, rfl⟩,
      ⟨rfl, by omega, by omega, rfl⟩⟩

theorem parse_device_true (env : config_env) (config : GKeyFile)
    (defaults : default_config) (name : String) (devcfg : device_config)
    (h : parse_device env config defaults name = some (true, devcfg)) :
    ∃ ret c0, parse_device_common env config defaults name ret c0 = some (true, devcfg) := by
  unfold parse_device at h
  simp only [] at h
  split at h
  · split at h
    · simp at h
    split at h
    · simp at h
    split at h
    · simp at h
    · exact ⟨_, _, h⟩
  · exact ⟨_, _, h⟩

theorem parse_int_not_found (config : GKeyFile) (name key : String) (defval : Int)
    (h : config.get_integer name key = .key_not_found) :
    parse_int config name key defval = (true, defval) := by
  unfold parse_int
  rw [h]

theorem parse_int_value (config : GKeyFile) (name key : String) (defval v : Int)
    (h : config.get_integer name key = .value v) :
    parse_int config name key defval = (true, v) := by
  unfold parse_int
  rw [h]

/-- C15: `MAX_QUEUE_LEN` fitting an `int` and the effective queue length (the
key `queue-length` of the group, or `defaults.queue_length` when the key is
missing) being an `int`, whenever `parse_device` returns `TRUE` the effective
queue length lies in `1 .. MAX_QUEUE_LEN` (zero and the negative values are
refused) and `devcfg->queue_length` is that value. -/
theorem parse_device_queue_length (env : config_env) (config : GKeyFile)
    (defaults : default_config) (name : String) (devcfg : device_config)
    (hmax : env.MAX_QUEUE_LEN < 2 ^ 31)
    (hint : -2 ^ 31 ≤ (parse_int config name "queue-length" defaults.queue_length).2 ∧
      (parse_int config name "queue-length" defaults.queue_length).2 < 2 ^ 31)
    (h : parse_device env config defaults name = some (true, devcfg)) :
    1 ≤ (parse_int config name "queue-length" defaults.queue_length).2 ∧
    (parse_int config name "queue-length" defaults.queue_length).2 ≤ env.MAX_QUEUE_LEN ∧
    devcfg.queue_length = (parse_int config name "queue-length" defaults.queue_length).2 := by
  obtain ⟨ret, c0, hc⟩ := parse_device_true env config defaults name devcfg h
  obtain ⟨⟨_, q1, q2⟩, _, _⟩ :=
    parse_device_common_true env config defaults name ret c0 devcfg hc
  generalize (parse_int config name "queue-length" defaults.queue_length).2 = q at *
  have hq : 1 ≤ q ∧ q ≤ env.MAX_QUEUE_LEN := by
    simp only [queue_length_valid, unsigned_of_int, decide_eq_true_eq] at q1
    obtain ⟨hlo, hhi⟩ := hint
    obtain ⟨v1, v2⟩ := q1
    by_cases hneg : q < 0
    · have : (q % 2 ^ 32) = q + 2 ^ 32 := by omega
      rw [this] at v2
      omega
    · have : (q % 2 ^ 32) = q := by omega
      rw [this] at v1 v2
      omega
  exact ⟨hq.1, hq.2, q2⟩

/-- C14: the file with `max-delay = 0` in the group `defaults` and the device
group `disk0` (shelf 1, slot 2, path `/dev/sdb`, no delay of its own).
`delay_valid` holds of 0 and `parse_defaults` with `parse_acls` returns `TRUE`,
leaving `defaults.max_delay = 0`; `parse_device` nevertheless returns `FALSE` for
the group that inherits this value, so that `validate_config` refuses the file.
With `max-delay = 1/2` in place of 0 the same group and the same file are
accepted, and a line `max-delay = 0` in the group `disk0` itself is refused as
well. -/
theorem parse_device_refuses_zero_max_delay :
    delay_valid (.finite 0) = true ∧
    (parse_defaults config_env_example (device_file_example (.finite 0)) default_config_zero
        []).bind (fun r => parse_acls config_env_example (device_file_example (.finite 0)) r.2.1)
      = some (true, device_defaults_example (.finite 0)) ∧
    (parse_device config_env_example (device_file_example (.finite 0))
        (device_defaults_example (.finite 0)) "disk0").map Prod.fst = some false ∧
    (validate_config config_env_example (device_file_example (.finite 0)) default_config_zero
        []).map Prod.fst = some false ∧
    parse_device config_env_example (device_file_example (.finite one_half))
        (device_defaults_example (.finite one_half)) "disk0"
      = some (true, device_config_example) ∧
    validate_config config_env_example (device_file_example (.finite one_half))
        default_config_zero []
      = some (true, device_defaults_example (.finite one_half), []) ∧
    (parse_device config_env_example (device_file_own_delay_example (.finite 0))
        (device_defaults_example (.finite one_half)) "disk0").map Prod.fst = some false ∧
    parse_device config_env_example (device_file_own_delay_example (.finite one_half))
        (device_defaults_example (.finite one_half)) "disk0"
      = some (true, device_config_example) := by
  refine ⟨?_, ?_, ?_, ?_, ?_, ?_, ?_, ?_⟩ <;> decide

theorem parse_device_queue_length_witness :
    config_env_example.MAX_QUEUE_LEN < 2 ^ 31 ∧
    parse_device config_env_example (device_file_example (.finite one_half))
        (device_defaults_example (.finite one_half)) "disk0"
      = some (true, device_config_example) ∧
    (parse_int (device_file_example (.finite one_half)) "disk0" "queue-length"
      (device_defaults_example (.finite one_half)).queue_length).2 = 64 ∧
    device_config_example.queue_length = 64 ∧
    (1 ≤ (parse_int (device_file_example (.finite one_half)) "disk0" "queue-length"
        (device_defaults_example (.finite one_half)).queue_length).2 ∧
      (parse_int (device_file_example (.finite one_half)) "disk0" "queue-length"
        (device_defaults_example (.finite one_half)).queue_length).2
        ≤ config_env_example.MAX_QUEUE_LEN ∧
      device_config_example.queue_length
        = (parse_int (device_file_example (.finite one_half)) "disk0" "queue-length"
          (device_defaults_example (.finite one_half)).queue_length).2) :=
  ⟨by decide, by decide, by decide, by decide,
    parse_device_queue_length config_env_example (device_file_example (.finite one_half))
      (device_defaults_example (.finite one_half)) "disk0" device_config_example
      (by decide) (by decide) (by decide)⟩

/-! ## The WWN of a virtual device -/

theorem split_dots_ne_nil (s : List Char) : split_dots s ≠ [] := by
  cases s with
  | nil => simp [split_dots]
  | cons c s =>
    unfold split_dots
    split
    · simp
    · split <;> simp

theorem decimal_fold_ge (ds : List Char) (v : Nat) :
    v ≤ ds.foldl (fun v c => v * 10 + (c.toNat - '0'.toNat)) v := by
  induction ds generalizing v with
  | nil => simp
  | cons c ds ih =>
    simp only [List.foldl_cons]
    exact Nat.le_trans (by omega) (ih _)

theorem decimal_fold_mod (ds : List Char) (v : Nat)
    (h : ds.foldl (fun v c => v * 10 + (c.toNat - '0'.toNat)) v ≤ 255) :
    ds.foldl (fun v c => (v * 10 % 256 + (c.toNat - '0'.toNat)) % 256) v
      = ds.foldl (fun v c => v * 10 + (c.toNat - '0'.toNat)) v := by
  induction ds generalizing v with
  | nil => simp
  | cons c ds ih =>
    simp only [List.foldl_cons] at h ⊢
    have h1 := decimal_fold_ge ds (v * 10 + (c.toNat - '0'.toNat))
    have h2 : (v * 10 % 256 + (c.toNat - '0'.toNat)) % 256 = v * 10 + (c.toNat - '0'.toNat) := by
      omega
    rw [h2]
    exact ih _ h

theorem isDigit_ne_dot (c : Char) (h : c.isDigit = true) : c ≠ '.' := by
  intro hc
  subst hc
  simp at h

/-- The loop of `parse_wwn` over a run of digits. -/
theorem parse_wwn_loop_digits (env : config_env) (ds rest : List Char) (i : Nat) (dot : Bool)
    (wwn : List Nat) (hd : ∀ c ∈ ds, c.isDigit = true) (hi : i < env.WWN_ALEN)
    (hw : i < wwn.length) :
    parse_wwn_loop env (ds ++ rest) i dot wwn
      = parse_wwn_loop env rest i (if ds = [] then dot else false)
          (wwn.set i (ds.foldl (fun v c => (v * 10 % 256 + (c.toNat - '0'.toNat)) % 256)
            (wwn.getD i 0))) := by
  induction ds generalizing dot wwn with
  | nil =>
    simp only [List.nil_append, if_true, List.foldl_nil]
    congr 1
    apply List.ext_getElem
    · simp
    · intro n h1 h2
      by_cases hn : i = n
      · subst hn
        simp [List.getD_eq_getElem?_getD, List.getElem?_eq_getElem h1]
      · simp [List.getElem_set_ne hn]
  | cons c ds ih =>
    have hc : c.isDigit = true := hd c (List.mem_cons_self _ _)
    have hne : c ≠ '.' := isDigit_ne_dot c hc
    simp only [List.cons_append]
    rw [parse_wwn_loop]
    rw [if_neg (by intro h; exact hne h.1), if_pos ⟨hc, hi⟩]
    rw [ih false _ (fun c hc => hd c (List.mem_cons_of_mem _ hc)) (by simpa using hw)]
    simp only [List.foldl_cons, reduceCtorEq, if_false, ite_self]
    congr 1
    simp [List.getD_eq_getElem?_getD, hw]

theorem join_dots_split_dots (s : List Char) : join_dots (split_dots s) = s := by
  induction s with
  | nil => rfl
  | cons c s ih =>
    unfold split_dots
    split
    · rename_i hc
      rcases hs : split_dots s with _ | ⟨g, gs⟩
      · exact absurd hs (split_dots_ne_nil s)
      · rw [hs] at ih
        simp [join_dots, ih, hc]
    · rcases hs : split_dots s with _ | ⟨g, gs⟩
      · exact absurd hs (split_dots_ne_nil s)
      · rw [hs] at ih
        cases gs with
        | nil => simpa [join_dots] using ih
        | cons g2 gs => simpa [join_dots] using ih

theorem getD_append_replicate (pre : List Nat) (n : Nat) :
    (pre ++ List.replicate (n + 1) 0).getD pre.length 0 = 0 := by
  rw [List.getD_eq_getElem?_getD, List.getElem?_append_right (Nat.le_refl _)]
  simp [List.replicate_succ]

theorem set_append_replicate (pre : List Nat) (n v : Nat) :
    (pre ++ List.replicate (n + 1) 0).set pre.length v = pre ++ v :: List.replicate n 0 := by
  simp [List.replicate_succ]

/-- The loop of `parse_wwn` over groups of digits joined by single dots, from
the index `pre.length` on: the values of the groups are stored one after the
other, and the loop ends with `TRUE` when the last group is at `WWN_ALEN - 1`. -/
theorem parse_wwn_loop_groups (env : config_env) (gs : List (List Char)) (g : List Char)
    (pre : List Nat) (dot : Bool)
    (hlen : pre.length + gs.length + 1 = env.WWN_ALEN)
    (hall : ∀ x ∈ g :: gs, x ≠ [] ∧ (∀ c ∈ x, c.isDigit = true) ∧ decimal_value x ≤ 255) :
    parse_wwn_loop env (join_dots (g :: gs)) pre.length dot
        (pre ++ List.replicate (gs.length + 1) 0)
      = (true, pre ++ (g :: gs).map decimal_value) := by
  induction gs generalizing g pre dot with
  | nil =>
    obtain ⟨hne, hdig, hval⟩ := hall g (List.mem_cons_self _ _)
    have h := parse_wwn_loop_digits env g [] pre.length dot (pre ++ List.replicate 1 0) hdig
      (by simp at hlen; omega) (by simp)
    simp only [List.append_nil] at h
    simp only [join_dots, List.length_nil, Nat.zero_add]
    rw [h, parse_wwn_loop, getD_append_replicate, set_append_replicate,
      decimal_fold_mod g 0 hval]
    simp only [List.length_nil, Nat.add_zero] at hlen
    have hi : ((pre.length : Nat) : Int) = (env.WWN_ALEN : Int) - 1 := by omega
    simp [hi, decimal_value]
  | cons g2 gs ih =>
    obtain ⟨hne, hdig, hval⟩ := hall g (List.mem_cons_self _ _)
    have h := parse_wwn_loop_digits env g ('.' :: join_dots (g2 :: gs)) pre.length dot
      (pre ++ List.replicate ((g2 :: gs).length + 1) 0) hdig
      (by simp at hlen; omega) (by simp)
    simp only [List.length_cons] at hlen
    have hi : ((pre.length : Nat) : Int) < (env.WWN_ALEN : Int) - 1 := by omega
    simp only [join_dots]
    rw [h, parse_wwn_loop, if_neg hne, if_pos ⟨rfl, hi, rfl⟩, getD_append_replicate,
      set_append_replicate, decimal_fold_mod g 0 hval]
    have ih2 := ih g2 (pre ++ [decimal_value g]) true (by simp; omega)
      (fun x hx => hall x (List.mem_cons_of_mem _ hx))
    simp only [List.length_append, List.length_singleton, List.append_assoc,
      List.singleton_append] at ih2
    simp only [List.length_cons]
    exact ih2

theorem join_dots_ne_nil (g : List Char) (gs : List (List Char)) (h : g ≠ []) :
    join_dots (g :: gs) ≠ [] := by
  cases gs with
  | nil => simpa [join_dots] using h
  | cons g2 gs => simp [join_dots, h]

/-- C16: when the value of the key `wwn` is a string whose groups between the
dots are exactly `WWN_ALEN`, each a non-empty decimal number of value at most
255, `parse_wwn` returns `TRUE` and the array `wwn` holds the values of the
groups, the k-th group in `wwn[k]` for every `k < WWN_ALEN`. -/
theorem parse_wwn_well_formed (env : config_env) (config : GKeyFile) (name s : String)
    (hs : config.get_string name "wwn" = some s)
    (hw : wwn_well_formed env.WWN_ALEN s.toList = true) :
    parse_wwn env config name = (true, (split_dots s.toList).map decimal_value) ∧
    (parse_wwn env config name).2.length = env.WWN_ALEN ∧
    ∀ k, k < env.WWN_ALEN →
      (parse_wwn env config name).2.getD k 0 = decimal_value ((split_dots s.toList).getD k []) := by
  have hj := join_dots_split_dots s.toList
  simp only [wwn_well_formed, Bool.and_eq_true, decide_eq_true_eq, List.all_eq_true,
    Bool.not_eq_true', List.isEmpty_eq_false] at hw
  obtain ⟨hlen, hall⟩ := hw
  rcases hg : split_dots s.toList with _ | ⟨g, gs⟩
  · exact absurd hg (split_dots_ne_nil _)
  rw [hg] at hj hlen hall
  have hall2 : ∀ x ∈ g :: gs, x ≠ [] ∧ (∀ c ∈ x, c.isDigit = true) ∧ decimal_value x ≤ 255 := by
    intro x hx
    obtain ⟨⟨h1, h2⟩, h3⟩ := hall x hx
    exact ⟨h1, h2, h3⟩
  have hloop := parse_wwn_loop_groups env gs g [] false (by simpa using hlen) hall2
  simp only [List.length_nil, List.nil_append] at hloop
  have hne : s.toList.length ≠ 0 := by
    rw [← hj]
    intro h0
    exact join_dots_ne_nil g gs (hall2 g (List.mem_cons_self _ _)).1 (List.length_eq_zero.mp h0)
  have hmain : parse_wwn env config name = (true, (g :: gs).map decimal_value) := by
    unfold parse_wwn
    simp only [hs, if_neg hne]
    rw [← hj, ← hlen]
    exact hloop
  refine ⟨hmain, ?_, ?_⟩
  · rw [hmain]
    simpa using hlen
  · intro k hk
    rw [hmain]
    rw [← hlen] at hk
    simp only [List.getD_eq_getElem?_getD, List.getElem?_map]
    rw [List.getElem?_eq_getElem hk]
    simp

theorem parse_wwn_well_formed_witness :
    (wwn_file_example "1.22.255.0.007.50.61.199").get_string "disk0" "wwn"
      = some "1.22.255.0.007.50.61.199" ∧
    wwn_well_formed config_env_example.WWN_ALEN "1.22.255.0.007.50.61.199".toList = true ∧
    (split_dots "1.22.255.0.007.50.61.199".toList).map decimal_value
      = [1, 22, 255, 0, 7, 50, 61, 199] ∧
    (parse_wwn config_env_example (wwn_file_example "1.22.255.0.007.50.61.199") "disk0"
        = (true, (split_dots "1.22.255.0.007.50.61.199".toList).map decimal_value) ∧
      (parse_wwn config_env_example (wwn_file_example "1.22.255.0.007.50.61.199")
        "disk0").2.length = config_env_example.WWN_ALEN ∧
      ∀ k, k < config_env_example.WWN_ALEN →
        (parse_wwn config_env_example (wwn_file_example "1.22.255.0.007.50.61.199")
            "disk0").2.getD k 0
          = decimal_value ((split_dots "1.22.255.0.007.50.61.199".toList).getD k [])) :=
  ⟨by decide, by decide, by decide,
    parse_wwn_well_formed config_env_example (wwn_file_example "1.22.255.0.007.50.61.199")
      "disk0" "1.22.255.0.007.50.61.199" (by decide) (by decide)⟩

/-- C17: with `WWN_ALEN = 8`, `parse_wwn` returns `TRUE` for strings that are not
eight non-empty decimal octets separated by single dots: a group of value 256
(stored as 0) or 1000 (stored as 232), a leading dot (the first octet is left
0), a trailing dot (the last octet is left 0). Too few groups, too many groups,
a doubled dot and a character that is not a digit are refused. -/
theorem parse_wwn_accepts_malformed :
    config_env_example.WWN_ALEN = 8 ∧
    (wwn_well_formed 8 "256.0.0.0.0.0.0.0".toList = false ∧
      parse_wwn config_env_example (wwn_file_example "256.0.0.0.0.0.0.0") "disk0"
        = (true, [0, 0, 0, 0, 0, 0, 0, 0])) ∧
    (wwn_well_formed 8 "1.2.3.4.5.6.7.1000".toList = false ∧
      parse_wwn config_env_example (wwn_file_example "1.2.3.4.5.6.7.1000") "disk0"
        = (true, [1, 2, 3, 4, 5, 6, 7, 232])) ∧
    (wwn_well_formed 8 ".1.2.3.4.5.6.7".toList = false ∧
      parse_wwn config_env_example (wwn_file_example ".1.2.3.4.5.6.7") "disk0"
        = (true, [0, 1, 2, 3, 4, 5, 6, 7])) ∧
    (wwn_well_formed 8 "1.2.3.4.5.6.7.".toList = false ∧
      parse_wwn config_env_example (wwn_file_example "1.2.3.4.5.6.7.") "disk0"
        = (true, [1, 2, 3, 4, 5, 6, 7, 0])) ∧
    (wwn_well_formed 8 "1.2.3.4.5.6.7".toList = false ∧
      (parse_wwn config_env_example (wwn_file_example "1.2.3.4.5.6.7") "disk0").1 = false) ∧
    (wwn_well_formed 8 "1.2.3.4.5.6.7.8.9".toList = false ∧
      (parse_wwn config_env_example (wwn_file_example "1.2.3.4.5.6.7.8.9") "disk0").1 = false) ∧
    (wwn_well_formed 8 "1..2.3.4.5.6.7".toList = false ∧
      (parse_wwn config_env_example (wwn_file_example "1..2.3.4.5.6.7") "disk0").1 = false) ∧
    (wwn_well_formed 8 "1.2.3.4.5.6.7.x".toList = false ∧
      (parse_wwn config_env_example (wwn_file_example "1.2.3.4.5.6.7.x") "disk0").1 = false) ∧
    (wwn_well_formed 8 "1.2.3.4.5.6.7.8".toList = true ∧
      parse_wwn config_env_example (wwn_file_example "1.2.3.4.5.6.7.8") "disk0"
        = (true, [1, 2, 3, 4, 5, 6, 7, 8])) := by
  refine ⟨rfl, ⟨?_, ?_⟩, ⟨?_, ?_⟩, ⟨?_, ?_⟩, ⟨?_, ?_⟩, ⟨?_, ?_⟩, ⟨?_, ?_⟩, ⟨?_, ?_⟩, ⟨?_, ?_⟩,
    ⟨?_, ?_⟩⟩ <;> decide

/-! ## Counter deltas of the monitor -/

theorem DIFF_exact (w old new k : Nat) (ho : old < 2 ^ w) (hk : k < 2 ^ w)
    (hn : new = (old + k) % 2 ^ w) : DIFF w new old = k := by
  unfold DIFF
  have hp : (0 : Int) < 2 ^ w := by positivity
  have hcast : ((2 ^ w : Nat) : Int) = (2 : Int) ^ w := by push_cast; rfl
  rcases Nat.lt_or_ge (old + k) (2 ^ w) with h | h
  · rw [Nat.mod_eq_of_lt h] at hn
    subst hn
    have : ((old + k : Nat) : Int) - (old : Int) = k := by push_cast; ring
    rw [this, Int.emod_eq_of_lt (by omega) (by omega)]
    simp
  · have h2 : (old + k) % 2 ^ w = old + k - 2 ^ w := by
      rw [Nat.mod_eq_sub_mod h, Nat.mod_eq_of_lt (by omega)]
    rw [h2] at hn
    subst hn
    have : ((old + k - 2 ^ w : Nat) : Int) - (old : Int) = (k : Int) + (-1) * 2 ^ w := by
      rw [Nat.cast_sub h]
      push_cast
      ring
    rw [this, Int.add_mul_emod_self, Int.emod_eq_of_lt (by omega) (by omega)]
    simp

theorem DIFF_add (w a b c : Nat) :
    DIFF w c a = (DIFF w b a + DIFF w c b) % 2 ^ w := by
  unfold DIFF
  have hp : (0 : Int) < 2 ^ w := by positivity
  have h1 : (0 : Int) ≤ ((b : Int) - a) % 2 ^ w := Int.emod_nonneg _ (by omega)
  have h2 : (0 : Int) ≤ ((c : Int) - b) % 2 ^ w := Int.emod_nonneg _ (by omega)
  have h3 : (0 : Int) ≤ ((c : Int) - a) % 2 ^ w := Int.emod_nonneg _ (by omega)
  apply Int.ofNat_inj.mp
  push_cast
  rw [Int.toNat_of_nonneg h1, Int.toNat_of_nonneg h2, Int.toNat_of_nonneg h3]
  rw [← Int.add_emod]
  congr 1
  ring

theorem DIFF_zero (w new : Nat) (h : new < 2 ^ w) : DIFF w new 0 = new := by
  have := DIFF_exact w 0 new new (by positivity) h (by simp [Nat.mod_eq_of_lt h])
  exact this

/-- C19: for every counter field `f` of a device and `g` of an interface that the
monitor shows, and samples `a`, `b`, `c` (`x`, `y`, `z`) of one name, where the
tree of the previous sample holds `a` (or `b`) under the name: the delta that
`print_dev_record` (`print_net_record`) computes is `(new - old)` modulo `2 ^ w`,
`w` the width of the field; a counter that advanced by `k < 2 ^ w` from `a` to
`b`, wrapping at `2 ^ w`, gives exactly `k`; the deltas from `a` to `b` and from
`b` to `c` sum, modulo `2 ^ w`, to the delta from `a` to `c`; and under a tree
that has no sample of the name the delta is that against all-zero counters, the
counter of the new sample itself, the tree then holding all-zero counters under
the name. -/
theorem print_record_delta (t1 t2 t0 : GTree device_stats) (u1 u2 u0 : GTree netif_stats)
    (name : String) (a b c : device_stats) (x y z : netif_stats) (f : dev_field)
    (g : net_field) (k : Nat)
    (ha : t1 name = some a) (hb : t2 name = some b) (h0 : t0 name = none)
    (hx : u1 name = some x) (hy : u2 name = some y) (hu0 : u0 name = none)
    (hfa : f.get a < 2 ^ f.width) (hfb : f.get b < 2 ^ f.width)
    (hgx : g.get x < 2 ^ g.width) (hgy : g.get y < 2 ^ g.width)
    (hkf : k < 2 ^ f.width) (hkg : k < 2 ^ g.width) :
    (f.get (print_dev_record t1 name b).1
        = (((f.get b : Int) - (f.get a : Int)) % 2 ^ f.width).toNat ∧
      (f.get b = (f.get a + k) % 2 ^ f.width → f.get (print_dev_record t1 name b).1 = k) ∧
      f.get (print_dev_record t1 name c).1
        = (f.get (print_dev_record t1 name b).1 + f.get (print_dev_record t2 name c).1)
          % 2 ^ f.width ∧
      f.get (print_dev_record t0 name b).1 = f.get b ∧
      (print_dev_record t0 name b).2 name = some device_stats_zero ∧
      (print_dev_record t1 name b).2 = t1) ∧
    (g.get (print_net_record u1 name y).1
        = (((g.get y : Int) - (g.get x : Int)) % 2 ^ g.width).toNat ∧
      (g.get y = (g.get x + k) % 2 ^ g.width → g.get (print_net_record u1 name y).1 = k) ∧
      g.get (print_net_record u1 name z).1
        = (g.get (print_net_record u1 name y).1 + g.get (print_net_record u2 name z).1)
          % 2 ^ g.width ∧
      g.get (print_net_record u0 name y).1 = g.get y ∧
      (print_net_record u0 name y).2 name = some netif_stats_zero ∧
      (print_net_record u1 name y).2 = u1) := by
  have hd1 : ∀ n, f.get (print_dev_record t1 name n).1 = DIFF f.width (f.get n) (f.get a) := by
    intro n
    cases f <;> simp [print_dev_record, ha, dev_field.get, dev_field.width]
  have hd2 : ∀ n, f.get (print_dev_record t2 name n).1 = DIFF f.width (f.get n) (f.get b) := by
    intro n
    cases f <;> simp [print_dev_record, hb, dev_field.get, dev_field.width]
  have hd0 : f.get (print_dev_record t0 name b).1 = DIFF f.width (f.get b) 0 := by
    cases f <;> simp [print_dev_record, h0, dev_field.get, dev_field.width, device_stats_zero]
  have hn1 : ∀ n, g.get (print_net_record u1 name n).1 = DIFF g.width (g.get n) (g.get x) := by
    intro n
    cases g <;> simp [print_net_record, hx, net_field.get, net_field.width]
  have hn2 : ∀ n, g.get (print_net_record u2 name n).1 = DIFF g.width (g.get n) (g.get y) := by
    intro n
    cases g <;> simp [print_net_record, hy, net_field.get, net_field.width]
  have hn0 : g.get (print_net_record u0 name y).1 = DIFF g.width (g.get y) 0 := by
    cases g <;> simp [print_net_record, hu0, net_field.get, net_field.width, netif_stats_zero]
  refine ⟨⟨?_, ?_, ?_, ?_, ?_, ?_⟩, ⟨?_, ?_, ?_, ?_, ?_, ?_⟩⟩
  · rw [hd1]
    rfl
  · intro h
    rw [hd1]
    exact DIFF_exact _ _ _ _ hfa hkf h
  · rw [hd1, hd1, hd2]
    exact DIFF_add _ _ _ _
  · rw [hd0]
    exact DIFF_zero _ _ hfb
  · simp [print_dev_record, h0, g_tree_insert]
  · simp [print_dev_record, ha]
  · rw [hn1]
    rfl
  · intro h
    rw [hn1]
    exact DIFF_exact _ _ _ _ hgx hkg h
  · rw [hn1, hn1, hn2]
    exact DIFF_add _ _ _ _
  · rw [hn0]
    exact DIFF_zero _ _ hgy
  · simp [print_net_record, hu0, g_tree_insert]
  · simp [print_net_record, hx]

theorem print_record_delta_witness :
    dev_field.read_cnt.get (print_dev_record
        (g_tree_example "e1.0" (device_stats_example (2 ^ 64 - 3) (2 ^ 32 - 1) 7)) "e1.0"
        (device_stats_example 5 4 9)).1 = 8 ∧
    dev_field.read_cnt.get (print_dev_record
        (g_tree_example "e1.0" (device_stats_example (2 ^ 64 - 3) (2 ^ 32 - 1) 7)) "e1.0"
        (device_stats_example 100 10 20)).1
      = (dev_field.read_cnt.get (print_dev_record
            (g_tree_example "e1.0" (device_stats_example (2 ^ 64 - 3) (2 ^ 32 - 1) 7)) "e1.0"
            (device_stats_example 5 4 9)).1
          + dev_field.read_cnt.get (print_dev_record
            (g_tree_example "e1.0" (device_stats_example 5 4 9)) "e1.0"
            (device_stats_example 100 10 20)).1) % 2 ^ 64 ∧
    dev_field.read_cnt.get (print_dev_record (fun _ => none) "e1.0"
        (device_stats_example 5 4 9)).1 = 5 ∧
    net_field.dropped.get (print_net_record
        (g_tree_example "eth0" (netif_stats_example 1 (2 ^ 32 - 3) 7)) "eth0"
        (netif_stats_example 2 5 9)).1 = 8 :=
  ⟨(print_record_delta
      (g_tree_example "e1.0" (device_stats_example (2 ^ 64 - 3) (2 ^ 32 - 1) 7))
      (g_tree_example "e1.0" (device_stats_example 5 4 9)) (fun _ => none)
      (g_tree_example "e1.0" (netif_stats_example 1 (2 ^ 32 - 3) 7))
      (g_tree_example "e1.0" (netif_stats_example 2 5 9)) (fun _ => none) "e1.0"
      (device_stats_example (2 ^ 64 - 3) (2 ^ 32 - 1) 7) (device_stats_example 5 4 9)
      (device_stats_example 100 10 20) (netif_stats_example 1 (2 ^ 32 - 3) 7)
      (netif_stats_example 2 5 9) (netif_stats_example 3 6 10) .read_cnt .dropped 8
      (by decide) (by decide) rfl (by decide) (by decide) rfl (by decide) (by decide)
      (by decide) (by decide) (by decide) (by decide)).1.2.1 (by decide),
    (print_record_delta
      (g_tree_example "e1.0" (device_stats_example (2 ^ 64 - 3) (2 ^ 32 - 1) 7))
      (g_tree_example "e1.0" (device_stats_example 5 4 9)) (fun _ => none)
      (g_tree_example "e1.0" (netif_stats_example 1 (2 ^ 32 - 3) 7))
      (g_tree_example "e1.0" (netif_stats_example 2 5 9)) (fun _ => none) "e1.0"
      (device_stats_example (2 ^ 64 - 3) (2 ^ 32 - 1) 7) (device_stats_example 5 4 9)
      (device_stats_example 100 10 20) (netif_stats_example 1 (2 ^ 32 - 3) 7)
      (netif_stats_example 2 5 9) (netif_stats_example 3 6 10) .read_cnt .dropped 8
      (by decide) (by decide) rfl (by decide) (by decide) rfl (by decide) (by decide)
      (by decide) (by decide) (by decide) (by decide)).1.2.2.1,
    (print_record_delta
      (g_tree_example "e1.0" (device_stats_example (2 ^ 64 - 3) (2 ^ 32 - 1) 7))
      (g_tree_example "e1.0" (device_stats_example 5 4 9)) (fun _ => none)
      (g_tree_example "e1.0" (netif_stats_example 1 (2 ^ 32 - 3) 7))
      (g_tree_example "e1.0" (netif_stats_example 2 5 9)) (fun _ => none) "e1.0"
      (device_stats_example (2 ^ 64 - 3) (2 ^ 32 - 1) 7) (device_stats_example 5 4 9)
      (device_stats_example 100 10 20) (netif_stats_example 1 (2 ^ 32 - 3) 7)
      (netif_stats_example 2 5 9) (netif_stats_example 3 6 10) .read_cnt .dropped 8
      (by decide) (by decide) rfl (by decide) (by decide) rfl (by decide) (by decide)
      (by decide) (by decide) (by decide) (by decide)).1.2.2.2.1,
    (print_record_delta
      (g_tree_example "eth0" (device_stats_example (2 ^ 64 - 3) (2 ^ 32 - 1) 7))
      (g_tree_example "eth0" (device_stats_example 5 4 9)) (fun _ => none)
      (g_tree_example "eth0" (netif_stats_example 1 (2 ^ 32 - 3) 7))
      (g_tree_example "eth0" (netif_stats_example 2 5 9)) (fun _ => none) "eth0"
      (device_stats_example (2 ^ 64 - 3) (2 ^ 32 - 1) 7) (device_stats_example 5 4 9)
      (device_stats_example 100 10 20) (netif_stats_example 1 (2 ^ 32 - 3) 7)
      (netif_stats_example 2 5 9) (netif_stats_example 3 6 10) .read_cnt .dropped 8
      (by decide) (by decide) rfl (by decide) (by decide) rfl (by decide) (by decide)
      (by decide) (by decide) (by decide) (by decide)).2.2.1 (by decide)⟩

/-! ## The event loop and `main` of the daemon -/

theorem call_external_calls (env : daemon_env) (c : daemon_call) (st : main_state) :
    (call_external env c st).daemon.calls = st.daemon.calls ++ [c] := rfl

theorem foldl_callback_calls (env : daemon_env) (events : List epoll_event) (st : main_state) :
    (events.foldl (fun s e => call_external env (.callback e.ctx e.events) s) st).daemon.calls
      = st.daemon.calls ++ events.map (fun e => daemon_call.callback e.ctx e.events) := by
  induction events generalizing st with
  | nil => simp
  | cons e events ih =>
    simp only [List.foldl_cons, List.map_cons]
    rw [ih, call_external_calls, List.append_assoc]
    rfl

/-- The calls of one round of the loop of `event_run`. -/
theorem event_run_tick_calls (env : daemon_env) (events : List epoll_event) (st : main_state) :
    (event_run_tick env events st).daemon.calls
      = st.daemon.calls ++ events.map (fun e => daemon_call.callback e.ctx e.events)
        ++ (if (events.foldl (fun s e => call_external env (.callback e.ctx e.events) s)
              st).globals.active_devs = true then [daemon_call.run_devices] else [])
        ++ (if (if (events.foldl (fun s e => call_external env (.callback e.ctx e.events) s)
                  st).globals.active_devs = true
                then call_external env .run_devices
                  (events.foldl (fun s e => call_external env (.callback e.ctx e.events) s) st)
                else events.foldl (fun s e => call_external env (.callback e.ctx e.events) s)
                  st).globals.active_ifaces = true
            then [daemon_call.run_ifaces] else []) := by
  unfold event_run_tick
  simp only []
  split <;> split <;>
    simp [call_external_calls, foldl_callback_calls, *]

theorem mem_ite_singleton (p : Prop) [Decidable p] (a c : daemon_call)
    (h : c ∈ (if p then [a] else [])) : c = a := by
  split at h
  · simpa using h
  · simp at h

theorem event_run_tick_loop_calls (env : daemon_env) (events : List epoll_event)
    (st : main_state) :
    ∃ mid, (event_run_tick env events st).daemon.calls = st.daemon.calls ++ mid ∧
      ∀ c ∈ mid, loop_call c = true := by
  rw [event_run_tick_calls]
  refine ⟨_, by rw [List.append_assoc, List.append_assoc], ?_⟩
  intro c hc
  simp only [List.mem_append, List.mem_map] at hc
  rcases hc with ⟨e, _, rfl⟩ | hc | hc
  · rfl
  · rw [mem_ite_singleton _ _ _ hc]
    rfl
  · rw [mem_ite_singleton _ _ _ hc]
    rfl

/-- The calls that `event_run` adds are calls of the loop, and it either takes
an answer of `epoll_wait` or returns at once because a flag is set. -/
theorem event_run_calls (env : daemon_env) (inputs rest : List epoll_wait_result)
    (st st1 : main_state) (h : event_run env inputs st = .finished (rest, st1)) :
    (∃ mid, st1.daemon.calls = st.daemon.calls ++ mid ∧ ∀ c ∈ mid, loop_call c = true) ∧
    (rest.length < inputs.length ∨
      (rest = inputs ∧ st1 = st ∧
        ¬ (st.globals.exit_flag = false ∧ st.globals.reload_flag = false))) := by
  induction inputs generalizing st with
  | nil =>
    unfold event_run at h
    split at h
    · cases h
    · rename_i hf
      cases h
      exact ⟨⟨[], by simp, by simp⟩, Or.inr ⟨rfl, rfl, hf⟩⟩
  | cons r inputs ih =>
    unfold event_run at h
    split at h
    · simp only [] at h
      split at h
      · split at h
        · cases h
          exact ⟨⟨[.epoll_wait], rfl, by simp [loop_call]⟩, Or.inl (by simp)⟩
        · cases h
          exact ⟨⟨[.epoll_wait], rfl, by simp [loop_call]⟩, Or.inl (by simp)⟩
      · cases h
        exact ⟨⟨[.epoll_wait], rfl, by simp [loop_call]⟩, Or.inl (by simp)⟩
      · rename_i events
        obtain ⟨⟨mid, hmid, hall⟩, hlen⟩ := ih _ h
        obtain ⟨mid2, hmid2, hall2⟩ := event_run_tick_loop_calls env events
          { st with daemon := { st.daemon with calls := st.daemon.calls ++ [.epoll_wait] } }
        refine ⟨⟨[.epoll_wait] ++ mid2 ++ mid, ?_, ?_⟩, Or.inl ?_⟩
        · rw [hmid, hmid2]
          simp
        · intro c hc
          simp only [List.mem_append, List.mem_singleton] at hc
          rcases hc with (rfl | hc) | hc
          · rfl
          · exact hall2 c hc
          · exact hall c hc
        · rcases hlen with hl | ⟨hl, _, _⟩
          · simp only [List.length_cons]
            omega
          · subst hl
            simp
    · rename_i hf
      cases h
      exact ⟨⟨[], by simp, by simp⟩, Or.inr ⟨rfl, rfl, hf⟩⟩

/-- The calls that `do_load_config` adds: none, `validate_config` alone, or
`validate_config` and the two setup functions; the key file in force is
replaced only after `validate_config` has returned `TRUE`. -/
theorem do_load_config_calls (env : config_env) (loaded : Option GKeyFile) (reload : Bool)
    (st d : daemon_state) (h : do_load_config env loaded reload st = some d) :
    (∃ mid, d.calls = st.calls ++ mid ∧ ∀ c ∈ mid, loop_call c = true) ∧
    (reload = false → st.global_config.isNone = true → d.global_config.isNone = false →
      d.calls = st.calls ++ [.validate_config]) := by
  unfold do_load_config at h
  split at h
  · cases h
    exact ⟨⟨[], by simp, by simp⟩, fun _ h1 h2 => by simp [h1] at h2⟩
  · split at h
    · cases h
    · simp only [] at h
      split at h
      · split at h
        · rename_i hr
          cases h
          exact ⟨⟨[.validate_config, .setup_ifaces, .setup_devices], by simp,
            by simp [loop_call]⟩, fun h0 => by simp [hr] at h0⟩
        · cases h
          exact ⟨⟨[.validate_config], rfl, by simp [loop_call]⟩, fun _ _ _ => rfl⟩
      · cases h
        exact ⟨⟨[.validate_config], rfl, by simp [loop_call]⟩, fun _ _ _ => rfl⟩

theorem main_load_config_calls (env : daemon_env) (reload : Bool) (st st1 : main_state)
    (h : main_load_config env reload st = some st1) :
    (∃ mid, st1.daemon.calls = st.daemon.calls ++ mid ∧ ∀ c ∈ mid, loop_call c = true) ∧
    (reload = false → st.daemon.global_config.isNone = true →
      st1.daemon.global_config.isNone = false →
      st1.daemon.calls = st.daemon.calls ++ [.validate_config]) := by
  unfold main_load_config at h
  split at h
  · cases h
  · rename_i d hd
    cases h
    exact do_load_config_calls env.config _ reload st.daemon d hd

/-- The calls that the loop of `main` adds are calls of the loop. -/
theorem main_loop_calls (env : daemon_env) (fuel : Nat) (inputs : List epoll_wait_result)
    (st st1 : main_state) (h : main_loop env fuel inputs st = .finished st1) :
    ∃ mid, st1.daemon.calls = st.daemon.calls ++ mid ∧ ∀ c ∈ mid, loop_call c = true := by
  induction fuel generalizing inputs st with
  | zero => cases h
  | succ fuel ih =>
    unfold main_loop at h
    split at h
    · cases h
      exact ⟨[], by simp, by simp⟩
    · split at h
      · cases h
      · cases h
      · rename_i rest st2 hrun
        obtain ⟨⟨mid, hmid, hall⟩, _⟩ := event_run_calls env inputs rest st st2 hrun
        split at h
        · split at h
          · cases h
          · rename_i st3 hload
            obtain ⟨⟨mid2, hmid2, hall2⟩, _⟩ := main_load_config_calls env true st2 st3 hload
            obtain ⟨mid3, hmid3, hall3⟩ := ih _ _ h
            refine ⟨mid ++ mid2 ++ mid3, ?_, ?_⟩
            · rw [hmid3]
              simp only []
              rw [hmid2, hmid]
              simp
            · intro c hc
              simp only [List.mem_append] at hc
              rcases hc with (hc | hc) | hc
              · exact hall c hc
              · exact hall2 c hc
              · exact hall3 c hc
        · obtain ⟨mid3, hmid3, hall3⟩ := ih _ _ h
          refine ⟨mid ++ mid3, ?_, ?_⟩
          · rw [hmid3, hmid]
            simp
          · intro c hc
            simp only [List.mem_append] at hc
            rcases hc with hc | hc
            · exact hall c hc
            · exact hall3 c hc

/-- The result of the loop of `main` is the same for every number of rounds
from `2 * inputs.length + 2` on: the rounds allowed in `ggaoed_main` are
enough. -/
theorem main_loop_fuel (env : daemon_env) (fuel fuel2 : Nat) (inputs : List epoll_wait_result)
    (st : main_state)
    (h1 : 2 * inputs.length + (if st.globals.reload_flag = true then 1 else 0) + 1 ≤ fuel)
    (h2 : 2 * inputs.length + (if st.globals.reload_flag = true then 1 else 0) + 1 ≤ fuel2) :
    main_loop env fuel inputs st = main_loop env fuel2 inputs st := by
  induction fuel generalizing fuel2 inputs st with
  | zero => omega
  | succ fuel ih =>
    cases fuel2 with
    | zero => omega
    | succ fuel2 =>
      unfold main_loop
      split
      · rfl
      · rename_i hexit
        rcases hrun : event_run env inputs st with _ | _ | ⟨rest, st2⟩
        · rfl
        · rfl
        · obtain ⟨_, hlen⟩ := event_run_calls env inputs rest st st2 hrun
          simp only []
          split
          · rcases hload : main_load_config env true st2 with _ | st3
            · rfl
            · simp only []
              apply ih
              · simp only [Bool.false_eq_true, if_false]
                rcases hlen with hl | ⟨hl, hs, hf⟩
                · omega
                · subst hl hs
                  have hr : st2.globals.reload_flag = true := by
                    cases hr : st2.globals.reload_flag
                    · exact absurd ⟨by simpa using hexit, hr⟩ hf
                    · rfl
                  rw [if_pos hr] at h1
                  omega
              · simp only [Bool.false_eq_true, if_false]
                rcases hlen with hl | ⟨hl, hs, hf⟩
                · omega
                · subst hl hs
                  have hr : st2.globals.reload_flag = true := by
                    cases hr : st2.globals.reload_flag
                    · exact absurd ⟨by simpa using hexit, hr⟩ hf
                    · rfl
                  rw [if_pos hr] at h2
                  omega
          · rename_i hnr
            have hlt : rest.length < inputs.length := by
              rcases hlen with hl | ⟨hl, hs, hf⟩
              · exact hl
              · subst hl hs
                exact absurd ⟨by simpa using hexit, by simpa using hnr⟩ hf
            apply ih
            · rw [if_neg hnr]
              omega
            · rw [if_neg hnr]
              omega

theorem main_init_calls (env : daemon_env) (st : main_state) :
    (main_init env st).daemon.calls
      = st.daemon.calls ++ [.mem_init, .event_init, .netmon_open, .setup_ifaces, .setup_devices,
          .ctl_init] := by
  unfold main_init event_init
  simp only []
  split <;> simp [call_external]

theorem main_done_calls (env : daemon_env) (st : main_state) :
    (main_done env st).daemon.calls
      = st.daemon.calls ++ [.ctl_done, .netmon_close, .done_devices, .done_ifaces, .mem_done,
          .close_efd] := by
  simp [main_done, call_external]

theorem write_pid_file_daemon (env : daemon_env) (st st1 : main_state)
    (h : write_pid_file env st = some st1) : st1.daemon = st.daemon := by
  unfold write_pid_file at h
  split at h
  · cases h
    rfl
  · simp only [] at h
    split at h
    · cases h
      split <;> rfl
    · cases h

/-- C18 (the teardown is not the reverse of the initialisation): the run of
`main` in which the first `epoll_wait` is interrupted by `SIGTERM` returns 0
after the calls `mem_init`, `event_init`, `netmon_open`, `setup_ifaces`,
`setup_devices`, `ctl_init`, one `epoll_wait`, and then `ctl_done`,
`netmon_close`, `done_devices`, `done_ifaces`, `mem_done`, `close(efd)`: the
netlink monitor is closed before the devices and the interfaces are torn down,
and the memory pool is released before the event loop descriptor is closed. -/
theorem ggaoed_main_teardown_not_reverse :
    (ggaoed_main daemon_env_example [.interrupted (some .SIGTERM)]).map
        (fun r => (r.1, r.2.daemon.calls))
      = .finished (.returned 0,
          [.validate_config, .mem_init, .event_init, .netmon_open, .setup_ifaces,
            .setup_devices, .ctl_init, .epoll_wait, .ctl_done, .netmon_close, .done_devices,
            .done_ifaces, .mem_done, .close_efd]) ∧
    [daemon_call.ctl_done, .netmon_close, .done_devices, .done_ifaces, .mem_done, .close_efd]
      ≠ teardown_reverse := by
  refine ⟨?_, ?_⟩ <;> decide

/-- C18, amended: every finished run of `main` from its first `do_load_config`
on either ends in `exit(1)` before any subsystem is initialised, or returns 0
after the calls `validate_config`, then `mem_init`, `event_init`,
`netmon_open`, `setup_ifaces`, `setup_devices`, `ctl_init` in this order, then
calls of the loop only (`epoll_wait`, callbacks, `run_devices`, `run_ifaces`,
and on a reload `validate_config`, `setup_ifaces`, `setup_devices`), then
`ctl_done`, `netmon_close`, `done_devices`, `done_ifaces`, `mem_done`,
`close(efd)` in this order. -/
theorem ggaoed_main_subsystem_order (env : daemon_env) (inputs : List epoll_wait_result)
    (e : daemon_end) (calls : List daemon_call)
    (h : (ggaoed_main env inputs).map (fun r => (r.1, r.2.daemon.calls))
      = .finished (e, calls)) :
    (e = .exited 1 ∧ ∀ c ∈ calls, c = .validate_config) ∨
    (e = .returned 0 ∧ ∃ mid,
      calls = [.validate_config, .mem_init, .event_init, .netmon_open, .setup_ifaces,
          .setup_devices, .ctl_init] ++ mid
        ++ [.ctl_done, .netmon_close, .done_devices, .done_ifaces, .mem_done, .close_efd] ∧
      ∀ c ∈ mid, loop_call c = true) := by
  unfold ggaoed_main at h
  rcases hload : main_load_config env false main_state_zero with _ | st1
  · rw [hload] at h
    cases h
  · rw [hload] at h
    simp only [] at h
    obtain ⟨⟨pre, hpre, hpre2⟩, hfirst⟩ := main_load_config_calls env false _ st1 hload
    have hz : main_state_zero.daemon.calls = [] := rfl
    rw [hz, List.nil_append] at hpre
    have hexit : (e, calls) = (daemon_end.exited 1, st1.daemon.calls) →
        e = .exited 1 ∧ ∀ c ∈ calls, c = .validate_config := by
      intro he
      cases he
      refine ⟨rfl, ?_⟩
      unfold main_load_config at hload
      split at hload
      · cases hload
      · rename_i d hd
        cases hload
        simp only []
        unfold do_load_config at hd
        split at hd
        · cases hd
          simp [main_state_zero]
        · split at hd
          · cases hd
          · simp only [] at hd
            split at hd
            · split at hd
              · rename_i hr
                simp at hr
              · cases hd
                simp [main_state_zero]
            · cases hd
              simp [main_state_zero]
    split at h
    · simp only [run_result.map, run_result.finished.injEq] at h
      exact Or.inl (hexit h.symm)
    · rename_i hcfg
      split at h
      · simp only [run_result.map, run_result.finished.injEq] at h
        exact Or.inl (hexit h.symm)
      · rcases hpid : write_pid_file env st1 with _ | st2
        · rw [hpid] at h
          simp only [run_result.map, run_result.finished.injEq] at h
          exact Or.inl (hexit h.symm)
        · rw [hpid] at h
          simp only [] at h
          rcases hloop : main_loop env (2 * inputs.length + 2) inputs (main_init env st2)
            with _ | _ | st3
          · rw [hloop] at h
            cases h
          · rw [hloop] at h
            cases h
          · rw [hloop] at h
            simp only [run_result.map, run_result.finished.injEq, Prod.mk.injEq] at h
            obtain ⟨he, hc⟩ := h
            obtain ⟨mid, hmid, hall⟩ := main_loop_calls env _ inputs _ st3 hloop
            have hd := write_pid_file_daemon env st1 st2 hpid
            have hsome : st1.daemon.global_config.isNone = false := by
              cases hg : st1.daemon.global_config.isNone
              · rfl
              · exact absurd hg hcfg
            have hv := hfirst rfl rfl hsome
            rw [hz, List.nil_append] at hv
            refine Or.inr ⟨he.symm, mid, ?_, hall⟩
            rw [← hc, main_done_calls, hmid, main_init_calls, hd, hv]
            simp

theorem ggaoed_main_subsystem_order_witness :
    (ggaoed_main daemon_env_example
        [.ready [⟨1, 1⟩, ⟨4, 2⟩, ⟨1, 3⟩], .interrupted (some .SIGHUP), .ready [],
          .interrupted (some .SIGTERM)]).map (fun r => (r.1, r.2.daemon.calls))
      = .finished (.returned 0,
          [.validate_config, .mem_init, .event_init, .netmon_open, .setup_ifaces,
            .setup_devices, .ctl_init, .epoll_wait, .callback 1 1, .callback 2 4,
            .callback 3 1, .run_devices, .run_ifaces, .epoll_wait, .validate_config,
            .setup_ifaces, .setup_devices, .epoll_wait, .epoll_wait, .ctl_done,
            .netmon_close, .done_devices, .done_ifaces, .mem_done, .close_efd]) ∧
    ((daemon_end.returned 0 = .exited 1 ∧
        ∀ c ∈ [daemon_call.validate_config, .mem_init, .event_init, .netmon_open,
            .setup_ifaces, .setup_devices, .ctl_init, .epoll_wait, .callback 1 1,
            .callback 2 4, .callback 3 1, .run_devices, .run_ifaces, .epoll_wait,
            .validate_config, .setup_ifaces, .setup_devices, .epoll_wait, .epoll_wait,
            .ctl_done, .netmon_close, .done_devices, .done_ifaces, .mem_done, .close_efd],
          c = .validate_config) ∨
      (daemon_end.returned 0 = .returned 0 ∧ ∃ mid,
        [daemon_call.validate_config, .mem_init, .event_init, .netmon_open, .setup_ifaces,
            .setup_devices, .ctl_init, .epoll_wait, .callback 1 1, .callback 2 4,
            .callback 3 1, .run_devices, .run_ifaces, .epoll_wait, .validate_config,
            .setup_ifaces, .setup_devices, .epoll_wait, .epoll_wait, .ctl_done,
            .netmon_close, .done_devices, .done_ifaces, .mem_done, .close_efd]
          = [.validate_config, .mem_init, .event_init, .netmon_open, .setup_ifaces,
              .setup_devices, .ctl_init] ++ mid
            ++ [.ctl_done, .netmon_close, .done_devices, .done_ifaces, .mem_done,
              .close_efd] ∧
        ∀ c ∈ mid, loop_call c = true)) :=
  ⟨by decide,
    ggaoed_main_subsystem_order daemon_env_example
      [.ready [⟨1, 1⟩, ⟨4, 2⟩, ⟨1, 3⟩], .interrupted (some .SIGHUP), .ready [],
        .interrupted (some .SIGTERM)] (.returned 0) _ (by decide)⟩

/-! ## Sizes for the log -/

/-- C25: for every size (a 64-bit size is one below `2 ^ 64`), `human_format`
returns `size / 1024 ^ k` rounded down and sets the unit to the k-th of KiB,
MiB, GiB, TiB, for the `k` in `1 .. 4` such that the quotient is at least 10240
for every smaller exponent and either `k = 4` or the quotient for `k` is below
10240; the value returned is below 10240 unless the unit is TiB, and the unit
is one of the four. -/
theorem human_format_spec (size : Nat) :
    (∃ k, 1 ≤ k ∧ k ≤ 4 ∧
      human_format size = (size / 1024 ^ k, binary_unit k) ∧
      (∀ j, 1 ≤ j → j < k → 10240 ≤ size / 1024 ^ j) ∧
      (k = 4 ∨ size / 1024 ^ k < 10240)) ∧
    ((human_format size).2 ≠ "TiB" → (human_format size).1 < 10240) ∧
    (human_format size).2 ∈ ["KiB", "MiB", "GiB", "TiB"] := by
  have e1 : size >>> 10 = size / 1024 := by rw [Nat.shiftRight_eq_div_pow]
  have e2 : (size / 1024) >>> 10 = size / 1024 ^ 2 := by
    rw [Nat.shiftRight_eq_div_pow, Nat.div_div_eq_div_mul]
    norm_num
  have e3 : (size / 1024 ^ 2) >>> 10 = size / 1024 ^ 3 := by
    rw [Nat.shiftRight_eq_div_pow, Nat.div_div_eq_div_mul]
    norm_num
  have e4 : (size / 1024 ^ 3) >>> 10 = size / 1024 ^ 4 := by
    rw [Nat.shiftRight_eq_div_pow, Nat.div_div_eq_div_mul]
    norm_num
  unfold human_format
  simp only [e1]
  by_cases h1 : size / 1024 ≥ 10240
  · simp only [if_pos h1, e2]
    by_cases h2 : size / 1024 ^ 2 ≥ 10240
    · simp only [if_pos h2, e3]
      by_cases h3 : size / 1024 ^ 3 ≥ 10240
      · simp only [if_pos h3, e4]
        refine ⟨⟨4, by omega, by omega, rfl, ?_, Or.inl rfl⟩, by simp, by simp⟩
        intro j hj1 hj2
        have : j = 1 ∨ j = 2 ∨ j = 3 := by omega
        rcases this with rfl | rfl | rfl
        · simpa using h1
        · exact h2
        · exact h3
      · simp only [if_neg h3]
        refine ⟨⟨3, by omega, by omega, rfl, ?_, Or.inr (by omega)⟩, fun _ => by omega, by simp⟩
        intro j hj1 hj2
        have : j = 1 ∨ j = 2 := by omega
        rcases this with rfl | rfl
        · simpa using h1
        · exact h2
    · simp only [if_neg h2]
      refine ⟨⟨2, by omega, by omega, rfl, ?_, Or.inr (by omega)⟩, fun _ => by omega, by simp⟩
      intro j hj1 hj2
      have : j = 1 := by omega
      subst this
      simpa using h1
  · simp only [if_neg h1]
    refine ⟨⟨1, by omega, by omega, by simp [binary_unit], ?_, Or.inr (by simpa using h1)⟩,
      fun _ => by omega, by simp⟩
    intro j hj1 hj2
    omega

theorem human_format_spec_witness :
    human_format 20971520 = (20, "MiB") ∧ (human_format 20971520).1 < 10240 ∧
    human_format (2 ^ 64 - 1) = (16777215, "TiB") :=
  ⟨by decide, (human_format_spec 20971520).2.1 (by decide), by decide⟩
/-! ## The type of a device -/

theorem parse_int_with_integer (config : GKeyFile) (group key : String) (r : key_result Int)
    (g k : String) (defval : Int) (h : k ≠ key) :
    parse_int (config.with_integer group key r) g k defval = parse_int config g k defval := by
  unfold parse_int GKeyFile.with_integer
  simp only []
  rw [if_neg (fun hc => h hc.2)]

theorem parse_device_common_with_integer (env : config_env) (config : GKeyFile)
    (defaults : default_config) (group name : String) (r : key_result Int) (ret : Bool)
    (devcfg : device_config) :
    parse_device_common env (config.with_integer group "type" r) defaults name ret devcfg
      = parse_device_common env config defaults name ret devcfg := by
  unfold parse_device_common
  simp only [parse_int_with_integer config group "type" r name "queue-length" _ (by decide),
    parse_int_with_integer config group "type" r name "shelf" _ (by decide),
    parse_int_with_integer config group "type" r name "slot" _ (by decide)]
  rfl

theorem parse_device_common_type (env : config_env) (config : GKeyFile)
    (defaults : default_config) (name : String) (ret r : Bool) (c0 c : device_config)
    (h : parse_device_common env config defaults name ret c0 = some (r, c)) :
    c.type = c0.type := by
  unfold parse_device_common at h
  rcases hq : parse_int config name "queue-length" defaults.queue_length with ⟨r1, q⟩
  rcases hs : parse_int config name "shelf" (-1) with ⟨r2, s⟩
  rcases ht : parse_int config name "slot" (-1) with ⟨r3, t⟩
  rcases hm : parse_double config name "max-delay" defaults.max_delay with ⟨r4, m⟩
  rcases hg : parse_double config name "merge-delay" defaults.merge_delay with ⟨r5, g⟩
  simp only [hq, hs, ht, hm, hg] at h
  repeat' split at h
  all_goals try cases h
  all_goals try rfl

theorem parse_type_value (env : config_env) (config : GKeyFile) (s n : String)
    (val defval v : Int) (hv : config.get_integer s n = .value v) :
    parse_type env config s n val defval
      = if v < env.DEVICE_TYPES_END ∧ v ≥ 0 then (true, v % 256) else (true, val) := by
  unfold parse_type parse_int
  rw [hv]
  rfl

/-- C23: when the key `type` of a device group is an integer outside
`0 .. DEVICE_TYPES_END - 1`, `parse_type` returns `TRUE` and leaves `*val` as it
was; `parse_device` then leaves `devcfg->type` at the zero of its `memset` and
returns what it returns for the same group with `type = 0` (a type in range, as
`DEVICE_TYPES_END` is positive), so the group is not refused on account of its
type. `parse_type` returns `FALSE` exactly when `g_key_file_get_integer` fails
with an error that is not `G_KEY_FILE_ERROR_KEY_NOT_FOUND`. -/
theorem parse_type_out_of_range (env : config_env) (config : GKeyFile)
    (defaults : default_config) (name : String) (v : Int)
    (hv : config.get_integer name "type" = .value v)
    (hrange : ¬ (0 ≤ v ∧ v < env.DEVICE_TYPES_END))
    (hend : 0 < env.DEVICE_TYPES_END) :
    (∀ val defval, parse_type env config name "type" val defval = (true, val)) ∧
    (∀ r c, parse_device env config defaults name = some (r, c) → c.type = 0) ∧
    parse_device env config defaults name
      = parse_device env (config.with_integer name "type" (.value 0)) defaults name ∧
    (∀ (cfg : GKeyFile) (s n : String) (val defval : Int),
      (parse_type env cfg s n val defval).1 = false
        ↔ ∃ e, cfg.get_integer s n = .other_error e) := by
  have h1 : ∀ val defval, parse_type env config name "type" val defval = (true, val) := by
    intro val defval
    rw [parse_type_value env config name "type" val defval v hv,
      if_neg (fun h => hrange ⟨h.2, h.1⟩)]
  have h0 : parse_type env (config.with_integer name "type" (.value 0)) name "type" 0 env.PHYS_T
      = (true, 0) := by
    rw [parse_type_value env _ name "type" 0 env.PHYS_T 0 (by simp [GKeyFile.with_integer]),
      if_pos ⟨hend, le_refl _⟩]
    rfl
  refine ⟨h1, ?_, ?_, ?_⟩
  · intro r c h
    unfold parse_device at h
    simp only [h1] at h
    split at h
    · split at h
      · cases h
        rfl
      · split at h
        · cases h
          rfl
        · split at h
          · cases h
            rfl
          · exact parse_device_common_type _ _ _ _ _ _ _ _ h
    · exact parse_device_common_type _ _ _ _ _ _ _ _ h
  · unfold parse_device
    simp only [h1, h0, parse_device_common_with_integer,
      parse_int_with_integer config name "type" _ name "capacity" _ (by decide)]
    rfl
  · intro cfg s n val defval
    unfold parse_type parse_int
    cases cfg.get_integer s n with
    | value x =>
      simp only [reduceCtorEq, exists_false, iff_false, if_true]
      split <;> simp
    | key_not_found =>
      simp only [reduceCtorEq, exists_false, iff_false, if_true]
      split <;> simp
    | other_error e => simp

theorem parse_type_out_of_range_witness :
    (device_file_type_example 7).get_integer "disk0" "type" = .value 7 ∧
    ¬ (0 ≤ (7 : Int) ∧ 7 < config_env_example.DEVICE_TYPES_END) ∧
    parse_type config_env_example (device_file_type_example 7) "disk0" "type" 0
        config_env_example.PHYS_T = (true, 0) ∧
    parse_device config_env_example (device_file_type_example 7)
        (device_defaults_example (.finite one_half)) "disk0"
      = some (true, device_config_example) ∧
    parse_device config_env_example (device_file_type_example 7)
        (device_defaults_example (.finite one_half)) "disk0"
      = parse_device config_env_example
          ((device_file_type_example 7).with_integer "disk0" "type" (.value 0))
          (device_defaults_example (.finite one_half)) "disk0" :=
  ⟨rfl, by decide,
    (parse_type_out_of_range config_env_example (device_file_type_example 7)
      (device_defaults_example (.finite one_half)) "disk0" 7 rfl (by decide)
      (by decide)).1 0 config_env_example.PHYS_T,
    by decide,
    (parse_type_out_of_range config_env_example (device_file_type_example 7)
      (device_defaults_example (.finite one_half)) "disk0" 7 rfl (by decide)
      (by decide)).2.2.1⟩
/-! ## A configuration without the group `defaults` -/

/-- With the array `defaults.acls` allocated, every step of the loop of
`resolve_acls` has a defined result. -/
theorem resolve_acls_loop_some (env : config_env) (known : List acl) (values : List String)
    (acls : acl_map) : ∃ m, resolve_acls_loop env (some known) values acls = some m := by
  induction values generalizing acls with
  | nil => exact ⟨acls, rfl⟩
  | cons value values ih =>
    unfold resolve_acls_loop
    cases env.ether_aton_r value with
    | some addr =>
      simp only []
      split
      · exact ⟨_, rfl⟩
      · exact ih _
    | none =>
      simp only [lookup_acl, Option.map_some']
      cases known.find? fun a => decide (a.name = value) with
      | some ref =>
        simp only []
        split
        · exact ⟨_, rfl⟩
        · exact ih _
      | none =>
        simp only []
        cases env.ether_hostton value with
        | some addr =>
          simp only []
          split
          · exact ⟨_, rfl⟩
          · exact ih _
        | none => exact ih _

theorem resolve_acls_some (env : config_env) (known : List acl) (values : List String) :
    ∃ r, resolve_acls env (some known) values = some r := by
  obtain ⟨m, hm⟩ := resolve_acls_loop_some env known values (acl_map_new0 env.acl_capacity)
  unfold resolve_acls
  rw [hm]
  exact ⟨_, rfl⟩

theorem parse_acls_loop_some (env : config_env) (config : GKeyFile) (keys : List String)
    (acls : List acl) : ∃ r, parse_acls_loop env config keys acls = some r := by
  induction keys generalizing acls with
  | nil => exact ⟨_, rfl⟩
  | cons key keys ih =>
    unfold parse_acls_loop
    split
    · exact ⟨_, rfl⟩
    · rename_i values _
      obtain ⟨r, hr⟩ := resolve_acls_some env acls values
      rw [hr]
      exact ih _

/-- The function `parse_acls` has a defined result, in which it has changed
`defaults.acls` only, to an allocated array. -/
theorem parse_acls_some (env : config_env) (config : GKeyFile) (defaults : default_config) :
    ∃ r l, parse_acls env config defaults = some (r, { defaults with acls := some l }) := by
  unfold parse_acls
  split
  · exact ⟨_, _, rfl⟩
  · rename_i keys _
    obtain ⟨r, hr⟩ := parse_acls_loop_some env config keys []
    rw [hr]
    exact ⟨_, _, rfl⟩

theorem parse_device_common_some (env : config_env) (config : GKeyFile)
    (defaults : default_config) (name : String) (ret : Bool) (c0 : device_config)
    (l : List acl) (hl : defaults.acls = some l) :
    ∃ r, parse_device_common env config defaults name ret c0 = some r := by
  unfold parse_device_common
  simp only [hl]
  split
  · exact ⟨_, rfl⟩
  split
  · exact ⟨_, rfl⟩
  split
  · exact ⟨_, rfl⟩
  split
  · exact ⟨_, rfl⟩
  split
  · exact ⟨_, rfl⟩
  split
  · exact ⟨_, rfl⟩
  split
  · rename_i heq
    split at heq
    · rename_i va _
      obtain ⟨ra, hra⟩ := resolve_acls_some env l va
      rw [hra] at heq
      cases heq
    · cases heq
  split
  · rename_i heq
    split at heq
    · rename_i vd _
      obtain ⟨rd, hrd⟩ := resolve_acls_some env l vd
      rw [hrd] at heq
      cases heq
    · cases heq
  exact ⟨_, rfl⟩

/-- With the array `defaults.acls` allocated, `parse_device` has a defined
result. -/
theorem parse_device_some (env : config_env) (config : GKeyFile) (defaults : default_config)
    (name : String) (l : List acl) (hl : defaults.acls = some l) :
    ∃ r, parse_device env config defaults name = some r := by
  unfold parse_device
  simp only []
  split
  · split
    · exact ⟨_, rfl⟩
    split
    · exact ⟨_, rfl⟩
    split
    · exact ⟨_, rfl⟩
    · exact parse_device_common_some env config defaults name _ _ l hl
  · exact parse_device_common_some env config defaults name _ _ l hl

/-- A device group without a `queue-length` of its own is refused when the
queue length of the defaults is 0. -/
theorem parse_device_queue_zero (env : config_env) (config : GKeyFile)
    (defaults : default_config) (name : String) (r : Bool) (c : device_config)
    (hq : config.get_integer name "queue-length" = .key_not_found)
    (hd : defaults.queue_length = 0)
    (h : parse_device env config defaults name = some (r, c)) : r = false := by
  cases r with
  | false => rfl
  | true =>
    obtain ⟨ret, c0, hc⟩ := parse_device_true env config defaults name c h
    obtain ⟨⟨_, hv, _⟩, _, _⟩ := parse_device_common_true env config defaults name ret c0 c hc
    rw [parse_int_not_found config name "queue-length" _ hq, hd] at hv
    simp [queue_length_valid, unsigned_of_int] at hv

theorem validate_config_groups_some (env : config_env) (config : GKeyFile)
    (defaults : default_config) (l : List acl) (hl : defaults.acls = some l)
    (groups : List String) (ret : Bool) :
    ∃ b, validate_config_groups env config defaults groups ret = some b ∧
      (ret = false → b = false) := by
  induction groups generalizing ret with
  | nil => exact ⟨ret, rfl, id⟩
  | cons group groups ih =>
    unfold validate_config_groups
    split
    · exact ih ret
    · split
      · obtain ⟨r, hr⟩ := parse_device_some env config defaults group l hl
        rw [hr]
        simp only []
        obtain ⟨b, hb, hf⟩ := ih (ret && r.1)
        exact ⟨b, hb, fun h => hf (by rw [h]; rfl)⟩
      · obtain ⟨b, hb, hf⟩ := ih (ret && (parse_netif env config defaults group).1)
        exact ⟨b, hb, fun h => hf (by rw [h]; rfl)⟩

/-- The loop of `validate_config` ends with `ret` zero when one of the groups
is a device group that `parse_device` refuses. -/
theorem validate_config_groups_refused (env : config_env) (config : GKeyFile)
    (defaults : default_config) (l : List acl) (hl : defaults.acls = some l) (name : String)
    (hd : name ≠ GRP_DEFAULTS) (ha : name ≠ GRP_ACLS)
    (hshelf : config.has_key name "shelf" = true)
    (hrefused : ∀ r c, parse_device env config defaults name = some (r, c) → r = false)
    (groups : List String) (hname : name ∈ groups) (ret : Bool) :
    validate_config_groups env config defaults groups ret = some false := by
  induction groups generalizing ret with
  | nil => cases hname
  | cons group groups ih =>
    unfold validate_config_groups
    by_cases hg : group = name
    · subst hg
      rw [if_neg (by rintro (h | h); exact hd h; exact ha h), if_pos hshelf]
      obtain ⟨r, hr⟩ := parse_device_some env config defaults group l hl
      rw [hr]
      simp only []
      have hfalse : r.1 = false := hrefused r.1 r.2 (by rw [hr])
      obtain ⟨b, hb, hf⟩ := validate_config_groups_some env config defaults l hl groups
        (ret && r.1)
      rw [hb, hf (by rw [hfalse]; simp)]
    · have hmem : name ∈ groups := by
        rcases List.mem_cons.1 hname with h | h
        · exact absurd h.symm hg
        · exact h
      split
      · exact ih hmem ret
      · split
        · obtain ⟨r, hr⟩ := parse_device_some env config defaults group l hl
          rw [hr]
          exact ih hmem _
        · exact ih hmem _

theorem parse_defaults_no_group (env : config_env) (config : GKeyFile)
    (defaults : default_config) (devices_macs : List device_macs_t)
    (hgroup : config.has_group GRP_DEFAULTS = false)
    (hmacs : config.get_string_list GRP_DEFAULTS "device-macs" = none) :
    parse_defaults env config defaults devices_macs = some (true, defaults, devices_macs) := by
  unfold parse_defaults
  simp only [hmacs, hgroup]
  rfl

/-- C22: for a key file without the group `defaults` (glib then has no list
for `device-macs` in it), `parse_defaults` returns `TRUE` and leaves `defaults`
as it is; `validate_config` has a result, and when it accepts the file the
defaults in force are the old ones after the `memset` over the size of a
pointer, with only the ACL array replaced: no built-in default is applied. When
the queue length of the defaults is 0, `parse_device` refuses every device group
without a `queue-length` of its own, and on the first load (all-zero defaults)
`validate_config` returns `FALSE` for a file that has such a group. -/
theorem validate_config_no_defaults_group (env : config_env) (config : GKeyFile)
    (defaults : default_config) (devices_macs : List device_macs_t) (name : String)
    (hgroup : config.has_group GRP_DEFAULTS = false)
    (hmacs : config.get_string_list GRP_DEFAULTS "device-macs" = none)
    (hzero : env.memset_sizeof_pointer default_config_zero = default_config_zero)
    (hname : name ∈ config.get_groups) (hacls : name ≠ GRP_ACLS)
    (hshelf : config.has_key name "shelf" = true)
    (hq : config.get_integer name "queue-length" = .key_not_found) :
    parse_defaults env config defaults devices_macs = some (true, defaults, devices_macs) ∧
    (∃ r l, validate_config env config defaults devices_macs = some r ∧
      (r.1 = true →
        r.2.1 = { env.memset_sizeof_pointer defaults with acls := some l }) ∧
      r.2.2 = devices_macs) ∧
    (∀ d : default_config, d.queue_length = 0 →
      ∀ r c, parse_device env config d name = some (r, c) → r = false) ∧
    validate_config env config default_config_zero devices_macs
      = some (false, default_config_zero, devices_macs) := by
  have hdef : name ≠ GRP_DEFAULTS := by
    intro h
    subst h
    unfold GKeyFile.has_group at hgroup
    have hc : config.get_groups.contains GRP_DEFAULTS = true := by simpa using hname
    rw [hc] at hgroup
    cases hgroup
  refine ⟨parse_defaults_no_group env config defaults devices_macs hgroup hmacs, ?_,
    fun d hd r c h => parse_device_queue_zero env config d name r c hq hd h, ?_⟩
  · obtain ⟨r2, l, hl⟩ := parse_acls_some env config (env.memset_sizeof_pointer defaults)
    obtain ⟨b, hb, _⟩ := validate_config_groups_some env config
      { env.memset_sizeof_pointer defaults with acls := some l } l rfl config.get_groups
      (true && r2)
    unfold validate_config
    simp only [parse_defaults_no_group env config _ devices_macs hgroup hmacs, hl, hb]
    cases b with
    | true => exact ⟨_, l, rfl, fun _ => rfl, rfl⟩
    | false => exact ⟨_, l, rfl, fun h => Bool.noConfusion h, rfl⟩
  · obtain ⟨r2, l, hl⟩ := parse_acls_some env config default_config_zero
    have hb := validate_config_groups_refused env config
      { default_config_zero with acls := some l } l rfl name hdef hacls hshelf
      (fun r c h => parse_device_queue_zero env config _ name r c hq rfl h)
      config.get_groups hname (true && r2)
    unfold validate_config
    simp only [hzero, parse_defaults_no_group env config _ devices_macs hgroup hmacs, hl, hb]
    rfl

theorem validate_config_no_defaults_group_witness :
    device_file_no_defaults_example.has_group GRP_DEFAULTS = false ∧
    config_env_example.memset_sizeof_pointer default_config_zero = default_config_zero ∧
    "disk0" ∈ device_file_no_defaults_example.get_groups ∧
    device_file_no_defaults_example.has_key "disk0" "shelf" = true ∧
    parse_defaults config_env_example device_file_no_defaults_example default_config_zero []
      = some (true, default_config_zero, []) ∧
    validate_config config_env_example device_file_no_defaults_example default_config_zero []
      = some (false, default_config_zero, []) :=
  ⟨by decide, by decide, by decide, by decide,
    (validate_config_no_defaults_group config_env_example device_file_no_defaults_example
      default_config_zero [] "disk0" (by decide) rfl (by decide) (by decide) (by decide)
      (by decide) rfl).1,
    (validate_config_no_defaults_group config_env_example device_file_no_defaults_example
      default_config_zero [] "disk0" (by decide) rfl (by decide) (by decide) (by decide)
      (by decide) rfl).2.2.2⟩
/-! ## The list `device-macs` -/

/-- C21 (the code departs from it): for the element `e1.2:3 1:2:3:4:5:6`, whose
MAC ends the string, and for one with a second MAC that ends the string,
`parse_mac` steps over the terminating NUL after the sixth octet and
`build_devices_macs` has no defined result. With a character after the last
MAC (a space, or any other character, which `parse_mac` skips without looking
at it) the function returns 1 and the list holds one entry per element, the
latest element first, with the shelf, the slot, the device id and the MACs of
the element (the latest MAC first), whatever the list held before. An element
that does not begin with `e<number>.<number>:` gives -1. -/
theorem build_devices_macs_mac_at_end :
    parse_mac "1:2:3:4:5:6".toList = .past_end ∧
    build_devices_macs ["e1.2:3 1:2:3:4:5:6"] [] = none ∧
    build_devices_macs ["e1.2:3 1:2:3:4:5:6 7:8:9:10:11:12"] [] = none ∧
    build_devices_macs ["e1.2:3 1:2:3:4:5:6 "] []
      = some (1, [{ shelf := 1, slot := 2, device_id := 3, macs := [[1, 2, 3, 4, 5, 6]] }]) ∧
    build_devices_macs ["e1.2:3 1:2:3:4:5:6x"] []
      = some (1, [{ shelf := 1, slot := 2, device_id := 3, macs := [[1, 2, 3, 4, 5, 6]] }]) ∧
    build_devices_macs ["e1.2:3 1:2:3:4:5:6 7:8:9:10:11:12 ", "e4.5:6 0:0:0:0:0:255 "]
        [{ shelf := 7, slot := 0, device_id := 1, macs := [[0, 17, 34, 51, 68, 85]] }]
      = some (1, [{ shelf := 4, slot := 5, device_id := 6, macs := [[0, 0, 0, 0, 0, 255]] },
          { shelf := 1, slot := 2, device_id := 3,
            macs := [[7, 8, 9, 10, 11, 12], [1, 2, 3, 4, 5, 6]] }]) ∧
    build_devices_macs ["x1.2:3 1:2:3:4:5:6 "] [] = some (-1, []) ∧
    build_devices_macs ["e1:3 1:2:3:4:5:6 "] [] = some (-1, []) ∧
    build_devices_macs ["e1.2 1:2:3:4:5:6 "] [] = some (-1, []) := by
  refine ⟨?_, ?_, ?_, ?_, ?_, ?_, ?_, ?_, ?_⟩ <;> decide
/-! ## The map of `resolve_acls` -/

theorem add_acl_addrs_append (xs ys : List ether_addr) (m : acl_map) :
    add_acl_addrs (xs ++ ys) m
      = if (add_acl_addrs xs m).1 ≠ 0 then add_acl_addrs xs m
        else add_acl_addrs ys (add_acl_addrs xs m).2 := by
  induction xs generalizing m with
  | nil => simp [add_acl_addrs]
  | cons a xs ih =>
    simp only [List.cons_append, add_acl_addrs]
    split
    · simp
    · exact ih _

theorem add_acl_addrs_fst (xs : List ether_addr) (m : acl_map) :
    (add_acl_addrs xs m).1 = 0 ∨ (add_acl_addrs xs m).1 = -1 := by
  induction xs generalizing m with
  | nil => exact Or.inl rfl
  | cons a xs ih =>
    simp only [add_acl_addrs]
    split
    · exact Or.inr rfl
    · exact ih _

/-- The loop of `concat_acl` is the sequence of the calls of `add_one_acl` for
the entries of the source map. -/
theorem concat_acl_loop_eq (entries : List Nat) (n i : Nat) (dst : acl_map) :
    concat_acl_loop entries n i dst
      = add_acl_addrs ((List.range n).map fun k => padded_addr_e (entries.getD (i + k) 0))
          dst := by
  induction n generalizing i dst with
  | zero => rfl
  | succ n ih =>
    rw [List.range_succ_eq_map]
    simp only [List.map_cons, List.map_map, concat_acl_loop, add_acl_addrs, Nat.add_zero]
    split
    · rfl
    · rw [ih]
      congr 2
      funext k
      simp only [Function.comp]
      congr 2
      omega

theorem concat_acl_eq (dst : acl_map) (ref : acl) :
    concat_acl dst ref
      = add_acl_addrs (match ref.map with
          | none => []
          | some map =>
            (List.range map.length).map fun i => padded_addr_e (map.entries.getD i 0)) dst := by
  unfold concat_acl
  cases ref.map with
  | none => rfl
  | some map =>
    simp only []
    rw [concat_acl_loop_eq]
    simp

/-- The loop of `resolve_acls` is the sequence of the calls of `add_one_acl`
for the addresses of the value list, up to the first that fails. -/
theorem resolve_acls_loop_eq (env : config_env) (known : List acl) (values : List String)
    (acls : acl_map) :
    resolve_acls_loop env (some known) values acls
      = some (add_acl_addrs (acl_value_addrs env known values) acls).2 := by
  induction values generalizing acls with
  | nil => rfl
  | cons value values ih =>
    have hflat : acl_value_addrs env known (value :: values)
        = acl_element_addrs env known value ++ acl_value_addrs env known values := by
      simp [acl_value_addrs]
    rw [hflat, add_acl_addrs_append]
    unfold resolve_acls_loop acl_element_addrs
    cases env.ether_aton_r value with
    | some addr =>
      simp only [add_acl_addrs]
      split
      · rename_i h
        simp [h]
      · rename_i h
        simp only [h, if_false]
        rw [ih]
        simp
    | none =>
      simp only [lookup_acl, Option.map_some']
      cases known.find? fun a => decide (a.name = value) with
      | some ref =>
        simp only []
        rw [concat_acl_eq]
        split
        · rfl
        · exact ih _
      | none =>
        simp only []
        cases env.ether_hostton value with
        | some addr =>
          simp only [add_acl_addrs]
          split
          · rename_i h
            simp [h]
          · rename_i h
            simp only [h, if_false]
            rw [ih]
            simp
        | none =>
          simp only [add_acl_addrs]
          exact ih _

theorem used_length (m : acl_map) (h : m.length ≤ m.entries.length) :
    m.used.length = m.length := by
  unfold acl_map.used
  rw [List.length_take]
  omega

/-- The map after the calls of `add_one_acl` for a list of addresses: it stays
strictly ascending within its array, and the list splits into the addresses
handled before the first failure, which are the members gained, and the rest,
which is empty unless the map is full and the next address is not in it. -/
theorem add_acl_addrs_spec (xs : List ether_addr) (m : acl_map)
    (hs : List.Sorted (· < ·) m.used) (hcap : m.length ≤ m.entries.length)
    (h32 : m.entries.length < 2 ^ 32) :
    List.Sorted (· < ·) (add_acl_addrs xs m).2.used ∧
    (add_acl_addrs xs m).2.length ≤ (add_acl_addrs xs m).2.entries.length ∧
    (add_acl_addrs xs m).2.entries.length = m.entries.length ∧
    ∃ pre rest, xs = pre ++ rest ∧
      (∀ x, x ∈ (add_acl_addrs xs m).2.used ↔ x ∈ m.used ∨ x ∈ pre.map padded_addr) ∧
      (rest = [] ∨
        ((add_acl_addrs xs m).2.length = (add_acl_addrs xs m).2.entries.length ∧
          ∃ a rest2, rest = a :: rest2 ∧ padded_addr a ∉ (add_acl_addrs xs m).2.used)) := by
  induction xs generalizing m with
  | nil =>
    exact ⟨hs, hcap, rfl, [], [], rfl, fun x => by simp [add_acl_addrs], Or.inl rfl⟩
  | cons a xs ih =>
    by_cases hp : padded_addr a ∈ m.used
    · have hdup := add_one_acl_dup m a hs.le_of_lt hcap hp
      have heq : add_acl_addrs (a :: xs) m = add_acl_addrs xs m := by
        simp [add_acl_addrs, hdup]
      rw [heq]
      obtain ⟨i1, i2, i3, pre, rest, hsplit, hmem, hrest⟩ := ih m hs hcap h32
      refine ⟨i1, i2, i3, a :: pre, rest, by rw [hsplit]; rfl, ?_, hrest⟩
      intro x
      rw [hmem x]
      simp only [List.map_cons, List.mem_cons]
      constructor
      · rintro (h | h)
        · exact Or.inl h
        · exact Or.inr (Or.inr h)
      · rintro (h | h | h)
        · exact Or.inl h
        · exact Or.inl (h ▸ hp)
        · exact Or.inr h
    · by_cases hfull : m.length < m.entries.length
      · obtain ⟨hl, hu, hs2⟩ := add_one_acl_new_used m a hs hfull h32 hp
        obtain ⟨hr, _, he, _⟩ := add_one_acl_new m a hfull hp
        have heq : add_acl_addrs (a :: xs) m = add_acl_addrs xs (add_one_acl m a).2 := by
          simp [add_acl_addrs, hr]
        rw [heq]
        obtain ⟨i1, i2, i3, pre, rest, hsplit, hmem, hrest⟩ :=
          ih (add_one_acl m a).2 hs2 (by omega) (by omega)
        refine ⟨i1, i2, i3.trans he, a :: pre, rest, by rw [hsplit]; rfl, ?_, hrest⟩
        intro x
        rw [hmem x, hu, List.mem_orderedInsert]
        simp only [List.map_cons, List.mem_cons]
        constructor
        · rintro ((h | h) | h)
          · exact Or.inr (Or.inl h)
          · exact Or.inl h
          · exact Or.inr (Or.inr h)
        · rintro (h | h | h)
          · exact Or.inl (Or.inr h)
          · exact Or.inl (Or.inl h)
          · exact Or.inr h
      · have hfl := add_one_acl_full m a (by omega) hp
        have heq : add_acl_addrs (a :: xs) m = (-1, m) := by
          simp [add_acl_addrs, hfl]
        rw [heq]
        exact ⟨hs, hcap, rfl, [], a :: xs, rfl, fun x => by simp,
          Or.inr ⟨by simp only []; omega, a, xs, rfl, hp⟩⟩

/-- C24 (the members are not those of whole elements): with an array of two
elements, the value list `1:0:0:0:0:0`, `a`, where `a` is an ACL defined before
with the members `2:0:0:0:0:0` and `3:0:0:0:0:0`, gives the map of the padded
addresses 1 and 2: the table is full after the first member of `a`, so the
members are neither the addresses of the first element alone nor those of both
elements. -/
theorem resolve_acls_partial_element :
    acl_env_example.acl_capacity = 2 ∧
    acl_element_addrs acl_env_example acl_known_example "1:0:0:0:0:0" = [mac_of_octet 1] ∧
    acl_element_addrs acl_env_example acl_known_example "a"
      = [mac_of_octet 2, mac_of_octet 3] ∧
    resolve_acls acl_env_example (some acl_known_example) ["1:0:0:0:0:0", "a"]
      = some (some { length := 2, entries := [1, 2] }) ∧
    ({ length := 2, entries := [1, 2] } : acl_map).used = [1, 2] ∧
    (acl_value_addrs acl_env_example acl_known_example ["1:0:0:0:0:0"]).map padded_addr
      = [1] ∧
    (acl_value_addrs acl_env_example acl_known_example ["1:0:0:0:0:0", "a"]).map padded_addr
      = [1, 2, 3] := by
  refine ⟨?_, ?_, ?_, ?_, ?_, ?_, ?_⟩ <;> decide

/-- C24, amended: with the array `defaults.acls` allocated and an array of the
map of between 1 and `2 ^ 32 - 1` elements, `resolve_acls` has a result; it
stores NULL exactly when the elements of the value list stand for no address at
all; otherwise it stores a strictly ascending (so duplicate-free) map whose
members are exactly the padded addresses handled before the first table-full
condition, address by address: the addresses of the value list split into a
first part, the members, and a rest that is empty unless the map is full and
the first address of the rest is not in it (the members can thus end in the
middle of the members of an ACL named in the list). -/
theorem resolve_acls_members (env : config_env) (known : List acl) (values : List String)
    (hcap : 0 < env.acl_capacity) (h32 : env.acl_capacity < 2 ^ 32) :
    (∃ r, resolve_acls env (some known) values = some r) ∧
    (resolve_acls env (some known) values = some none
      ↔ acl_value_addrs env known values = []) ∧
    ∀ m, resolve_acls env (some known) values = some (some m) →
      List.Sorted (· < ·) m.used ∧ m.length ≤ env.acl_capacity ∧
      ∃ pre rest, acl_value_addrs env known values = pre ++ rest ∧
        (∀ x, x ∈ m.used ↔ x ∈ pre.map padded_addr) ∧
        (rest = [] ∨
          (m.length = env.acl_capacity ∧
            ∃ a rest2, rest = a :: rest2 ∧ padded_addr a ∉ m.used)) := by
  have hnew_used : (acl_map_new0 env.acl_capacity).used = [] := by
    simp [acl_map_new0, acl_map.used]
  have hnew_len : (acl_map_new0 env.acl_capacity).entries.length = env.acl_capacity := by
    simp [acl_map_new0]
  obtain ⟨i1, i2, i3, pre, rest, hsplit, hmem, hrest⟩ :=
    add_acl_addrs_spec (acl_value_addrs env known values) (acl_map_new0 env.acl_capacity)
      (by rw [hnew_used]; exact List.sorted_nil) (by simp [acl_map_new0])
      (by rw [hnew_len]; exact h32)
  have hres : resolve_acls env (some known) values
      = some (if (add_acl_addrs (acl_value_addrs env known values)
            (acl_map_new0 env.acl_capacity)).2.length ≠ 0
          then some (add_acl_addrs (acl_value_addrs env known values)
            (acl_map_new0 env.acl_capacity)).2
          else none) := by
    unfold resolve_acls
    rw [resolve_acls_loop_eq]
    rfl
  rw [hnew_len] at i3
  simp only [hnew_used, List.not_mem_nil, false_or] at hmem
  generalize add_acl_addrs (acl_value_addrs env known values)
    (acl_map_new0 env.acl_capacity) = res at *
  have hzero : res.2.length = 0 ↔ acl_value_addrs env known values = [] := by
    constructor
    · intro h0
      have hu : res.2.used = [] := by
        apply List.eq_nil_of_length_eq_zero
        rw [used_length _ i2, h0]
      rcases hrest with hr | ⟨hfull, _⟩
      · cases pre with
        | nil => rw [hsplit, hr]; rfl
        | cons a pre =>
          have := (hmem (padded_addr a)).2 (by simp)
          rw [hu] at this
          cases this
      · omega
    · intro he
      rw [he] at hsplit
      have hpre : pre = [] := (List.append_eq_nil.1 hsplit.symm).1
      subst hpre
      have hu : res.2.used = [] := by
        apply List.eq_nil_iff_forall_not_mem.2
        intro x hx
        have := (hmem x).1 hx
        simp at this
      have := used_length _ i2
      rw [hu] at this
      simpa using this.symm
  refine ⟨⟨_, hres⟩, ?_, ?_⟩
  · rw [hres, ← hzero]
    constructor
    · intro h
      by_contra hne
      rw [if_pos hne] at h
      cases h
    · intro h
      rw [if_neg (by simp [h])]
  · intro m hm
    rw [hres] at hm
    split at hm
    · simp only [Option.some.injEq] at hm
      subst hm
      exact ⟨i1, by omega, pre, rest, hsplit, hmem, by rw [← i3]; exact hrest⟩
    · cases hm

theorem resolve_acls_members_witness :
    0 < acl_env_example.acl_capacity ∧ acl_env_example.acl_capacity < 2 ^ 32 ∧
    resolve_acls acl_env_example (some acl_known_example) ["1:0:0:0:0:0", "a"]
      = some (some { length := 2, entries := [1, 2] }) ∧
    acl_value_addrs acl_env_example acl_known_example ["1:0:0:0:0:0", "a"]
      = [mac_of_octet 1, mac_of_octet 2, mac_of_octet 3] ∧
    (List.Sorted (· < ·) ({ length := 2, entries := [1, 2] } : acl_map).used ∧
      ({ length := 2, entries := [1, 2] } : acl_map).length ≤ acl_env_example.acl_capacity ∧
      ∃ pre rest,
        acl_value_addrs acl_env_example acl_known_example ["1:0:0:0:0:0", "a"] = pre ++ rest ∧
        (∀ x, x ∈ ({ length := 2, entries := [1, 2] } : acl_map).used
          ↔ x ∈ pre.map padded_addr) ∧
        (rest = [] ∨
          (({ length := 2, entries := [1, 2] } : acl_map).length
              = acl_env_example.acl_capacity ∧
            ∃ a rest2, rest = a :: rest2 ∧
              padded_addr a ∉ ({ length := 2, entries := [1, 2] } : acl_map).used))) :=
  ⟨by decide, by decide, by decide, by decide,
    (resolve_acls_members acl_env_example acl_known_example ["1:0:0:0:0:0", "a"] (by decide)
      (by decide)).2.2 _ (by decide)⟩

end Ggaoed
